import Mathlib

/-!
# IoT Analytics channel and datastore resources

A shallow embedding of `aws/resource_aws_iotanalytics_channel.go` and
`aws/resource_aws_iotanalytics_datastore.go`.

* Go values of type `interface{}` are the inductive `Value`.
* A `map[string]interface{}` is an association list `GoMap`; a map-typed
  variable that may be `nil` is an `Option GoMap`.
* A Go pointer is an `Option`.
* A failed type assertion and a nil dereference are run-time panics; code
  that can panic returns `Except Fault _`.
* The SDK client is a scripted `World`: streams of pending outcomes, one per
  kind of remote call, and a trace of the calls and sleeps performed.
-/

set_option autoImplicit false

namespace IotAnalytics

/-! ## Go values -/

/-- Run-time panics of the Go code. -/
inductive Fault where
  | typeAssertion
  | nilDereference
  | indexOutOfRange
  deriving DecidableEq, Repr

/-- A Go value stored in an `interface{}`. The constructor `map` holds the
entries of a `map[string]interface{}`; a nil map, which reads like the empty
map, is `map []`. -/
inductive Value where
  | nil : Value
  | str : String → Value
  | int : Int → Value
  | bool : Bool → Value
  | list : List Value → Value
  | map : List (String × Value) → Value

/-- A non-nil `map[string]interface{}`. Reading a key takes the first entry
with that key. -/
abbrev GoMap := List (String × Value)

/-- The two-valued read `v, ok := m[k]`. -/
def GoMap.get? (m : GoMap) (k : String) : Option Value :=
  List.lookup k m

/-- The one-valued read `m[k]`: the zero value of `interface{}` when the key is absent. -/
def GoMap.get (m : GoMap) (k : String) : Value :=
  (m.get? k).getD Value.nil

/-- The assignment `m[k] = v`. -/
def GoMap.set (m : GoMap) (k : String) (v : Value) : GoMap :=
  (m.filter (fun e => !(e.1 == k))) ++ [(k, v)]

/-- Two maps are the same Go map when every key reads the same in both. -/
def GoMap.Same (m₁ m₂ : GoMap) : Prop :=
  ∀ k : String, m₁.get? k = m₂.get? k

/-- The type assertion `v.(string)`. -/
def Value.asString : Value → Except Fault String
  | .str s => .ok s
  | _ => .error .typeAssertion

/-- The type assertion `v.([]interface{})`. -/
def Value.asList : Value → Except Fault (List Value)
  | .list xs => .ok xs
  | _ => .error .typeAssertion

/-- The type assertion `v.(map[string]interface{})`. -/
def Value.asMap : Value → Except Fault GoMap
  | .map m => .ok m
  | _ => .error .typeAssertion

/-- The index expression `list[0]`. -/
def index0 (list : List Value) : Except Fault Value :=
  match list with
  | [] => .error .indexOutOfRange
  | v :: _ => .ok v

/-- Modelled from the spec: `wrapMapInList` is defined outside the two resource
files; it maps a nil map to the empty list and a non-nil map `x` to `[x]`. -/
def wrapMapInList (mapping : Option GoMap) : List Value :=
  match mapping with
  | none => []
  | some m => [Value.map m]

/-! ## SDK types (`iotanalytics`) -/

structure CustomerManagedChannelS3Storage where
  Bucket : Option String
  KeyPrefix : Option String
  RoleArn : Option String
  deriving DecidableEq, Repr

structure ServiceManagedChannelS3Storage where
  deriving DecidableEq, Repr

structure ChannelStorage where
  CustomerManagedS3 : Option CustomerManagedChannelS3Storage
  ServiceManagedS3 : Option ServiceManagedChannelS3Storage
  deriving DecidableEq, Repr

structure CustomerManagedDatastoreS3Storage where
  Bucket : Option String
  KeyPrefix : Option String
  RoleArn : Option String
  deriving DecidableEq, Repr

structure ServiceManagedDatastoreS3Storage where
  deriving DecidableEq, Repr

structure DatastoreStorage where
  CustomerManagedS3 : Option CustomerManagedDatastoreS3Storage
  ServiceManagedS3 : Option ServiceManagedDatastoreS3Storage
  deriving DecidableEq, Repr

structure RetentionPeriod where
  NumberOfDays : Option Int
  Unlimited : Option Bool
  deriving DecidableEq, Repr

/-- The helper `aws.StringValue`: the empty string for a nil pointer. -/
def StringValue (p : Option String) : String :=
  p.getD ""

/-! ## Marshaling: channel -/

def parseChannelCustomerManagedS3 (rawCustomerManagedS3 : GoMap) :
    Except Fault CustomerManagedChannelS3Storage := do
  let bucket ← (rawCustomerManagedS3.get "bucket").asString
  let roleArn ← (rawCustomerManagedS3.get "role_arn").asString
  let customerManagedS3 : CustomerManagedChannelS3Storage :=
    { Bucket := some bucket, KeyPrefix := none, RoleArn := some roleArn }
  match rawCustomerManagedS3.get? "key_prefix" with
  | some v =>
    let s ← v.asString
    if s.length ≥ 1 then
      pure { customerManagedS3 with KeyPrefix := some s }
    else
      pure customerManagedS3
  | none => pure customerManagedS3

def parseChannelServiceManagedS3 (_rawServiceManagedS3 : GoMap) :
    ServiceManagedChannelS3Storage :=
  {}

def parseChannelStorage (rawChannelStorage : GoMap) : Except Fault ChannelStorage := do
  let list ← (rawChannelStorage.get "customer_managed_s3").asList
  let customerManagedS3 ←
    if list.length > 0 then do
      let rawCustomerManagedS3 ← (← index0 list).asMap
      let c ← parseChannelCustomerManagedS3 rawCustomerManagedS3
      pure (some c)
    else pure none
  let list ← (rawChannelStorage.get "service_managed_s3").asList
  let serviceManagedS3 ←
    if list.length > 0 then do
      let rawServiceManagedS3 ← (← index0 list).asMap
      pure (some (parseChannelServiceManagedS3 rawServiceManagedS3))
    else pure none
  pure { CustomerManagedS3 := customerManagedS3, ServiceManagedS3 := serviceManagedS3 }

def flattenChannelCustomerManagedS3 (customerManagedS3 : Option CustomerManagedChannelS3Storage) :
    Option GoMap :=
  match customerManagedS3 with
  | none => none
  | some c =>
    let rawCustomerManagedS3 : GoMap := []
    let rawCustomerManagedS3 := rawCustomerManagedS3.set "bucket" (.str (StringValue c.Bucket))
    let rawCustomerManagedS3 := rawCustomerManagedS3.set "role_arn" (.str (StringValue c.RoleArn))
    if c.KeyPrefix.isSome then
      some (rawCustomerManagedS3.set "key_prefix" (.str (StringValue c.KeyPrefix)))
    else
      some rawCustomerManagedS3

def flattenChannelServiceManagedS3 (serviceManagedS3 : Option ServiceManagedChannelS3Storage) :
    Option GoMap :=
  match serviceManagedS3 with
  | none => none
  | some _ => some []

/-- The argument is a pointer that the function dereferences without a nil
check: `channelStorage.CustomerManagedS3` panics on a nil `channelStorage`. -/
def flattenChannelStorage (channelStorage : Option ChannelStorage) :
    Except Fault (Option GoMap) :=
  match channelStorage with
  | none => .error .nilDereference
  | some cs =>
    let customerManagedS3 := flattenChannelCustomerManagedS3 cs.CustomerManagedS3
    let serviceManagedS3 := flattenChannelServiceManagedS3 cs.ServiceManagedS3
    if customerManagedS3.isNone && serviceManagedS3.isNone then
      .ok none
    else
      let rawStorage : GoMap := []
      let rawStorage := rawStorage.set "customer_managed_s3" (.list (wrapMapInList customerManagedS3))
      let rawStorage := rawStorage.set "service_managed_s3" (.list (wrapMapInList serviceManagedS3))
      .ok (some rawStorage)

/-! ## Marshaling: datastore -/

def parseDatastoreCustomerManagedS3 (rawCustomerManagedS3 : GoMap) :
    Except Fault CustomerManagedDatastoreS3Storage := do
  let bucket ← (rawCustomerManagedS3.get "bucket").asString
  let roleArn ← (rawCustomerManagedS3.get "role_arn").asString
  let customerManagedS3 : CustomerManagedDatastoreS3Storage :=
    { Bucket := some bucket, KeyPrefix := none, RoleArn := some roleArn }
  match rawCustomerManagedS3.get? "key_prefix" with
  | some v =>
    let s ← v.asString
    if s.length ≥ 1 then
      pure { customerManagedS3 with KeyPrefix := some s }
    else
      pure customerManagedS3
  | none => pure customerManagedS3

def parseDatastoreServiceManagedS3 (_rawServiceManagedS3 : GoMap) :
    ServiceManagedDatastoreS3Storage :=
  {}

def parseDatastoreStorage (rawDatastoreStorage : GoMap) : Except Fault DatastoreStorage := do
  let list ← (rawDatastoreStorage.get "customer_managed_s3").asList
  let customerManagedS3 ←
    if list.length > 0 then do
      let rawCustomerManagedS3 ← (← index0 list).asMap
      let c ← parseDatastoreCustomerManagedS3 rawCustomerManagedS3
      pure (some c)
    else pure none
  let list ← (rawDatastoreStorage.get "service_managed_s3").asList
  let serviceManagedS3 ←
    if list.length > 0 then do
      let rawServiceManagedS3 ← (← index0 list).asMap
      pure (some (parseDatastoreServiceManagedS3 rawServiceManagedS3))
    else pure none
  pure { CustomerManagedS3 := customerManagedS3, ServiceManagedS3 := serviceManagedS3 }

def flattenDatastoreCustomerManagedS3 (customerManagedS3 : Option CustomerManagedDatastoreS3Storage) :
    Option GoMap :=
  match customerManagedS3 with
  | none => none
  | some c =>
    let rawCustomerManagedS3 : GoMap := []
    let rawCustomerManagedS3 := rawCustomerManagedS3.set "bucket" (.str (StringValue c.Bucket))
    let rawCustomerManagedS3 := rawCustomerManagedS3.set "role_arn" (.str (StringValue c.RoleArn))
    if c.KeyPrefix.isSome then
      some (rawCustomerManagedS3.set "key_prefix" (.str (StringValue c.KeyPrefix)))
    else
      some rawCustomerManagedS3

def flattenDatastoreServiceManagedS3 (serviceManagedS3 : Option ServiceManagedDatastoreS3Storage) :
    Option GoMap :=
  match serviceManagedS3 with
  | none => none
  | some _ => some []

/-- The argument is a pointer that the function dereferences without a nil
check: `datastoreStorage.CustomerManagedS3` panics on a nil `datastoreStorage`. -/
def flattenDatastoreStorage (datastoreStorage : Option DatastoreStorage) :
    Except Fault (Option GoMap) :=
  match datastoreStorage with
  | none => .error .nilDereference
  | some cs =>
    let customerManagedS3 := flattenDatastoreCustomerManagedS3 cs.CustomerManagedS3
    let serviceManagedS3 := flattenDatastoreServiceManagedS3 cs.ServiceManagedS3
    if customerManagedS3.isNone && serviceManagedS3.isNone then
      .ok none
    else
      let rawStorage : GoMap := []
      let rawStorage := rawStorage.set "customer_managed_s3" (.list (wrapMapInList customerManagedS3))
      let rawStorage := rawStorage.set "service_managed_s3" (.list (wrapMapInList serviceManagedS3))
      .ok (some rawStorage)


/-! ## The SDK client, the clock and the resource data -/

/-- A Go `error` value returned by the SDK. -/
structure AwsError where
  code : String
  message : String
  deriving DecidableEq, Repr

structure CreateChannelInput where
  ChannelName : Option String
  ChannelStorage : Option ChannelStorage
  RetentionPeriod : Option RetentionPeriod
  deriving DecidableEq, Repr

structure UpdateChannelInput where
  ChannelName : Option String
  ChannelStorage : Option ChannelStorage
  RetentionPeriod : Option RetentionPeriod
  deriving DecidableEq, Repr

structure DescribeChannelInput where
  ChannelName : Option String
  deriving DecidableEq, Repr

structure DeleteChannelInput where
  ChannelName : Option String
  deriving DecidableEq, Repr

structure Channel where
  Name : Option String
  Storage : Option ChannelStorage
  RetentionPeriod : Option RetentionPeriod
  deriving DecidableEq, Repr

structure DescribeChannelOutput where
  Channel : Option Channel
  deriving DecidableEq, Repr

structure CreateDatastoreInput where
  DatastoreName : Option String
  DatastoreStorage : Option DatastoreStorage
  RetentionPeriod : Option RetentionPeriod
  deriving DecidableEq, Repr

structure UpdateDatastoreInput where
  DatastoreName : Option String
  DatastoreStorage : Option DatastoreStorage
  RetentionPeriod : Option RetentionPeriod
  deriving DecidableEq, Repr

structure DescribeDatastoreInput where
  DatastoreName : Option String
  deriving DecidableEq, Repr

structure DeleteDatastoreInput where
  DatastoreName : Option String
  deriving DecidableEq, Repr

structure Datastore where
  Name : Option String
  Storage : Option DatastoreStorage
  RetentionPeriod : Option RetentionPeriod
  deriving DecidableEq, Repr

structure DescribeDatastoreOutput where
  Datastore : Option Datastore
  deriving DecidableEq, Repr

/-- What the handlers do to the outside: the remote calls, with their
requests, and the sleeps, with their length in seconds. -/
inductive Event where
  | CreateChannel (params : CreateChannelInput)
  | UpdateChannel (params : UpdateChannelInput)
  | DescribeChannel (params : DescribeChannelInput)
  | DeleteChannel (params : DeleteChannelInput)
  | CreateDatastore (params : CreateDatastoreInput)
  | UpdateDatastore (params : UpdateDatastoreInput)
  | DescribeDatastore (params : DescribeDatastoreInput)
  | DeleteDatastore (params : DeleteDatastoreInput)
  | Sleep (seconds : Nat)
  deriving DecidableEq, Repr

/-- The outside of a handler. `mutateOutcomes n` is the outcome of the
`n`-th mutating call (create or update) still to come, counted from 0, with
`none` for success; likewise for the describe and delete calls. `trace` lists
what has been done so far, oldest first. -/
structure World where
  mutateOutcomes : Nat → Option AwsError
  describeChannelOutcomes : Nat → Except AwsError DescribeChannelOutput
  describeDatastoreOutcomes : Nat → Except AwsError DescribeDatastoreOutput
  deleteOutcomes : Nat → Option AwsError
  trace : List Event

/-- One mutating call: takes the next pending outcome and records the call. -/
def World.mutate (ev : Event) (w : World) : Option AwsError × World :=
  (w.mutateOutcomes 0,
   { w with mutateOutcomes := fun n => w.mutateOutcomes (n + 1), trace := w.trace ++ [ev] })

/-- One delete call: takes the next pending outcome and records the call. -/
def World.delete (ev : Event) (w : World) : Option AwsError × World :=
  (w.deleteOutcomes 0,
   { w with deleteOutcomes := fun n => w.deleteOutcomes (n + 1), trace := w.trace ++ [ev] })

def CreateChannel (params : CreateChannelInput) (w : World) : Option AwsError × World :=
  w.mutate (.CreateChannel params)

def UpdateChannel (params : UpdateChannelInput) (w : World) : Option AwsError × World :=
  w.mutate (.UpdateChannel params)

def DeleteChannel (params : DeleteChannelInput) (w : World) : Option AwsError × World :=
  w.delete (.DeleteChannel params)

def DescribeChannel (params : DescribeChannelInput) (w : World) :
    Except AwsError DescribeChannelOutput × World :=
  (w.describeChannelOutcomes 0,
   { w with describeChannelOutcomes := fun n => w.describeChannelOutcomes (n + 1),
            trace := w.trace ++ [.DescribeChannel params] })

def CreateDatastore (params : CreateDatastoreInput) (w : World) : Option AwsError × World :=
  w.mutate (.CreateDatastore params)

def UpdateDatastore (params : UpdateDatastoreInput) (w : World) : Option AwsError × World :=
  w.mutate (.UpdateDatastore params)

def DeleteDatastore (params : DeleteDatastoreInput) (w : World) : Option AwsError × World :=
  w.delete (.DeleteDatastore params)

def DescribeDatastore (params : DescribeDatastoreInput) (w : World) :
    Except AwsError DescribeDatastoreOutput × World :=
  (w.describeDatastoreOutcomes 0,
   { w with describeDatastoreOutcomes := fun n => w.describeDatastoreOutcomes (n + 1),
            trace := w.trace ++ [.DescribeDatastore params] })

/-- The call `time.Sleep(time.Duration(sleepSeconds) * time.Second)`. -/
def Sleep (sleepSeconds : Nat) (w : World) : World :=
  { w with trace := w.trace ++ [.Sleep sleepSeconds] }

/-- The `schema.ResourceData` of a channel or datastore: the identifier and
the three attributes of the schema. `storage` and `retention_period` hold the
elements of the set as `d.Get(...).(*schema.Set).List()` returns them, that is
as read through the schema. -/
structure ResourceData where
  id : String
  name : String
  storage : List Value
  retention_period : List Value

def ResourceData.SetId (d : ResourceData) (v : String) : ResourceData :=
  { d with id := v }

/-- The call `d.Set("name", p)` with a `*string`: the framework stores the
pointed-to string, and the zero value for a nil pointer. -/
def ResourceData.SetName (d : ResourceData) (p : Option String) : ResourceData :=
  { d with name := StringValue p }

/-- A string attribute read through the schema by `schema.ResourceData`: an
attribute that is not set reads as the empty string. -/
def readBackString (v : Option Value) : Value :=
  match v with
  | some (.str s) => .str s
  | _ => .str ""

/-- An element of a `customer_managed_s3` list read through the schema of
`generateChannelCustomerManagedS3Schema` (the same for the datastore): the
three string attributes are all present, `key_prefix` as the empty string
when it is not set. -/
def readBackCustomerManagedS3 : Value → Value
  | .map m =>
    .map [("bucket", readBackString (GoMap.get? m "bucket")),
          ("key_prefix", readBackString (GoMap.get? m "key_prefix")),
          ("role_arn", readBackString (GoMap.get? m "role_arn"))]
  | v => v

/-- An element of a `service_managed_s3` list read through the schema of
`generateChannelServiceManagedS3Schema` (the same for the datastore), a
resource without any attribute: `schema.ResourceData` gives such an element
back as the nil interface. -/
def readBackServiceManagedS3 (_v : Value) : Value :=
  .nil

/-- A list attribute read through the schema, its elements read by `f`; a list
that is not set reads as the empty list. -/
def readBackList (f : Value → Value) : Value → Value
  | .list xs => .list (xs.map f)
  | _ => .list []

/-- An element of the `storage` set read through the schema of
`generateChannelStorageSchema` (the same for the datastore). -/
def readBackStorage : Value → Value
  | .map m =>
    .map [("customer_managed_s3",
            readBackList readBackCustomerManagedS3 (GoMap.get m "customer_managed_s3")),
          ("service_managed_s3",
            readBackList readBackServiceManagedS3 (GoMap.get m "service_managed_s3"))]
  | v => v

/-- The call `d.Set("storage", v)`: afterwards `d.Get("storage")` gives the
elements of `v` as read through the schema. -/
def ResourceData.SetStorage (d : ResourceData) (v : List Value) : ResourceData :=
  { d with storage := v.map readBackStorage }

/-- The retention-period helpers `parseRetentionPeriod` and
`flattenRetentionPeriod` and the schema of `retention_period` are defined
outside the two resource files; the handlers take the helpers as parameters,
and what `flattenRetentionPeriod` gives stands for the attribute as read
through that schema. -/
structure RetentionHelpers where
  parseRetentionPeriod : GoMap → Except Fault (Option RetentionPeriod)
  flattenRetentionPeriod : Option RetentionPeriod → Except Fault (Option GoMap)

/-- What a handler gives back: `nil`, an error, or a panic. -/
inductive Ret where
  | nil
  | err (e : AwsError)
  | panic (f : Fault)
  deriving DecidableEq, Repr

/-- The statement `return err`. -/
def Ret.ofError : Option AwsError → Ret
  | none => .nil
  | some e => .err e

def retrySecondsList : List Nat := [1, 2, 5, 8, 10, 0]

/-- The loop `for _, sleepSeconds := range retrySecondsList` of the create
and update handlers, with `call` the SDK call of the handler: the call, then
`break` on success, else the sleep and the next round. The second argument is
the variable `err`. -/
def retryLoop (call : World → Option AwsError × World) :
    List Nat → Option AwsError → World → Option AwsError × World
  | [], err, w => (err, w)
  | sleepSeconds :: rest, _, w =>
    match call w with
    | (none, w₁) => (none, w₁)
    | (some e, w₁) => retryLoop call rest (some e) (Sleep sleepSeconds w₁)

/-! ## Handlers: channel -/

def resourceAwsIotAnalyticsChannelRead (hp : RetentionHelpers) (d : ResourceData) (w : World) :
    Ret × ResourceData × World :=
  let params : DescribeChannelInput := { ChannelName := some d.id }
  match DescribeChannel params w with
  | (.error err, w) => (.err err, d, w)
  | (.ok out, w) =>
    match out.Channel with
    | none => (.panic .nilDereference, d, w)
    | some channel =>
      let d := d.SetName channel.Name
      match flattenChannelStorage channel.Storage with
      | .error f => (.panic f, d, w)
      | .ok storage =>
        let d := d.SetStorage (wrapMapInList storage)
        match hp.flattenRetentionPeriod channel.RetentionPeriod with
        | .error f => (.panic f, d, w)
        | .ok retentionPeriod =>
          (.nil, { d with retention_period := wrapMapInList retentionPeriod }, w)

/-- The request built by `resourceAwsIotAnalyticsChannelCreate` before its retry loop. -/
def channelCreateParams (hp : RetentionHelpers) (d : ResourceData) :
    Except Fault CreateChannelInput := do
  let params : CreateChannelInput :=
    { ChannelName := some d.name, ChannelStorage := none, RetentionPeriod := none }
  let channelStorageSet := d.storage
  let params ←
    if channelStorageSet.length ≥ 1 then do
      let rawChannelStorage ← (← index0 channelStorageSet).asMap
      let s ← parseChannelStorage rawChannelStorage
      pure { params with ChannelStorage := some s }
    else pure params
  let retentionPeriodSet := d.retention_period
  let params ←
    if retentionPeriodSet.length ≥ 1 then do
      let rawRetentionPeriod ← (← index0 retentionPeriodSet).asMap
      let r ← hp.parseRetentionPeriod rawRetentionPeriod
      pure { params with RetentionPeriod := r }
    else pure params
  pure params

def resourceAwsIotAnalyticsChannelCreate (hp : RetentionHelpers) (d : ResourceData) (w : World) :
    Ret × ResourceData × World :=
  match channelCreateParams hp d with
  | .error f => (.panic f, d, w)
  | .ok params =>
    match retryLoop (CreateChannel params) retrySecondsList none w with
    | (some err, w) => (.err err, d, w)
    | (none, w) =>
      let d := d.SetId d.name
      resourceAwsIotAnalyticsChannelRead hp d w

/-- The request built by `resourceAwsIotAnalyticsChannelUpdate` before its retry loop. -/
def channelUpdateParams (hp : RetentionHelpers) (d : ResourceData) :
    Except Fault UpdateChannelInput := do
  let params : UpdateChannelInput :=
    { ChannelName := some d.name, ChannelStorage := none, RetentionPeriod := none }
  let channelStorageSet := d.storage
  let params ←
    if channelStorageSet.length ≥ 1 then do
      let rawChannelStorage ← (← index0 channelStorageSet).asMap
      let s ← parseChannelStorage rawChannelStorage
      pure { params with ChannelStorage := some s }
    else pure params
  let retentionPeriodSet := d.retention_period
  let params ←
    if retentionPeriodSet.length ≥ 1 then do
      let rawRetentionPeriod ← (← index0 retentionPeriodSet).asMap
      let r ← hp.parseRetentionPeriod rawRetentionPeriod
      pure { params with RetentionPeriod := r }
    else pure params
  pure params

def resourceAwsIotAnalyticsChannelUpdate (hp : RetentionHelpers) (d : ResourceData) (w : World) :
    Ret × ResourceData × World :=
  match channelUpdateParams hp d with
  | .error f => (.panic f, d, w)
  | .ok params =>
    match retryLoop (UpdateChannel params) retrySecondsList none w with
    | (some err, w) => (.err err, d, w)
    | (none, w) => resourceAwsIotAnalyticsChannelRead hp d w

def resourceAwsIotAnalyticsChannelDelete (d : ResourceData) (w : World) :
    Ret × ResourceData × World :=
  let params : DeleteChannelInput := { ChannelName := some d.id }
  match DeleteChannel params w with
  | (err, w) => (Ret.ofError err, d, w)

/-! ## Handlers: datastore -/

def resourceAwsIotAnalyticsDatastoreRead (hp : RetentionHelpers) (d : ResourceData) (w : World) :
    Ret × ResourceData × World :=
  let params : DescribeDatastoreInput := { DatastoreName := some d.id }
  match DescribeDatastore params w with
  | (.error err, w) => (.err err, d, w)
  | (.ok out, w) =>
    match out.Datastore with
    | none => (.panic .nilDereference, d, w)
    | some datastore =>
      let d := d.SetName datastore.Name
      match flattenDatastoreStorage datastore.Storage with
      | .error f => (.panic f, d, w)
      | .ok storage =>
        let d := d.SetStorage (wrapMapInList storage)
        match hp.flattenRetentionPeriod datastore.RetentionPeriod with
        | .error f => (.panic f, d, w)
        | .ok retentionPeriod =>
          (.nil, { d with retention_period := wrapMapInList retentionPeriod }, w)

/-- The request built by `resourceAwsIotAnalyticsDatastoreCreate` before its retry loop. -/
def datastoreCreateParams (hp : RetentionHelpers) (d : ResourceData) :
    Except Fault CreateDatastoreInput := do
  let params : CreateDatastoreInput :=
    { DatastoreName := some d.name, DatastoreStorage := none, RetentionPeriod := none }
  let datastoreStorageSet := d.storage
  let params ←
    if datastoreStorageSet.length ≥ 1 then do
      let rawDatastoreStorage ← (← index0 datastoreStorageSet).asMap
      let s ← parseDatastoreStorage rawDatastoreStorage
      pure { params with DatastoreStorage := some s }
    else pure params
  let retentionPeriodSet := d.retention_period
  let params ←
    if retentionPeriodSet.length ≥ 1 then do
      let rawRetentionPeriod ← (← index0 retentionPeriodSet).asMap
      let r ← hp.parseRetentionPeriod rawRetentionPeriod
      pure { params with RetentionPeriod := r }
    else pure params
  pure params

def resourceAwsIotAnalyticsDatastoreCreate (hp : RetentionHelpers) (d : ResourceData) (w : World) :
    Ret × ResourceData × World :=
  match datastoreCreateParams hp d with
  | .error f => (.panic f, d, w)
  | .ok params =>
    match retryLoop (CreateDatastore params) retrySecondsList none w with
    | (some err, w) => (.err err, d, w)
    | (none, w) =>
      let d := d.SetId d.name
      resourceAwsIotAnalyticsDatastoreRead hp d w

/-- The request built by `resourceAwsIotAnalyticsDatastoreUpdate` before its retry loop. -/
def datastoreUpdateParams (hp : RetentionHelpers) (d : ResourceData) :
    Except Fault UpdateDatastoreInput := do
  let params : UpdateDatastoreInput :=
    { DatastoreName := some d.name, DatastoreStorage := none, RetentionPeriod := none }
  let datastoreStorageSet := d.storage
  let params ←
    if datastoreStorageSet.length ≥ 1 then do
      let rawDatastoreStorage ← (← index0 datastoreStorageSet).asMap
      let s ← parseDatastoreStorage rawDatastoreStorage
      pure { params with DatastoreStorage := some s }
    else pure params
  let retentionPeriodSet := d.retention_period
  let params ←
    if retentionPeriodSet.length ≥ 1 then do
      let rawRetentionPeriod ← (← index0 retentionPeriodSet).asMap
      let r ← hp.parseRetentionPeriod rawRetentionPeriod
      pure { params with RetentionPeriod := r }
    else pure params
  pure params

def resourceAwsIotAnalyticsDatastoreUpdate (hp : RetentionHelpers) (d : ResourceData) (w : World) :
    Ret × ResourceData × World :=
  match datastoreUpdateParams hp d with
  | .error f => (.panic f, d, w)
  | .ok params =>
    match retryLoop (UpdateDatastore params) retrySecondsList none w with
    | (some err, w) => (.err err, d, w)
    | (none, w) => resourceAwsIotAnalyticsDatastoreRead hp d w

def resourceAwsIotAnalyticsDatastoreDelete (d : ResourceData) (w : World) :
    Ret × ResourceData × World :=
  let params : DeleteDatastoreInput := { DatastoreName := some d.id }
  match DeleteDatastore params w with
  | (err, w) => (Ret.ofError err, d, w)

/-! ## Reading a trace -/

def Event.isMutating : Event → Bool
  | .CreateChannel _ => true
  | .UpdateChannel _ => true
  | .CreateDatastore _ => true
  | .UpdateDatastore _ => true
  | _ => false

def Event.isDescribe : Event → Bool
  | .DescribeChannel _ => true
  | .DescribeDatastore _ => true
  | _ => false

def Event.isDelete : Event → Bool
  | .DeleteChannel _ => true
  | .DeleteDatastore _ => true
  | _ => false

/-- The sleeps of a trace in order, each with its length in seconds. -/
def sleeps (t : List Event) : List Nat :=
  t.filterMap (fun e => match e with
    | .Sleep s => some s
    | _ => none)

/-- Number of create and update calls in a trace. -/
def mutatingCalls (t : List Event) : Nat := t.countP Event.isMutating

/-- Number of describe calls in a trace. -/
def describeCalls (t : List Event) : Nat := t.countP Event.isDescribe

/-- Number of delete calls in a trace. -/
def deleteCalls (t : List Event) : Nat := t.countP Event.isDelete

/-- Number of sleeps in a trace. -/
def sleepCount (t : List Event) : Nat := (sleeps t).length

/-- Total time slept in a trace, in seconds. -/
def sleptSeconds (t : List Event) : Nat := (sleeps t).sum

/-- The trace of failed attempts, each followed by its sleep. -/
def failTrace (ev : Event) : List Nat → List Event
  | [] => []
  | s :: rest => ev :: Event.Sleep s :: failTrace ev rest

/-- The world after `k` failed attempts and one successful attempt. -/
def afterSuccess (ev : Event) (k : Nat) (w : World) : World :=
  { w with mutateOutcomes := fun n => w.mutateOutcomes (n + (k + 1)),
           trace := w.trace ++ (failTrace ev (retrySecondsList.take k) ++ [ev]) }

/-- The world after six failed attempts. -/
def afterExhaustion (ev : Event) (w : World) : World :=
  { w with mutateOutcomes := fun n => w.mutateOutcomes (n + 6),
           trace := w.trace ++ failTrace ev retrySecondsList }

/-- The part of a create or update handler after its request is built: the
retry loop around the mutating call recorded as `ev`, the return of the
error, and otherwise the rest of the handler, `read`. -/
def viaRetry (ev : Event) (read : World → Ret × ResourceData × World)
    (d : ResourceData) (w : World) : Ret × ResourceData × World :=
  match retryLoop (World.mutate ev) retrySecondsList none w with
  | (some err, w) => (.err err, d, w)
  | (none, w) => read w

/-- The position, counted from 1, of the first success among the pending
outcomes is `k`. -/
def FirstSuccessAt (outcomes : Nat → Option AwsError) (k : Nat) : Prop :=
  1 ≤ k ∧ outcomes (k - 1) = none ∧ ∀ i, i < k - 1 → outcomes i ≠ none

/-- The rest of a handler after the retry loop makes one describe call and
nothing else to the outside. -/
def ReadLike (read : World → Ret × ResourceData × World) : Prop :=
  ∀ w, ∃ dev, dev.isDescribe = true ∧ (read w).2.2.trace = w.trace ++ [dev]

/-- The handler result `r`, started in the world `w`, has made `min 6 k`
mutating calls, with `k` the position of the first success among the pending
outcomes, and 6 calls when there is no success at all. -/
def CallsMinSix (w : World) (r : Ret × ResourceData × World) : Prop :=
  (∀ k, FirstSuccessAt w.mutateOutcomes k →
      mutatingCalls r.2.2.trace = mutatingCalls w.trace + min 6 k) ∧
  ((∀ i, w.mutateOutcomes i ≠ none) →
      mutatingCalls r.2.2.trace = mutatingCalls w.trace + 6)

/-- The handler result `r`, started in the world `w`, has slept the first
`k - 1` entries of the schedule when the first success is attempt `k ≤ 6`. -/
def SleepsBeforeSuccess (w : World) (r : Ret × ResourceData × World) : Prop :=
  ∀ k, k ≤ 6 → FirstSuccessAt w.mutateOutcomes k →
    sleeps r.2.2.trace = sleeps w.trace ++ retrySecondsList.take (k - 1) ∧
    sleptSeconds r.2.2.trace = sleptSeconds w.trace + (retrySecondsList.take (k - 1)).sum ∧
    (retrySecondsList.take (k - 1)).sum = [0, 1, 3, 8, 16, 26].getD (k - 1) 0

/-- The handler result `r`, started in the world `w`, is an error returned
before any describe call exactly when the six attempts fail, and the error
is then the one of the sixth attempt. -/
def ErrorIffExhausted (w : World) (r : Ret × ResourceData × World) : Prop :=
  ((describeCalls r.2.2.trace = describeCalls w.trace ∧ ∃ e, r.1 = .err e) ↔
      ∀ i, i < 6 → w.mutateOutcomes i ≠ none) ∧
  (∀ e, (∀ i, i < 6 → w.mutateOutcomes i ≠ none) → w.mutateOutcomes 5 = some e →
      r.1 = .err e)

/-- The handler result `r`, started in the world `w`, has slept at most 26
seconds, and 26 seconds exactly when the first five attempts fail. -/
def SleepBound (w : World) (r : Ret × ResourceData × World) : Prop :=
  sleptSeconds r.2.2.trace ≤ sleptSeconds w.trace + 26 ∧
  (sleptSeconds r.2.2.trace = sleptSeconds w.trace + 26 ↔
      ∀ i, i < 5 → w.mutateOutcomes i ≠ none)

/-- A create handler, started on `d` in the world `w` and with `afterLoop` the
world at the end of its retry loop: when one of the six attempts succeeds the
result `r` is the one of `read` on `d` with its identifier set to the name;
when the six attempts fail `d` is unchanged and no describe call is made. -/
def SetsIdIffSuccess (read : ResourceData → World → Ret × ResourceData × World)
    (afterLoop : World) (d : ResourceData) (w : World)
    (r : Ret × ResourceData × World) : Prop :=
  ((∃ i, i < 6 ∧ w.mutateOutcomes i = none) →
    r = read (d.SetId d.name) afterLoop ∧ r.2.1.id = d.name ∧
    describeCalls r.2.2.trace = describeCalls w.trace + 1) ∧
  ((∀ i, i < 6 → w.mutateOutcomes i ≠ none) →
    r.2.1 = d ∧ describeCalls r.2.2.trace = describeCalls w.trace)

/-! ## Statements about the storage marshaling -/

/-- The map without the key `k`. -/
def GoMap.erase (m : GoMap) (k : String) : GoMap :=
  m.filter (fun e => !(e.1 == k))

/-- The map `m` is a customer-managed storage configuration: a string
`bucket`, a string `role_arn`, an optional string `key_prefix`, and no other
key. -/
def IsCustomerManagedConfig (m : GoMap) : Prop :=
  (∃ b, m.get? "bucket" = some (.str b)) ∧
  (∃ r, m.get? "role_arn" = some (.str r)) ∧
  (m.get? "key_prefix" = none ∨ ∃ k, m.get? "key_prefix" = some (.str k)) ∧
  ∀ key, key ≠ "bucket" → key ≠ "role_arn" → key ≠ "key_prefix" → m.get? key = none

/-- The storage block `raw` contains only the customer-managed configuration `m`. -/
def IsCustomerOnlyBlock (raw m : GoMap) : Prop :=
  raw.get "customer_managed_s3" = .list [.map m] ∧ raw.get "service_managed_s3" = .list []

/-- The flattened storage map `out` has exactly one customer-managed element,
which is the same map as `m`, and no service-managed element. -/
def MirrorsCustomerOnly (out : Option GoMap) (m : GoMap) : Prop :=
  ∃ o m', out = some o ∧ o.get "customer_managed_s3" = .list [.map m'] ∧ GoMap.Same m' m ∧
    o.get "service_managed_s3" = .list []

/-- A configuration with an empty `key_prefix`. -/
def emptyPrefixConfig : GoMap :=
  [("bucket", .str "b1"), ("role_arn", .str "arn:aws:iam::1:role/r1"), ("key_prefix", .str "")]

/-- A configuration with a non-empty `key_prefix`. -/
def fullConfig : GoMap :=
  [("bucket", .str "b1"), ("role_arn", .str "arn:aws:iam::1:role/r1"), ("key_prefix", .str "in/")]

/-- The storage block with `m` as its only, customer-managed, element. -/
def customerOnlyBlock (m : GoMap) : GoMap :=
  [("customer_managed_s3", .list [.map m]), ("service_managed_s3", .list [])]

/-- Parsing the storage block `raw` and flattening the result gives a storage
map that mirrors the customer-managed configuration `m` alone (channel). -/
def ChannelRoundTrip (raw m : GoMap) : Prop :=
  ∃ s out, parseChannelStorage raw = .ok s ∧ flattenChannelStorage (some s) = .ok out ∧
    MirrorsCustomerOnly out m

/-- Parsing the storage block `raw` and flattening the result gives a storage
map that mirrors the customer-managed configuration `m` alone (datastore). -/
def DatastoreRoundTrip (raw m : GoMap) : Prop :=
  ∃ s out, parseDatastoreStorage raw = .ok s ∧ flattenDatastoreStorage (some s) = .ok out ∧
    MirrorsCustomerOnly out m

/-! ## Sample inputs -/

/-- Retention helpers that map everything to the nil pointer and the nil map. -/
def noRetention : RetentionHelpers :=
  { parseRetentionPeriod := fun _ => .ok none
    flattenRetentionPeriod := fun _ => .ok none }

/-- A resource named `"c1"` with no storage and no retention period. -/
def sampleData : ResourceData :=
  { id := "", name := "c1", storage := [], retention_period := [] }

def sampleError (n : Nat) : AwsError :=
  { code := "InvalidRequestException", message := toString n }

/-- A world whose first `failures` mutating calls fail, where describe gives
a service-managed resource, and where delete succeeds. -/
def sampleWorld (failures : Nat) : World :=
  { mutateOutcomes := fun n => if n < failures then some (sampleError n) else none
    describeChannelOutcomes := fun _ =>
      .ok { Channel := some { Name := some "c1",
                              Storage := some { CustomerManagedS3 := none, ServiceManagedS3 := some {} },
                              RetentionPeriod := none } }
    describeDatastoreOutcomes := fun _ =>
      .ok { Datastore := some { Name := some "c1",
                                Storage := some { CustomerManagedS3 := none, ServiceManagedS3 := some {} },
                                RetentionPeriod := none } }
    deleteOutcomes := fun _ => none
    trace := [] }

/-- A world in which describe gives a resource that has no storage object. -/
def noStorageWorld : World :=
  { mutateOutcomes := fun _ => none
    describeChannelOutcomes := fun _ =>
      .ok { Channel := some { Name := some "c1", Storage := none, RetentionPeriod := none } }
    describeDatastoreOutcomes := fun _ =>
      .ok { Datastore := some { Name := some "c1", Storage := none, RetentionPeriod := none } }
    deleteOutcomes := fun _ => none
    trace := [] }

/-- The result `res` of flattening a storage object whose variants are
present as `hasCustomer` and `hasService` say: the nil map exactly when no
variant is present, and otherwise a map with both keys, each list non-empty
exactly when its variant is present. -/
def FlattenSpec (res : Except Fault (Option GoMap)) (hasCustomer hasService : Bool) : Prop :=
  ∃ r, res = .ok r ∧
    (r = none ↔ (hasCustomer = false ∧ hasService = false)) ∧
    (∀ out, r = some out →
      ∃ lc ls, out.get? "customer_managed_s3" = some (.list lc) ∧
        out.get? "service_managed_s3" = some (.list ls) ∧
        (lc ≠ [] ↔ hasCustomer = true) ∧ (ls ≠ [] ↔ hasService = true))

/-- A world in which describe gives a resource whose storage object has no variant. -/
def unsetStorageWorld : World :=
  { mutateOutcomes := fun _ => none
    describeChannelOutcomes := fun _ =>
      .ok { Channel := some { Name := some "c1",
                              Storage := some { CustomerManagedS3 := none, ServiceManagedS3 := none },
                              RetentionPeriod := none } }
    describeDatastoreOutcomes := fun _ =>
      .ok { Datastore := some { Name := some "c1",
                                Storage := some { CustomerManagedS3 := none, ServiceManagedS3 := none },
                                RetentionPeriod := none } }
    deleteOutcomes := fun _ => none
    trace := [] }

/-- The raw storage map meets the `ConflictsWith` entries of
`generateChannelStorageSchema` (the same in the datastore schema):
`customer_managed_s3` and `service_managed_s3` are not both given, that is,
the two lists do not both have an element. -/
def MeetsConflictsWith (raw : GoMap) : Prop :=
  ¬ ∃ x xs y ys, raw.get "customer_managed_s3" = .list (x :: xs) ∧
    raw.get "service_managed_s3" = .list (y :: ys)

/-- A world in which every describe call fails with `sampleError 7`. -/
def describeFailsWorld : World :=
  { mutateOutcomes := fun _ => none
    describeChannelOutcomes := fun _ => .error (sampleError 7)
    describeDatastoreOutcomes := fun _ => .error (sampleError 7)
    deleteOutcomes := fun _ => none
    trace := [] }

/-! ## The Greengrass resource definition tests -/

/-- The `terraform.InstanceState` fields the tests read. `Attributes` is a
`map[string]string`. -/
structure InstanceState where
  ID : String
  Attributes : List (String × String)
  deriving DecidableEq, Repr

/-- The `terraform.ResourceState` fields the tests read: `Type_` is the field
`Type` and `Primary` is a pointer. -/
structure ResourceState where
  Type_ : String
  Primary : Option InstanceState
  deriving DecidableEq, Repr

/-- The resources of the root module of a `terraform.State`, a map from
resource name to resource state, listed in the order in which a `range` loop
visits them. The root module and the resource states in the map are taken to
be non-nil. -/
abbrev State := List (String × ResourceState)

/-- The `greengrass.DefinitionInformation` field the tests read; `Id` is a pointer. -/
structure DefinitionInformation where
  Id : Option String
  deriving DecidableEq, Repr

structure ListResourceDefinitionsInput where
  MaxResults : Option String
  deriving DecidableEq, Repr

/-- The output of the list call; the elements of `Definitions` are taken to be
non-nil pointers. -/
structure ListResourceDefinitionsOutput where
  Definitions : List DefinitionInformation
  deriving DecidableEq, Repr

/-- The Greengrass client of the tests: the outcomes of the list calls still
to come and the list calls made so far. -/
structure GreengrassConn where
  listOutcomes : Nat → Except AwsError ListResourceDefinitionsOutput
  listCalls : List ListResourceDefinitionsInput

def ListResourceDefinitions (params : ListResourceDefinitionsInput) (conn : GreengrassConn) :
    Except AwsError ListResourceDefinitionsOutput × GreengrassConn :=
  (conn.listOutcomes 0,
   { listOutcomes := fun n => conn.listOutcomes (n + 1), listCalls := conn.listCalls ++ [params] })

/-- An `error` returned by a test function: an error of the SDK passed on, or
one built by `fmt.Errorf`. -/
inductive TestError where
  | sdk (e : AwsError)
  | errorf (message : String)
  deriving DecidableEq, Repr

/-- What a test function gives back: `nil`, an error, or a panic. -/
inductive CheckRet where
  | nil
  | err (e : TestError)
  | panic (f : Fault)
  deriving DecidableEq, Repr

/-- The inner loop `for _, definition := range out.Definitions` of the destroy
check: `some e` when the loop returns the error `e`, `none` when it runs to
its end. -/
def checkDefinitions (rs : ResourceState) :
    List DefinitionInformation → Except Fault (Option TestError)
  | [] => .ok none
  | definition :: rest =>
    match definition.Id with
    | none => .error .nilDereference
    | some id =>
      match rs.Primary with
      | none => .error .nilDereference
      | some primary =>
        if id = primary.ID then
          .ok (some (.errorf
            ("Expected Greengrass Resource Definition to be destroyed, " ++ primary.ID ++ " found")))
        else checkDefinitions rs rest

def testAccCheckAWSGreengrassResourceDefinitionDestroy :
    State → GreengrassConn → CheckRet × GreengrassConn
  | [], conn => (.nil, conn)
  | (_, rs) :: rest, conn =>
    if rs.Type_ ≠ "aws_greengrass_resource_definition" then
      testAccCheckAWSGreengrassResourceDefinitionDestroy rest conn
    else
      let params : ListResourceDefinitionsInput := { MaxResults := some "20" }
      match ListResourceDefinitions params conn with
      | (.error err, conn) => (.err (.sdk err), conn)
      | (.ok out, conn) =>
        match checkDefinitions rs out.Definitions with
        | .error f => (.panic f, conn)
        | .ok (some e) => (.err e, conn)
        | .ok none => testAccCheckAWSGreengrassResourceDefinitionDestroy rest conn

/-- Some resource of the state has the Greengrass resource definition type and
a primary ID that is the Id of a definition of the listing. -/
def HasListedDefinition (s : State) (out : ListResourceDefinitionsOutput) : Prop :=
  ∃ name rs primary definition, (name, rs) ∈ s ∧
    rs.Type_ = "aws_greengrass_resource_definition" ∧ rs.Primary = some primary ∧
    definition ∈ out.Definitions ∧ definition.Id = some primary.ID

/-- The pointers the destroy check dereferences are set: every resource of the
Greengrass resource definition type has a primary instance and every listed
definition has an Id. -/
def NoNilPointers (s : State) (out : ListResourceDefinitionsOutput) : Prop :=
  (∀ name rs, (name, rs) ∈ s → rs.Type_ = "aws_greengrass_resource_definition" →
    rs.Primary ≠ none) ∧
  (∀ definition, definition ∈ out.Definitions → definition.Id ≠ none)

/-- The resources of the Greengrass resource definition type. -/
def definitionResources (s : State) : State :=
  s.filter (fun r => r.2.Type_ == "aws_greengrass_resource_definition")

/-- A state with a role and a destroyed and a surviving resource definition. -/
def sampleState : State :=
  [("aws_iam_role.r", { Type_ := "aws_iam_role", Primary := some { ID := "d2", Attributes := [] } }),
   ("aws_greengrass_resource_definition.a",
     { Type_ := "aws_greengrass_resource_definition",
       Primary := some { ID := "d1", Attributes := [] } }),
   ("aws_greengrass_resource_definition.b",
     { Type_ := "aws_greengrass_resource_definition",
       Primary := some { ID := "d3", Attributes := [] } })]

/-- A listing with the definitions `d2` and `d3`. -/
def sampleListing : ListResourceDefinitionsOutput :=
  { Definitions := [{ Id := some "d2" }, { Id := some "d3" }] }

/-- A client whose list calls all give `out`. -/
def constantConn (out : ListResourceDefinitionsOutput) : GreengrassConn :=
  { listOutcomes := fun _ => .ok out, listCalls := [] }

/-- A client whose list calls all fail with `e`. -/
def failingConn (e : AwsError) : GreengrassConn :=
  { listOutcomes := fun _ => .error e, listCalls := [] }

/-! ## The version tests of the Greengrass resource definition -/

/-- The data container of the `resource` block of a test configuration, one
constructor for each variant, with the attributes the configurations set. -/
inductive DataContainer where
  | LocalDevice (sourcePath : String) (autoAddGroupOwner : Bool) (groupOwner : String)
  | LocalVolume (sourcePath destinationPath : String) (autoAddGroupOwner : Bool)
      (groupOwner : String)
  | S3MachineLearningModel (s3Uri destinationPath : String)
  | SagemakerMachineLearningModel (sagemakerJobArn destinationPath : String)
  | SecretsManagerSecret (secretArn : String) (additionalStagingLabelsToDownload : List String)
  deriving DecidableEq, Repr

/-- The variant of a data container. -/
inductive ContainerVariant where
  | localDevice
  | localVolume
  | s3MachineLearningModel
  | sagemakerMachineLearningModel
  | secretsManagerSecret
  deriving DecidableEq, Repr

def DataContainer.variant : DataContainer → ContainerVariant
  | .LocalDevice _ _ _ => .localDevice
  | .LocalVolume _ _ _ _ => .localVolume
  | .S3MachineLearningModel _ _ => .s3MachineLearningModel
  | .SagemakerMachineLearningModel _ _ => .sagemakerMachineLearningModel
  | .SecretsManagerSecret _ _ => .secretsManagerSecret

/-- A resource specification of a Greengrass resource definition as the test
configurations declare it: the name and the `resource` block, if any, with its
id, name and data container. -/
structure DefinitionSpec where
  name : String
  resource : Option (String × String × DataContainer)
  deriving DecidableEq, Repr

/-- The variant of the data container of a specification. -/
def DefinitionSpec.variant (spec : DefinitionSpec) : Option ContainerVariant :=
  spec.resource.map (fun r => r.2.2.variant)

def testAccAWSGreengrassResourceDefinitionConfig_LocalDevice (rString : String) :
    DefinitionSpec :=
  { name := "resource_definition_" ++ rString
    resource := some ("test_id", "test_name", .LocalDevice "/dev/source" false "user") }

def testAccAWSGreengrassResourceDefinitionConfig_LocalVolume (rString : String) :
    DefinitionSpec :=
  { name := "resource_definition_" ++ rString
    resource := some ("test_id", "test_name",
      .LocalVolume "/dev/source" "/destination" false "user") }

/-- Modelled from the spec: the handlers of `aws_greengrass_resource_definition`
and the remote service are not among the source files. After the data model of
the spec, a deployment is the local state mirror (the specification the remote
object was last converged to, none before the create) together with the
remote object, of which only the number of versions it has had matters here. -/
structure Deployment where
  mirror : Option DefinitionSpec
  versions : Nat
  deriving DecidableEq, Repr

/-- Modelled from the spec: the operation `apply` on a Greengrass resource
definition, which is not among the source files. Convergence creates the
remote object when there is none; when the specification is identical to the
mirror there is no drift and nothing is changed remotely; otherwise the remote
object is updated, which gives it a new version. -/
def applySpec (spec : DefinitionSpec) (dep : Deployment) : Deployment :=
  match dep.mirror with
  | none => { mirror := some spec, versions := dep.versions + 1 }
  | some m =>
    if m = spec then dep
    else { mirror := some spec, versions := dep.versions + 1 }

/-- Modelled from the spec: the Terraform state that the absent handlers leave
after an apply: the one resource `aws_greengrass_resource_definition.test`
with the attribute `latest_definition_version_arn`, the version identifier of
the latest version of the remote object. The function `versionArn` gives the
identifier of the `n`-th version. -/
def stateOf (versionArn : Nat → String) (dep : Deployment) : State :=
  match dep.mirror with
  | none => []
  | some m =>
    [("aws_greengrass_resource_definition.test",
      { Type_ := "aws_greengrass_resource_definition"
        Primary := some
          { ID := "definition"
            Attributes := [("name", m.name),
              ("latest_definition_version_arn", versionArn dep.versions)] } })]

/-- The deployment before the first step of a test. -/
def emptyDeployment : Deployment :=
  { mirror := none, versions := 0 }

/-- The check returns an error or nil and stores the attribute in the
variable that `resource_version_arn` points to; the second component is the
value of that variable afterwards. -/
def testAccAWSGreengrassResourceDefinitionCheckAndGetResourceVersion (resourceName : String)
    (resource_version_arn : String) (s : State) : CheckRet × String :=
  match s.lookup resourceName with
  | none => (.err (.errorf ("Resource not found: " ++ resourceName)), resource_version_arn)
  | some rs =>
    match rs.Primary with
    | none => (.panic .nilDereference, resource_version_arn)
    | some primary =>
      match primary.Attributes.lookup "latest_definition_version_arn" with
      | none =>
        (.err (.errorf ("Latest definition version ARN does not exist for " ++ resourceName)),
          resource_version_arn)
      | some latest_definition_version_arn => (.nil, latest_definition_version_arn)

/-- The first two steps of the test: each applies its configuration, by the
modelled `applySpec`, and runs its check on the resulting state. -/
def TestAccAWSGreengrassResourceDefinition_versionNoop (versionArn : Nat → String)
    (rString : String) : CheckRet :=
  let resourceName := "aws_greengrass_resource_definition.test"
  let resource_version_arn_a := ""
  let resource_version_arn_b := ""
  let dep := applySpec (testAccAWSGreengrassResourceDefinitionConfig_LocalDevice rString)
    emptyDeployment
  match testAccAWSGreengrassResourceDefinitionCheckAndGetResourceVersion resourceName
      resource_version_arn_a (stateOf versionArn dep) with
  | (.nil, resource_version_arn_a) =>
    let dep := applySpec (testAccAWSGreengrassResourceDefinitionConfig_LocalDevice rString) dep
    match testAccAWSGreengrassResourceDefinitionCheckAndGetResourceVersion resourceName
        resource_version_arn_b (stateOf versionArn dep) with
    | (.nil, resource_version_arn_b) =>
      if resource_version_arn_a ≠ resource_version_arn_b then
        .err (.errorf ("Resource version ARN " ++ resource_version_arn_a ++ " has changed to "
          ++ resource_version_arn_b))
      else .nil
    | (r, _) => r
  | (r, _) => r

/-- The first two steps of the test: each applies its configuration, by the
modelled `applySpec`, and runs its check on the resulting state. -/
def TestAccAWSGreengrassResourceDefinition_versionDiff (versionArn : Nat → String)
    (rString : String) : CheckRet :=
  let resourceName := "aws_greengrass_resource_definition.test"
  let resource_version_arn_a := ""
  let resource_version_arn_b := ""
  let dep := applySpec (testAccAWSGreengrassResourceDefinitionConfig_LocalDevice rString)
    emptyDeployment
  match testAccAWSGreengrassResourceDefinitionCheckAndGetResourceVersion resourceName
      resource_version_arn_a (stateOf versionArn dep) with
  | (.nil, resource_version_arn_a) =>
    let dep := applySpec (testAccAWSGreengrassResourceDefinitionConfig_LocalVolume rString) dep
    match testAccAWSGreengrassResourceDefinitionCheckAndGetResourceVersion resourceName
        resource_version_arn_b (stateOf versionArn dep) with
    | (.nil, resource_version_arn_b) =>
      if resource_version_arn_a = resource_version_arn_b then
        .err (.errorf ("Resource version ARN " ++ resource_version_arn_b ++ " has not changed"))
      else .nil
    | (r, _) => r
  | (r, _) => r

/-- The attribute `latest_definition_version_arn` of the test resource in the
state of a deployment. -/
def latestDefinitionVersionArn (versionArn : Nat → String) (dep : Deployment) : Option String :=
  match (stateOf versionArn dep).lookup "aws_greengrass_resource_definition.test" with
  | none => none
  | some rs =>
    match rs.Primary with
    | none => none
    | some primary => primary.Attributes.lookup "latest_definition_version_arn"

/-- A version identifier for the `n`-th version: `n` letters `v`. -/
def sampleVersionArn (n : Nat) : String :=
  String.mk (List.replicate n 'v')

/-! ## Statements about re-sending a mirror -/

/-- A channel storage object with at least one variant present, whose
customer-managed variant, when present, has a bucket and a role ARN set and a
key prefix that is absent or a non-empty string. -/
def ChannelStorage.Resendable (s : ChannelStorage) : Prop :=
  (s.CustomerManagedS3.isSome = true ∨ s.ServiceManagedS3.isSome = true) ∧
  ∀ c, s.CustomerManagedS3 = some c →
    c.Bucket.isSome = true ∧ c.RoleArn.isSome = true ∧
    (c.KeyPrefix = none ∨ ∃ k, c.KeyPrefix = some k ∧ k.length ≥ 1)

/-- A datastore storage object with at least one variant present, whose
customer-managed variant, when present, has a bucket and a role ARN set and a
key prefix that is absent or a non-empty string. -/
def DatastoreStorage.Resendable (s : DatastoreStorage) : Prop :=
  (s.CustomerManagedS3.isSome = true ∨ s.ServiceManagedS3.isSome = true) ∧
  ∀ c, s.CustomerManagedS3 = some c →
    c.Bucket.isSome = true ∧ c.RoleArn.isSome = true ∧
    (c.KeyPrefix = none ∨ ∃ k, c.KeyPrefix = some k ∧ k.length ≥ 1)

/-- A resendable storage object with both variants. -/
def bothVariantsStorage : ChannelStorage :=
  { CustomerManagedS3 := some { Bucket := some "b1", KeyPrefix := some "in/",
                                RoleArn := some "arn:aws:iam::1:role/r1" },
    ServiceManagedS3 := some {} }

/-! ## Renaming the channel types into the datastore types -/

def CustomerManagedChannelS3Storage.toDatastore (c : CustomerManagedChannelS3Storage) :
    CustomerManagedDatastoreS3Storage :=
  { Bucket := c.Bucket, KeyPrefix := c.KeyPrefix, RoleArn := c.RoleArn }

def ServiceManagedChannelS3Storage.toDatastore (_s : ServiceManagedChannelS3Storage) :
    ServiceManagedDatastoreS3Storage :=
  {}

def ChannelStorage.toDatastore (s : ChannelStorage) : DatastoreStorage :=
  { CustomerManagedS3 := s.CustomerManagedS3.map CustomerManagedChannelS3Storage.toDatastore
    ServiceManagedS3 := s.ServiceManagedS3.map ServiceManagedChannelS3Storage.toDatastore }

def CreateChannelInput.toDatastore (p : CreateChannelInput) : CreateDatastoreInput :=
  { DatastoreName := p.ChannelName
    DatastoreStorage := p.ChannelStorage.map ChannelStorage.toDatastore
    RetentionPeriod := p.RetentionPeriod }

def UpdateChannelInput.toDatastore (p : UpdateChannelInput) : UpdateDatastoreInput :=
  { DatastoreName := p.ChannelName
    DatastoreStorage := p.ChannelStorage.map ChannelStorage.toDatastore
    RetentionPeriod := p.RetentionPeriod }

/-- The datastore handler result `r'` and the channel handler result `r`,
both started in the world `w`, have made the same number of mutating calls
and the same sleeps, and return the same value when the six attempts fail. -/
def SameRetry (w : World) (r r' : Ret × ResourceData × World) : Prop :=
  mutatingCalls r'.2.2.trace = mutatingCalls r.2.2.trace ∧
  sleeps r'.2.2.trace = sleeps r.2.2.trace ∧
  r'.2.2.mutateOutcomes = r.2.2.mutateOutcomes ∧
  ((∀ i, i < 6 → w.mutateOutcomes i ≠ none) → r'.1 = r.1)

/-- The first `i` resources of `t` are checked against the listings of the
first `i` list calls of `conn`, and each passes: its list call succeeds and
the inner loop over the listed definitions runs to its end. -/
def PassesBefore (t : State) (conn : GreengrassConn) (i : Nat) : Prop :=
  ∀ j, j < i → ∃ name rs out, t[j]? = some (name, rs) ∧ conn.listOutcomes j = .ok out ∧
    checkDefinitions rs out.Definitions = .ok none

/-- The client `conn` after `n` more list calls. -/
def afterListCalls (conn : GreengrassConn) (n : Nat) : GreengrassConn :=
  { listOutcomes := fun k => conn.listOutcomes (k + n)
    listCalls := conn.listCalls ++ List.replicate n { MaxResults := some "20" } }

/-- A client whose first list call gives `out` and whose later list calls
fail with `e`. -/
def laterFailingConn (out : ListResourceDefinitionsOutput) (e : AwsError) : GreengrassConn :=
  { listOutcomes := fun n => if n = 0 then .ok out else .error e, listCalls := [] }

/-- A world in which describe gives a resource with customer-managed storage
and no key prefix. -/
def customerManagedWorld : World :=
  { mutateOutcomes := fun _ => none
    describeChannelOutcomes := fun _ =>
      .ok { Channel := some { Name := some "c1",
                              Storage := some
                                { CustomerManagedS3 := some
                                    { Bucket := some "b1", KeyPrefix := none,
                                      RoleArn := some "arn:aws:iam::1:role/r1" },
                                  ServiceManagedS3 := none },
                              RetentionPeriod := none } }
    describeDatastoreOutcomes := fun _ =>
      .ok { Datastore := some { Name := some "c1",
                                Storage := some
                                  { CustomerManagedS3 := some
                                      { Bucket := some "b1", KeyPrefix := none,
                                        RoleArn := some "arn:aws:iam::1:role/r1" },
                                    ServiceManagedS3 := none },
                                RetentionPeriod := none } }
    deleteOutcomes := fun _ => none
    trace := [] }

/-! ## The retry loop -/

theorem retryLoop_first_success (ev : Event) :
    ∀ (sl : List Nat) (k : Nat) (err : Option AwsError) (w : World),
      k < sl.length → (∀ i, i < k → w.mutateOutcomes i ≠ none) → w.mutateOutcomes k = none →
      retryLoop (World.mutate ev) sl err w =
        (none, { w with mutateOutcomes := fun n => w.mutateOutcomes (n + (k + 1)),
                        trace := w.trace ++ (failTrace ev (sl.take k) ++ [ev]) }) := by
  intro sl
  induction sl with
  | nil => intro k err w hk; simp at hk
  | cons s rest ih =>
    intro k err w hk hfail hok
    cases k with
    | zero =>
      simp [retryLoop, World.mutate, hok, failTrace]
    | succ k =>
      have h0 : w.mutateOutcomes 0 ≠ none := hfail 0 (Nat.succ_pos k)
      obtain ⟨e, he⟩ := Option.ne_none_iff_exists'.mp h0
      have hk' : k < rest.length := by simpa using hk
      have := ih k (some e)
        (Sleep s { w with mutateOutcomes := fun n => w.mutateOutcomes (n + 1),
                          trace := w.trace ++ [ev] })
        hk' (fun i hi => by simpa [Sleep] using hfail (i + 1) (Nat.succ_lt_succ hi))
        (by simpa [Sleep] using hok)
      simp only [retryLoop, World.mutate, he, this]
      simp [Sleep, failTrace, Nat.add_assoc]

theorem retryLoop_all_fail (ev : Event) :
    ∀ (sl : List Nat) (err : Option AwsError) (w : World),
      (∀ i, i < sl.length → w.mutateOutcomes i ≠ none) →
      retryLoop (World.mutate ev) sl err w =
        (if sl.length = 0 then err else w.mutateOutcomes (sl.length - 1),
         { w with mutateOutcomes := fun n => w.mutateOutcomes (n + sl.length),
                  trace := w.trace ++ failTrace ev sl }) := by
  intro sl
  induction sl with
  | nil => intro err w _; simp [retryLoop, failTrace]
  | cons s rest ih =>
    intro err w hfail
    have h0 : w.mutateOutcomes 0 ≠ none := hfail 0 (by simp)
    obtain ⟨e, he⟩ := Option.ne_none_iff_exists'.mp h0
    have := ih (some e)
      (Sleep s { w with mutateOutcomes := fun n => w.mutateOutcomes (n + 1),
                        trace := w.trace ++ [ev] })
      (fun i hi => by simpa [Sleep] using hfail (i + 1) (by simpa using hi))
    simp only [retryLoop, World.mutate, he, this]
    cases rest with
    | nil => simp [Sleep, failTrace, he]
    | cons s' rest' =>
      simp [Sleep, failTrace, Nat.add_assoc]

theorem retryLoop_success (ev : Event) (k : Nat) (w : World) (hk : k < 6)
    (hfail : ∀ i, i < k → w.mutateOutcomes i ≠ none) (hok : w.mutateOutcomes k = none) :
    retryLoop (World.mutate ev) retrySecondsList none w = (none, afterSuccess ev k w) :=
  retryLoop_first_success ev retrySecondsList k none w (by simpa [retrySecondsList] using hk)
    hfail hok

theorem retryLoop_exhausted (ev : Event) (w : World)
    (hfail : ∀ i, i < 6 → w.mutateOutcomes i ≠ none) :
    retryLoop (World.mutate ev) retrySecondsList none w =
      (w.mutateOutcomes 5, afterExhaustion ev w) := by
  have := retryLoop_all_fail ev retrySecondsList none w
    (by simpa [retrySecondsList] using hfail)
  simpa [retrySecondsList, afterExhaustion] using this

/-- Among the first `n` outcomes either there is a first success or all fail. -/
theorem first_success_or_all_fail (f : Nat → Option AwsError) (n : Nat) :
    (∃ k, k < n ∧ f k = none ∧ ∀ i, i < k → f i ≠ none) ∨ (∀ i, i < n → f i ≠ none) := by
  induction n with
  | zero => right; intro i hi; omega
  | succ n ih =>
    rcases ih with ⟨k, hk, h1, h2⟩ | hall
    · exact Or.inl ⟨k, Nat.lt_succ_of_lt hk, h1, h2⟩
    · by_cases hn : f n = none
      · exact Or.inl ⟨n, Nat.lt_succ_self n, hn, hall⟩
      · right
        intro i hi
        rcases Nat.lt_succ_iff_lt_or_eq.mp hi with h | h
        · exact hall i h
        · exact h ▸ hn

/-- The first success is unique. -/
theorem first_success_unique (f : Nat → Option AwsError) (j k : Nat)
    (hj : f j = none ∧ ∀ i, i < j → f i ≠ none) (hk : f k = none ∧ ∀ i, i < k → f i ≠ none) :
    j = k := by
  rcases Nat.lt_trichotomy j k with h | h | h
  · exact absurd hj.1 (hk.2 j h)
  · exact h
  · exact absurd hk.1 (hj.2 k h)

/-! ## Counting in the traces of the loop -/

theorem mutatingCalls_append (t u : List Event) :
    mutatingCalls (t ++ u) = mutatingCalls t + mutatingCalls u := by
  simp [mutatingCalls]

theorem describeCalls_append (t u : List Event) :
    describeCalls (t ++ u) = describeCalls t + describeCalls u := by
  simp [describeCalls]

theorem sleeps_append (t u : List Event) : sleeps (t ++ u) = sleeps t ++ sleeps u := by
  simp [sleeps]

theorem mutatingCalls_failTrace (ev : Event) (h : ev.isMutating = true) (l : List Nat) :
    mutatingCalls (failTrace ev l) = l.length := by
  induction l with
  | nil => simp [failTrace, mutatingCalls]
  | cons s rest ih =>
    simp only [mutatingCalls] at ih
    simp [failTrace, mutatingCalls, List.countP_cons, h, ih]
    rfl

theorem describeCalls_failTrace (ev : Event) (h : ev.isMutating = true) (l : List Nat) :
    describeCalls (failTrace ev l) = 0 := by
  induction l with
  | nil => simp [failTrace, describeCalls]
  | cons s rest ih =>
    simp only [describeCalls] at ih
    cases ev <;> simp_all [failTrace, describeCalls, List.countP_cons, Event.isMutating,
      Event.isDescribe]

theorem sleeps_failTrace (ev : Event) (h : ev.isMutating = true) (l : List Nat) :
    sleeps (failTrace ev l) = l := by
  induction l with
  | nil => simp [failTrace, sleeps]
  | cons s rest ih =>
    simp only [sleeps] at ih
    cases ev <;> simp_all [failTrace, sleeps, List.filterMap_cons, Event.isMutating]

theorem sleeps_single (ev : Event) (h : ev.isMutating = true) : sleeps [ev] = [] := by
  cases ev <;> simp_all [sleeps, Event.isMutating]

theorem describeCalls_single (ev : Event) (h : ev.isMutating = true) :
    describeCalls [ev] = 0 := by
  cases ev <;> simp_all [describeCalls, Event.isMutating, Event.isDescribe]

theorem mutatingCalls_describe (dev : Event) (h : dev.isDescribe = true) :
    mutatingCalls [dev] = 0 := by
  cases dev <;> simp_all [mutatingCalls, Event.isMutating, Event.isDescribe]

theorem sleeps_describe (dev : Event) (h : dev.isDescribe = true) : sleeps [dev] = [] := by
  cases dev <;> simp_all [sleeps, Event.isDescribe]

theorem describeCalls_describe (dev : Event) (h : dev.isDescribe = true) :
    describeCalls [dev] = 1 := by
  simp [describeCalls, h]

theorem mutatingCalls_single (ev : Event) (h : ev.isMutating = true) :
    mutatingCalls [ev] = 1 := by
  simp [mutatingCalls, h]

/-! ## The handler shape `viaRetry` -/

theorem viaRetry_success (ev : Event) (read : World → Ret × ResourceData × World)
    (d : ResourceData) (w : World) (k : Nat) (hk : k < 6)
    (hfail : ∀ i, i < k → w.mutateOutcomes i ≠ none) (hok : w.mutateOutcomes k = none) :
    viaRetry ev read d w = read (afterSuccess ev k w) := by
  simp [viaRetry, retryLoop_success ev k w hk hfail hok]

theorem viaRetry_exhausted (ev : Event) (read : World → Ret × ResourceData × World)
    (d : ResourceData) (w : World) (e : AwsError)
    (hfail : ∀ i, i < 6 → w.mutateOutcomes i ≠ none) (he : w.mutateOutcomes 5 = some e) :
    viaRetry ev read d w = (.err e, d, afterExhaustion ev w) := by
  simp [viaRetry, retryLoop_exhausted ev w hfail, he]

theorem exists_sixth_error (w : World) (hfail : ∀ i, i < 6 → w.mutateOutcomes i ≠ none) :
    ∃ e, w.mutateOutcomes 5 = some e :=
  Option.ne_none_iff_exists'.mp (hfail 5 (by decide))

/-- The outside of `viaRetry` when attempt `k + 1` is the first success. -/
theorem viaRetry_success_trace (ev : Event) (hev : ev.isMutating = true)
    (read : World → Ret × ResourceData × World) (hread : ReadLike read)
    (d : ResourceData) (w : World) (k : Nat) (hk : k < 6)
    (hfail : ∀ i, i < k → w.mutateOutcomes i ≠ none) (hok : w.mutateOutcomes k = none) :
    mutatingCalls (viaRetry ev read d w).2.2.trace = mutatingCalls w.trace + (k + 1) ∧
    sleeps (viaRetry ev read d w).2.2.trace = sleeps w.trace ++ retrySecondsList.take k ∧
    describeCalls (viaRetry ev read d w).2.2.trace = describeCalls w.trace + 1 := by
  rw [viaRetry_success ev read d w k hk hfail hok]
  obtain ⟨dev, hdev, htr⟩ := hread (afterSuccess ev k w)
  have hlen : (retrySecondsList.take k).length = k := by
    simp [retrySecondsList]; omega
  rw [htr]
  refine ⟨?_, ?_, ?_⟩
  · simp only [afterSuccess, mutatingCalls_append, mutatingCalls_failTrace ev hev,
      mutatingCalls_single ev hev, mutatingCalls_describe dev hdev, hlen]
    omega
  · simp only [afterSuccess, sleeps_append, sleeps_failTrace ev hev, sleeps_single ev hev,
      sleeps_describe dev hdev, List.append_nil]
  · simp only [afterSuccess, describeCalls_append, describeCalls_failTrace ev hev,
      describeCalls_single ev hev, describeCalls_describe dev hdev]

/-- The outside of `viaRetry` when the six attempts fail. -/
theorem viaRetry_exhausted_trace (ev : Event) (hev : ev.isMutating = true)
    (read : World → Ret × ResourceData × World)
    (d : ResourceData) (w : World)
    (hfail : ∀ i, i < 6 → w.mutateOutcomes i ≠ none) :
    mutatingCalls (viaRetry ev read d w).2.2.trace = mutatingCalls w.trace + 6 ∧
    sleeps (viaRetry ev read d w).2.2.trace = sleeps w.trace ++ retrySecondsList ∧
    describeCalls (viaRetry ev read d w).2.2.trace = describeCalls w.trace := by
  obtain ⟨e, he⟩ := exists_sixth_error w hfail
  rw [viaRetry_exhausted ev read d w e hfail he]
  refine ⟨?_, ?_, ?_⟩
  · simp only [afterExhaustion, mutatingCalls_append, mutatingCalls_failTrace ev hev]
    rfl
  · simp only [afterExhaustion, sleeps_append, sleeps_failTrace ev hev]
  · simp only [afterExhaustion, describeCalls_append, describeCalls_failTrace ev hev,
      Nat.add_zero]

theorem firstSuccessAt_index (f : Nat → Option AwsError) (k : Nat) (h : FirstSuccessAt f k) :
    f (k - 1) = none ∧ (∀ i, i < k - 1 → f i ≠ none) ∧ k - 1 + 1 = k :=
  ⟨h.2.1, h.2.2, Nat.sub_add_cancel h.1⟩

theorem viaRetry_callsMinSix (ev : Event) (hev : ev.isMutating = true)
    (read : World → Ret × ResourceData × World) (hread : ReadLike read)
    (d : ResourceData) (w : World) : CallsMinSix w (viaRetry ev read d w) := by
  constructor
  · intro k hk
    obtain ⟨hok, hfail, hkk⟩ := firstSuccessAt_index _ k hk
    by_cases h6 : k ≤ 6
    · have := (viaRetry_success_trace ev hev read hread d w (k - 1) (by omega) hfail hok).1
      rw [this, hkk, Nat.min_eq_right h6]
    · have hall : ∀ i, i < 6 → w.mutateOutcomes i ≠ none := fun i hi => hfail i (by omega)
      rw [(viaRetry_exhausted_trace ev hev read d w hall).1, Nat.min_eq_left (by omega)]
  · intro hall
    exact (viaRetry_exhausted_trace ev hev read d w (fun i _ => hall i)).1

theorem schedule_prefix_sums (k : Nat) (hk : k ≤ 6) :
    (retrySecondsList.take (k - 1)).sum = [0, 1, 3, 8, 16, 26].getD (k - 1) 0 := by
  interval_cases k <;> rfl

theorem viaRetry_sleepsBeforeSuccess (ev : Event) (hev : ev.isMutating = true)
    (read : World → Ret × ResourceData × World) (hread : ReadLike read)
    (d : ResourceData) (w : World) : SleepsBeforeSuccess w (viaRetry ev read d w) := by
  intro k h6 hk
  obtain ⟨hok, hfail, hkk⟩ := firstSuccessAt_index _ k hk
  have := (viaRetry_success_trace ev hev read hread d w (k - 1) (by omega) hfail hok).2.1
  refine ⟨this, ?_, schedule_prefix_sums k h6⟩
  simp [sleptSeconds, this]

theorem viaRetry_errorIffExhausted (ev : Event) (hev : ev.isMutating = true)
    (read : World → Ret × ResourceData × World) (hread : ReadLike read)
    (d : ResourceData) (w : World) : ErrorIffExhausted w (viaRetry ev read d w) := by
  constructor
  · constructor
    · rintro ⟨hdesc, -⟩
      rcases first_success_or_all_fail w.mutateOutcomes 6 with ⟨k, hk, hok, hfail⟩ | hall
      · have := (viaRetry_success_trace ev hev read hread d w k hk hfail hok).2.2
        omega
      · exact hall
    · intro hall
      obtain ⟨e, he⟩ := exists_sixth_error w hall
      refine ⟨(viaRetry_exhausted_trace ev hev read d w hall).2.2, e, ?_⟩
      rw [viaRetry_exhausted ev read d w e hall he]
  · intro e hall he
    rw [viaRetry_exhausted ev read d w e hall he]

theorem schedule_prefix_lt (k : Nat) (hk : k < 5) :
    (retrySecondsList.take k).sum < 26 := by
  interval_cases k <;> decide

theorem viaRetry_sleepBound (ev : Event) (hev : ev.isMutating = true)
    (read : World → Ret × ResourceData × World) (hread : ReadLike read)
    (d : ResourceData) (w : World) : SleepBound w (viaRetry ev read d w) := by
  rcases first_success_or_all_fail w.mutateOutcomes 6 with ⟨k, hk, hok, hfail⟩ | hall
  · have hs := (viaRetry_success_trace ev hev read hread d w k hk hfail hok).2.1
    have hsum : sleptSeconds (viaRetry ev read d w).2.2.trace =
        sleptSeconds w.trace + (retrySecondsList.take k).sum := by
      simp [sleptSeconds, hs]
    by_cases h5 : k < 5
    · have hlt := schedule_prefix_lt k h5
      refine ⟨by omega, ?_⟩
      constructor
      · intro h; omega
      · intro h; exact absurd hok (h k h5)
    · have hk5 : k = 5 := by omega
      subst hk5
      have h26 : (retrySecondsList.take 5).sum = 26 := by decide
      refine ⟨by omega, ?_⟩
      constructor
      · intro _ i hi; exact hfail i hi
      · intro _; omega
  · have hs := (viaRetry_exhausted_trace ev hev read d w hall).2.1
    have hsum : sleptSeconds (viaRetry ev read d w).2.2.trace = sleptSeconds w.trace + 26 := by
      simp [sleptSeconds, hs, retrySecondsList]
    refine ⟨by omega, ?_⟩
    constructor
    · intro _ i hi; exact hall i (by omega)
    · intro _; exact hsum

/-! ## The channel handlers have the shape `viaRetry` -/

theorem channelRead_trace (hp : RetentionHelpers) (d : ResourceData) (w : World) :
    (resourceAwsIotAnalyticsChannelRead hp d w).2.2.trace =
      w.trace ++ [.DescribeChannel { ChannelName := some d.id }] := by
  simp only [resourceAwsIotAnalyticsChannelRead, DescribeChannel]
  split
  · rename_i h; simp only [Prod.mk.injEq] at h; rw [← h.2]
  · rename_i h; simp only [Prod.mk.injEq] at h
    split
    · rw [← h.2]
    · split
      · rw [← h.2]
      · split <;> rw [← h.2]

theorem channelRead_id (hp : RetentionHelpers) (d : ResourceData) (w : World) :
    (resourceAwsIotAnalyticsChannelRead hp d w).2.1.id = d.id := by
  simp only [resourceAwsIotAnalyticsChannelRead]
  split
  · rfl
  · split
    · rfl
    · split
      · rfl
      · split <;> rfl

theorem channelRead_readLike (hp : RetentionHelpers) (d : ResourceData) :
    ReadLike (resourceAwsIotAnalyticsChannelRead hp d) :=
  fun w => ⟨.DescribeChannel { ChannelName := some d.id }, rfl, channelRead_trace hp d w⟩

theorem channelCreate_viaRetry (hp : RetentionHelpers) (d : ResourceData) (w : World)
    (p : CreateChannelInput) (h : channelCreateParams hp d = .ok p) :
    resourceAwsIotAnalyticsChannelCreate hp d w =
      viaRetry (.CreateChannel p) (resourceAwsIotAnalyticsChannelRead hp (d.SetId d.name)) d w := by
  simp only [resourceAwsIotAnalyticsChannelCreate, h, viaRetry]
  rfl

theorem channelUpdate_viaRetry (hp : RetentionHelpers) (d : ResourceData) (w : World)
    (p : UpdateChannelInput) (h : channelUpdateParams hp d = .ok p) :
    resourceAwsIotAnalyticsChannelUpdate hp d w =
      viaRetry (.UpdateChannel p) (resourceAwsIotAnalyticsChannelRead hp d) d w := by
  simp only [resourceAwsIotAnalyticsChannelUpdate, h, viaRetry]
  rfl

/-! ## The datastore handlers have the shape `viaRetry` -/

theorem datastoreRead_trace (hp : RetentionHelpers) (d : ResourceData) (w : World) :
    (resourceAwsIotAnalyticsDatastoreRead hp d w).2.2.trace =
      w.trace ++ [.DescribeDatastore { DatastoreName := some d.id }] := by
  simp only [resourceAwsIotAnalyticsDatastoreRead, DescribeDatastore]
  split
  · rename_i h; simp only [Prod.mk.injEq] at h; rw [← h.2]
  · rename_i h; simp only [Prod.mk.injEq] at h
    split
    · rw [← h.2]
    · split
      · rw [← h.2]
      · split <;> rw [← h.2]

theorem datastoreRead_id (hp : RetentionHelpers) (d : ResourceData) (w : World) :
    (resourceAwsIotAnalyticsDatastoreRead hp d w).2.1.id = d.id := by
  simp only [resourceAwsIotAnalyticsDatastoreRead]
  split
  · rfl
  · split
    · rfl
    · split
      · rfl
      · split <;> rfl

theorem datastoreRead_readLike (hp : RetentionHelpers) (d : ResourceData) :
    ReadLike (resourceAwsIotAnalyticsDatastoreRead hp d) :=
  fun w => ⟨.DescribeDatastore { DatastoreName := some d.id }, rfl, datastoreRead_trace hp d w⟩

theorem datastoreCreate_viaRetry (hp : RetentionHelpers) (d : ResourceData) (w : World)
    (p : CreateDatastoreInput) (h : datastoreCreateParams hp d = .ok p) :
    resourceAwsIotAnalyticsDatastoreCreate hp d w =
      viaRetry (.CreateDatastore p) (resourceAwsIotAnalyticsDatastoreRead hp (d.SetId d.name)) d w := by
  simp only [resourceAwsIotAnalyticsDatastoreCreate, h, viaRetry]
  rfl

theorem datastoreUpdate_viaRetry (hp : RetentionHelpers) (d : ResourceData) (w : World)
    (p : UpdateDatastoreInput) (h : datastoreUpdateParams hp d = .ok p) :
    resourceAwsIotAnalyticsDatastoreUpdate hp d w =
      viaRetry (.UpdateDatastore p) (resourceAwsIotAnalyticsDatastoreRead hp d) d w := by
  simp only [resourceAwsIotAnalyticsDatastoreUpdate, h, viaRetry]
  rfl

/-! ## The retry policy of the create and update handlers -/

theorem sampleWorld_firstSuccessAt (n : Nat) :
    FirstSuccessAt (sampleWorld n).mutateOutcomes (n + 1) := by
  refine ⟨Nat.succ_pos n, ?_, ?_⟩
  · simp [sampleWorld]
  · intro i hi
    have : i < n := by omega
    simp [sampleWorld, this]

/-- C1: each of the four mutating handlers (channel create and update,
datastore create and update), once its request is built, issues the remote
mutating call exactly `min 6 k` times, where `k` is the position of the first
successful outcome, and exactly 6 times when no outcome is a success. -/
theorem mutating_handlers_call_min_six_times (hp : RetentionHelpers) (d : ResourceData)
    (w : World) :
    (∀ p, channelCreateParams hp d = .ok p →
      CallsMinSix w (resourceAwsIotAnalyticsChannelCreate hp d w)) ∧
    (∀ p, channelUpdateParams hp d = .ok p →
      CallsMinSix w (resourceAwsIotAnalyticsChannelUpdate hp d w)) ∧
    (∀ p, datastoreCreateParams hp d = .ok p →
      CallsMinSix w (resourceAwsIotAnalyticsDatastoreCreate hp d w)) ∧
    (∀ p, datastoreUpdateParams hp d = .ok p →
      CallsMinSix w (resourceAwsIotAnalyticsDatastoreUpdate hp d w)) := by
  refine ⟨?_, ?_, ?_, ?_⟩ <;> intro p h
  · rw [channelCreate_viaRetry hp d w p h]
    exact viaRetry_callsMinSix _ (by rfl) _ (channelRead_readLike hp _) d w
  · rw [channelUpdate_viaRetry hp d w p h]
    exact viaRetry_callsMinSix _ (by rfl) _ (channelRead_readLike hp _) d w
  · rw [datastoreCreate_viaRetry hp d w p h]
    exact viaRetry_callsMinSix _ (by rfl) _ (datastoreRead_readLike hp _) d w
  · rw [datastoreUpdate_viaRetry hp d w p h]
    exact viaRetry_callsMinSix _ (by rfl) _ (datastoreRead_readLike hp _) d w

theorem mutating_handlers_call_min_six_times_witness :
    channelCreateParams noRetention sampleData =
        .ok { ChannelName := some "c1", ChannelStorage := none, RetentionPeriod := none } ∧
    mutatingCalls
        (resourceAwsIotAnalyticsChannelCreate noRetention sampleData (sampleWorld 2)).2.2.trace
      = 3 ∧
    mutatingCalls
        (resourceAwsIotAnalyticsDatastoreUpdate noRetention sampleData (sampleWorld 9)).2.2.trace
      = 6 := by
  refine ⟨rfl, ?_, ?_⟩
  · have h := ((mutating_handlers_call_min_six_times noRetention sampleData (sampleWorld 2)).1
      _ rfl).1 3 (sampleWorld_firstSuccessAt 2)
    simpa [sampleWorld, mutatingCalls] using h
  · have h := ((mutating_handlers_call_min_six_times noRetention sampleData
      (sampleWorld 9)).2.2.2 _ rfl).1 10 (sampleWorld_firstSuccessAt 9)
    simpa [sampleWorld, mutatingCalls] using h

/-- C2: for every `k` from 1 to 6, when the mutating call of a create or
update handler first succeeds on attempt `k`, the sleeps performed are the
first `k - 1` entries of the schedule `[1, 2, 5, 8, 10, 0]`, so the time slept
is 0, 1, 3, 8, 16, 26 seconds for `k = 1, ..., 6`; no sleep occurs when the
first attempt succeeds. -/
theorem mutating_handlers_sleep_before_success (hp : RetentionHelpers) (d : ResourceData)
    (w : World) :
    (∀ p, channelCreateParams hp d = .ok p →
      SleepsBeforeSuccess w (resourceAwsIotAnalyticsChannelCreate hp d w)) ∧
    (∀ p, channelUpdateParams hp d = .ok p →
      SleepsBeforeSuccess w (resourceAwsIotAnalyticsChannelUpdate hp d w)) ∧
    (∀ p, datastoreCreateParams hp d = .ok p →
      SleepsBeforeSuccess w (resourceAwsIotAnalyticsDatastoreCreate hp d w)) ∧
    (∀ p, datastoreUpdateParams hp d = .ok p →
      SleepsBeforeSuccess w (resourceAwsIotAnalyticsDatastoreUpdate hp d w)) := by
  refine ⟨?_, ?_, ?_, ?_⟩ <;> intro p h
  · rw [channelCreate_viaRetry hp d w p h]
    exact viaRetry_sleepsBeforeSuccess _ (by rfl) _ (channelRead_readLike hp _) d w
  · rw [channelUpdate_viaRetry hp d w p h]
    exact viaRetry_sleepsBeforeSuccess _ (by rfl) _ (channelRead_readLike hp _) d w
  · rw [datastoreCreate_viaRetry hp d w p h]
    exact viaRetry_sleepsBeforeSuccess _ (by rfl) _ (datastoreRead_readLike hp _) d w
  · rw [datastoreUpdate_viaRetry hp d w p h]
    exact viaRetry_sleepsBeforeSuccess _ (by rfl) _ (datastoreRead_readLike hp _) d w

theorem mutating_handlers_sleep_before_success_witness :
    sleeps (resourceAwsIotAnalyticsChannelUpdate noRetention sampleData (sampleWorld 3)).2.2.trace
      = [1, 2, 5] ∧
    sleptSeconds
        (resourceAwsIotAnalyticsChannelUpdate noRetention sampleData (sampleWorld 3)).2.2.trace
      = 8 ∧
    sleeps (resourceAwsIotAnalyticsDatastoreCreate noRetention sampleData (sampleWorld 0)).2.2.trace
      = [] := by
  have h := (mutating_handlers_sleep_before_success noRetention sampleData (sampleWorld 3)).2.1
    _ rfl 4 (by decide) (sampleWorld_firstSuccessAt 3)
  have h0 := (mutating_handlers_sleep_before_success noRetention sampleData
    (sampleWorld 0)).2.2.1 _ rfl 1 (by decide) (sampleWorld_firstSuccessAt 0)
  refine ⟨?_, ?_, ?_⟩
  · simpa [sampleWorld, sleeps, retrySecondsList] using h.1
  · simpa [sampleWorld, sleeps, sleptSeconds, retrySecondsList] using h.2.1
  · simpa [sampleWorld, sleeps, retrySecondsList] using h0.1

/-- C3: a create or update handler returns an error from its mutating stage,
that is before any describe call, if and only if all 6 attempts of the
mutating call fail, and the error returned is then the error of the 6th
attempt, whatever the errors of attempts 1 to 5. -/
theorem mutating_handlers_return_sixth_error (hp : RetentionHelpers) (d : ResourceData)
    (w : World) :
    (∀ p, channelCreateParams hp d = .ok p →
      ErrorIffExhausted w (resourceAwsIotAnalyticsChannelCreate hp d w)) ∧
    (∀ p, channelUpdateParams hp d = .ok p →
      ErrorIffExhausted w (resourceAwsIotAnalyticsChannelUpdate hp d w)) ∧
    (∀ p, datastoreCreateParams hp d = .ok p →
      ErrorIffExhausted w (resourceAwsIotAnalyticsDatastoreCreate hp d w)) ∧
    (∀ p, datastoreUpdateParams hp d = .ok p →
      ErrorIffExhausted w (resourceAwsIotAnalyticsDatastoreUpdate hp d w)) := by
  refine ⟨?_, ?_, ?_, ?_⟩ <;> intro p h
  · rw [channelCreate_viaRetry hp d w p h]
    exact viaRetry_errorIffExhausted _ (by rfl) _ (channelRead_readLike hp _) d w
  · rw [channelUpdate_viaRetry hp d w p h]
    exact viaRetry_errorIffExhausted _ (by rfl) _ (channelRead_readLike hp _) d w
  · rw [datastoreCreate_viaRetry hp d w p h]
    exact viaRetry_errorIffExhausted _ (by rfl) _ (datastoreRead_readLike hp _) d w
  · rw [datastoreUpdate_viaRetry hp d w p h]
    exact viaRetry_errorIffExhausted _ (by rfl) _ (datastoreRead_readLike hp _) d w

theorem mutating_handlers_return_sixth_error_witness :
    (resourceAwsIotAnalyticsDatastoreCreate noRetention sampleData (sampleWorld 6)).1
      = .err (sampleError 5) := by
  refine ((mutating_handlers_return_sixth_error noRetention sampleData (sampleWorld 6)).2.2.1
    _ rfl).2 (sampleError 5) ?_ ?_
  · intro i hi
    simp [sampleWorld, hi]
  · simp [sampleWorld]

/-- C4: the total time slept by the retry loop of a create or update handler
is at most 26 seconds, and it is 26 seconds exactly when the first five
attempts all fail. -/
theorem mutating_handlers_sleep_at_most_26 (hp : RetentionHelpers) (d : ResourceData)
    (w : World) :
    (∀ p, channelCreateParams hp d = .ok p →
      SleepBound w (resourceAwsIotAnalyticsChannelCreate hp d w)) ∧
    (∀ p, channelUpdateParams hp d = .ok p →
      SleepBound w (resourceAwsIotAnalyticsChannelUpdate hp d w)) ∧
    (∀ p, datastoreCreateParams hp d = .ok p →
      SleepBound w (resourceAwsIotAnalyticsDatastoreCreate hp d w)) ∧
    (∀ p, datastoreUpdateParams hp d = .ok p →
      SleepBound w (resourceAwsIotAnalyticsDatastoreUpdate hp d w)) := by
  refine ⟨?_, ?_, ?_, ?_⟩ <;> intro p h
  · rw [channelCreate_viaRetry hp d w p h]
    exact viaRetry_sleepBound _ (by rfl) _ (channelRead_readLike hp _) d w
  · rw [channelUpdate_viaRetry hp d w p h]
    exact viaRetry_sleepBound _ (by rfl) _ (channelRead_readLike hp _) d w
  · rw [datastoreCreate_viaRetry hp d w p h]
    exact viaRetry_sleepBound _ (by rfl) _ (datastoreRead_readLike hp _) d w
  · rw [datastoreUpdate_viaRetry hp d w p h]
    exact viaRetry_sleepBound _ (by rfl) _ (datastoreRead_readLike hp _) d w

theorem mutating_handlers_sleep_at_most_26_witness :
    sleptSeconds
        (resourceAwsIotAnalyticsChannelCreate noRetention sampleData (sampleWorld 5)).2.2.trace
      = 26 := by
  have h := ((mutating_handlers_sleep_at_most_26 noRetention sampleData (sampleWorld 5)).1
    _ rfl).2.mpr (by intro i hi; simp [sampleWorld, hi])
  simpa [sampleWorld, sleptSeconds, sleeps] using h

/-! ## The identifier set by the create handlers -/

theorem viaRetry_setsIdIffSuccess (ev : Event) (hev : ev.isMutating = true)
    (read : ResourceData → World → Ret × ResourceData × World)
    (hread : ∀ d, ReadLike (read d)) (hid : ∀ d w, (read d w).2.1.id = d.id)
    (d : ResourceData) (w : World) :
    SetsIdIffSuccess read (retryLoop (World.mutate ev) retrySecondsList none w).2 d w
      (viaRetry ev (read (d.SetId d.name)) d w) := by
  constructor
  · rintro ⟨i, hi, hsucc⟩
    rcases first_success_or_all_fail w.mutateOutcomes 6 with ⟨k, hk, hok, hfail⟩ | hall
    · refine ⟨?_, ?_, (viaRetry_success_trace ev hev _ (hread _) d w k hk hfail hok).2.2⟩
      · rw [viaRetry_success ev _ d w k hk hfail hok, retryLoop_success ev k w hk hfail hok]
      · rw [viaRetry_success ev _ d w k hk hfail hok, hid]
        rfl
    · exact absurd hsucc (hall i hi)
  · intro hall
    obtain ⟨e, he⟩ := exists_sixth_error w hall
    refine ⟨?_, (viaRetry_exhausted_trace ev hev _ d w hall).2.2⟩
    rw [viaRetry_exhausted ev _ d w e hall he]

/-- C5: channel create and datastore create set the resource identifier to
the value of the `name` attribute and return the result of read exactly when
one of the attempts of the mutating call succeeds; when all six attempts fail
the resource data is the same as before the call and read is not invoked (no
describe call is made). -/
theorem create_sets_id_and_reads_iff_success (hp : RetentionHelpers) (d : ResourceData)
    (w : World) :
    (∀ p, channelCreateParams hp d = .ok p →
      SetsIdIffSuccess (resourceAwsIotAnalyticsChannelRead hp)
        (retryLoop (CreateChannel p) retrySecondsList none w).2 d w
        (resourceAwsIotAnalyticsChannelCreate hp d w)) ∧
    (∀ p, datastoreCreateParams hp d = .ok p →
      SetsIdIffSuccess (resourceAwsIotAnalyticsDatastoreRead hp)
        (retryLoop (CreateDatastore p) retrySecondsList none w).2 d w
        (resourceAwsIotAnalyticsDatastoreCreate hp d w)) := by
  refine ⟨?_, ?_⟩ <;> intro p h
  · rw [channelCreate_viaRetry hp d w p h]
    exact viaRetry_setsIdIffSuccess _ (by rfl) _ (channelRead_readLike hp)
      (channelRead_id hp) d w
  · rw [datastoreCreate_viaRetry hp d w p h]
    exact viaRetry_setsIdIffSuccess _ (by rfl) _ (datastoreRead_readLike hp)
      (datastoreRead_id hp) d w

theorem create_sets_id_and_reads_iff_success_witness :
    (resourceAwsIotAnalyticsChannelCreate noRetention sampleData (sampleWorld 1)).2.1.id = "c1" ∧
    (resourceAwsIotAnalyticsDatastoreCreate noRetention sampleData (sampleWorld 6)).2.1.id = "" := by
  constructor
  · exact (((create_sets_id_and_reads_iff_success noRetention sampleData (sampleWorld 1)).1
      _ rfl).1 ⟨1, by decide, by simp [sampleWorld]⟩).2.1
  · have h := (((create_sets_id_and_reads_iff_success noRetention sampleData (sampleWorld 6)).2
      _ rfl).2 (by intro i hi; simp [sampleWorld, hi])).1
    rw [h]
    rfl

/-! ## Parsing and flattening the customer-managed configuration -/

theorem GoMap.get_of_get? (m : GoMap) (k : String) (v : Value) (h : m.get? k = some v) :
    m.get k = v := by
  simp [GoMap.get, h]

theorem GoMap.get?_erase (m : GoMap) (k key : String) :
    (m.erase k).get? key = if key = k then none else m.get? key := by
  induction m with
  | nil => simp [GoMap.erase, GoMap.get?]
  | cons e rest ih =>
    obtain ⟨a, v⟩ := e
    simp only [GoMap.erase, GoMap.get?] at ih ⊢
    by_cases hak : a = k
    · subst hak
      by_cases hka : key = a
      · subst hka
        simpa [List.filter_cons] using ih
      · have : (key == a) = false := by simpa using hka
        simp [List.filter_cons, List.lookup_cons, this, hka] at ih ⊢
        exact ih
    · have hne : (a == k) = false := by simpa using hak
      by_cases hka : key = a
      · subst hka
        simp [List.filter_cons, List.lookup_cons, hne, hak]
      · have : (key == a) = false := by simpa using hka
        simp only [List.filter_cons, hne, Bool.not_false, if_true, List.lookup_cons, this]
        exact ih

theorem GoMap.get?_nil (key : String) : GoMap.get? [] key = none := rfl

theorem GoMap.get?_cons (k key : String) (v : Value) (rest : GoMap) :
    GoMap.get? ((k, v) :: rest) key = if key = k then some v else GoMap.get? rest key := by
  by_cases h : key = k
  · subst h; simp [GoMap.get?, List.lookup_cons]
  · have : (key == k) = false := by simpa using h
    simp [GoMap.get?, List.lookup_cons, this, h]

theorem string_eq_empty_of_length (k : String) (h : ¬ k.length ≥ 1) : k = "" := by
  have h0 : k.length = 0 := by omega
  cases k with
  | mk data =>
    have : data = [] := List.length_eq_zero.mp h0
    subst this
    rfl

/-- The flattened configuration reads as the parsed map does, up to an empty `key_prefix`. -/
theorem flattened_same (m : GoMap) (b r : String)
    (hb : m.get? "bucket" = some (.str b)) (hr : m.get? "role_arn" = some (.str r))
    (hother : ∀ key, key ≠ "bucket" → key ≠ "role_arn" → key ≠ "key_prefix" → m.get? key = none) :
    (m.get? "key_prefix" = none →
      GoMap.Same [("bucket", .str b), ("role_arn", .str r)] m) ∧
    (∀ k, m.get? "key_prefix" = some (.str k) →
      GoMap.Same [("bucket", .str b), ("role_arn", .str r), ("key_prefix", .str k)] m ∧
      GoMap.Same [("bucket", .str b), ("role_arn", .str r)] (m.erase "key_prefix")) := by
  constructor
  · intro hk key
    simp only [GoMap.get?_cons, GoMap.get?_nil]
    by_cases h1 : key = "bucket"
    · simp [h1, hb]
    · by_cases h2 : key = "role_arn"
      · simp [h2, hr]
      · by_cases h3 : key = "key_prefix"
        · simp [h3, hk]
        · simp [h1, h2, hother key h1 h2 h3]
  · intro k hk
    constructor
    · intro key
      simp only [GoMap.get?_cons, GoMap.get?_nil]
      by_cases h1 : key = "bucket"
      · simp [h1, hb]
      · by_cases h2 : key = "role_arn"
        · simp [h2, hr]
        · by_cases h3 : key = "key_prefix"
          · simp [h3, hk]
          · simp [h1, h2, h3, hother key h1 h2 h3]
    · intro key
      simp only [GoMap.get?_cons, GoMap.get?_nil, GoMap.get?_erase]
      by_cases h1 : key = "bucket"
      · simp [h1, hb]
      · by_cases h2 : key = "role_arn"
        · simp [h2, hr]
        · by_cases h3 : key = "key_prefix"
          · simp [h3]
          · simp [h1, h2, h3, hother key h1 h2 h3]

theorem parseChannelCustomerManagedS3_eq (m : GoMap) (b r : String)
    (hb : m.get? "bucket" = some (.str b)) (hr : m.get? "role_arn" = some (.str r)) :
    parseChannelCustomerManagedS3 m =
      match m.get? "key_prefix" with
      | none => .ok { Bucket := some b, KeyPrefix := none, RoleArn := some r }
      | some (.str k) =>
        .ok { Bucket := some b, KeyPrefix := if k.length ≥ 1 then some k else none,
              RoleArn := some r }
      | some _ => .error .typeAssertion := by
  simp only [parseChannelCustomerManagedS3, GoMap.get_of_get? m _ _ hb,
    GoMap.get_of_get? m _ _ hr, Value.asString, bind, Except.bind, pure, Except.pure]
  split
  · rename_i v hv
    rw [hv]
    cases v <;> simp [Value.asString]
    split <;> rfl
  · rename_i hv
    rw [hv]

theorem flattenChannelCustomerManagedS3_eq (b r : String) (kp : Option String) :
    flattenChannelCustomerManagedS3 (some { Bucket := some b, KeyPrefix := kp, RoleArn := some r }) =
      some ([("bucket", .str b), ("role_arn", .str r)] ++
        match kp with
        | some k => [("key_prefix", Value.str k)]
        | none => []) := by
  cases kp <;> simp [flattenChannelCustomerManagedS3, GoMap.set, StringValue]

/-- What `parseChannelStorage` needs of its argument, and which variants it sets. -/
theorem parseChannelStorage_ok (raw : GoMap) (s : ChannelStorage)
    (h : parseChannelStorage raw = .ok s) :
    ∃ lc ls, raw.get "customer_managed_s3" = .list lc ∧ raw.get "service_managed_s3" = .list ls ∧
      (s.CustomerManagedS3.isSome = !lc.isEmpty) ∧ (s.ServiceManagedS3.isSome = !ls.isEmpty) := by
  simp only [parseChannelStorage, bind, Except.bind, pure, Except.pure] at h
  cases hc : raw.get "customer_managed_s3" <;> simp only [hc, Value.asList] at h <;>
    try (simp at h; done)
  rename_i lc
  rcases lc with _ | ⟨x, xs⟩
  · cases hs : raw.get "service_managed_s3" <;> simp [hs] at h
    rename_i ls
    refine ⟨[], ls, rfl, rfl, ?_⟩
    rcases ls with _ | ⟨y, ys⟩
    · simp at h; subst h; simp
    · cases y <;> simp [index0, Value.asMap] at h
      subst h; simp
  · cases x <;> simp [index0, Value.asMap] at h
    rename_i m
    cases hp : parseChannelCustomerManagedS3 m <;> simp [hp] at h
    rename_i c
    cases hs : raw.get "service_managed_s3" <;> simp [hs] at h
    rename_i ls
    refine ⟨_, ls, rfl, rfl, ?_⟩
    rcases ls with _ | ⟨y, ys⟩
    · simp at h; subst h; simp
    · cases y <;> simp [index0, Value.asMap] at h
      subst h; simp

theorem parseChannelStorage_customerOnly (raw m : GoMap) (c : CustomerManagedChannelS3Storage)
    (hraw : IsCustomerOnlyBlock raw m) (hc : parseChannelCustomerManagedS3 m = .ok c) :
    parseChannelStorage raw = .ok { CustomerManagedS3 := some c, ServiceManagedS3 := none } := by
  simp [parseChannelStorage, hraw.1, hraw.2, Value.asList, index0, Value.asMap, hc, bind,
    Except.bind, pure, Except.pure]

theorem flattenChannelStorage_customerOnly (b r : String) (kp : Option String) :
    flattenChannelStorage (some ⟨some ⟨some b, kp, some r⟩, none⟩) =
      .ok (some [("customer_managed_s3", .list [.map ([("bucket", .str b), ("role_arn", .str r)] ++
          match kp with
          | some k => [("key_prefix", Value.str k)]
          | none => [])]),
        ("service_managed_s3", .list [])]) := by
  simp [flattenChannelStorage, flattenChannelCustomerManagedS3_eq, flattenChannelServiceManagedS3,
    wrapMapInList, GoMap.set]

theorem parseDatastoreCustomerManagedS3_eq (m : GoMap) (b r : String)
    (hb : m.get? "bucket" = some (.str b)) (hr : m.get? "role_arn" = some (.str r)) :
    parseDatastoreCustomerManagedS3 m =
      match m.get? "key_prefix" with
      | none => .ok { Bucket := some b, KeyPrefix := none, RoleArn := some r }
      | some (.str k) =>
        .ok { Bucket := some b, KeyPrefix := if k.length ≥ 1 then some k else none,
              RoleArn := some r }
      | some _ => .error .typeAssertion := by
  simp only [parseDatastoreCustomerManagedS3, GoMap.get_of_get? m _ _ hb,
    GoMap.get_of_get? m _ _ hr, Value.asString, bind, Except.bind, pure, Except.pure]
  split
  · rename_i v hv
    rw [hv]
    cases v <;> simp [Value.asString]
    split <;> rfl
  · rename_i hv
    rw [hv]

theorem flattenDatastoreCustomerManagedS3_eq (b r : String) (kp : Option String) :
    flattenDatastoreCustomerManagedS3 (some { Bucket := some b, KeyPrefix := kp, RoleArn := some r }) =
      some ([("bucket", .str b), ("role_arn", .str r)] ++
        match kp with
        | some k => [("key_prefix", Value.str k)]
        | none => []) := by
  cases kp <;> simp [flattenDatastoreCustomerManagedS3, GoMap.set, StringValue]

/-- What `parseDatastoreStorage` needs of its argument, and which variants it sets. -/
theorem parseDatastoreStorage_ok (raw : GoMap) (s : DatastoreStorage)
    (h : parseDatastoreStorage raw = .ok s) :
    ∃ lc ls, raw.get "customer_managed_s3" = .list lc ∧ raw.get "service_managed_s3" = .list ls ∧
      (s.CustomerManagedS3.isSome = !lc.isEmpty) ∧ (s.ServiceManagedS3.isSome = !ls.isEmpty) := by
  simp only [parseDatastoreStorage, bind, Except.bind, pure, Except.pure] at h
  cases hc : raw.get "customer_managed_s3" <;> simp only [hc, Value.asList] at h <;>
    try (simp at h; done)
  rename_i lc
  rcases lc with _ | ⟨x, xs⟩
  · cases hs : raw.get "service_managed_s3" <;> simp [hs] at h
    rename_i ls
    refine ⟨[], ls, rfl, rfl, ?_⟩
    rcases ls with _ | ⟨y, ys⟩
    · simp at h; subst h; simp
    · cases y <;> simp [index0, Value.asMap] at h
      subst h; simp
  · cases x <;> simp [index0, Value.asMap] at h
    rename_i m
    cases hp : parseDatastoreCustomerManagedS3 m <;> simp [hp] at h
    rename_i c
    cases hs : raw.get "service_managed_s3" <;> simp [hs] at h
    rename_i ls
    refine ⟨_, ls, rfl, rfl, ?_⟩
    rcases ls with _ | ⟨y, ys⟩
    · simp at h; subst h; simp
    · cases y <;> simp [index0, Value.asMap] at h
      subst h; simp

theorem parseDatastoreStorage_customerOnly (raw m : GoMap) (c : CustomerManagedDatastoreS3Storage)
    (hraw : IsCustomerOnlyBlock raw m) (hc : parseDatastoreCustomerManagedS3 m = .ok c) :
    parseDatastoreStorage raw = .ok { CustomerManagedS3 := some c, ServiceManagedS3 := none } := by
  simp [parseDatastoreStorage, hraw.1, hraw.2, Value.asList, index0, Value.asMap, hc, bind,
    Except.bind, pure, Except.pure]

theorem flattenDatastoreStorage_customerOnly (b r : String) (kp : Option String) :
    flattenDatastoreStorage (some ⟨some ⟨some b, kp, some r⟩, none⟩) =
      .ok (some [("customer_managed_s3", .list [.map ([("bucket", .str b), ("role_arn", .str r)] ++
          match kp with
          | some k => [("key_prefix", Value.str k)]
          | none => [])]),
        ("service_managed_s3", .list [])]) := by
  simp [flattenDatastoreStorage, flattenDatastoreCustomerManagedS3_eq, flattenDatastoreServiceManagedS3,
    wrapMapInList, GoMap.set]

/-- The key prefix kept by the parse functions: a non-empty string entry. -/
theorem parseChannelStorage_customerOnly_eq (raw m : GoMap) (b r : String)
    (hb : m.get? "bucket" = some (.str b)) (hr : m.get? "role_arn" = some (.str r))
    (hraw : IsCustomerOnlyBlock raw m) :
    (m.get? "key_prefix" = none →
      parseChannelStorage raw = .ok ⟨some ⟨some b, none, some r⟩, none⟩) ∧
    (∀ k, m.get? "key_prefix" = some (.str k) →
      parseChannelStorage raw =
        .ok ⟨some ⟨some b, if k.length ≥ 1 then some k else none, some r⟩, none⟩) := by
  constructor
  · intro hk
    apply parseChannelStorage_customerOnly raw m _ hraw
    rw [parseChannelCustomerManagedS3_eq m b r hb hr, hk]
  · intro k hk
    apply parseChannelStorage_customerOnly raw m _ hraw
    rw [parseChannelCustomerManagedS3_eq m b r hb hr, hk]

theorem channelRoundTrip_of_same (raw m₂ : GoMap) (b r : String) (kp : Option String)
    (hparse : parseChannelStorage raw = .ok ⟨some ⟨some b, kp, some r⟩, none⟩)
    (hsame : GoMap.Same ([("bucket", .str b), ("role_arn", .str r)] ++
      match kp with
      | some k => [("key_prefix", Value.str k)]
      | none => []) m₂) :
    ChannelRoundTrip raw m₂ := by
  refine ⟨_, _, hparse, flattenChannelStorage_customerOnly b r kp, _, _, rfl, ?_, hsame, ?_⟩
  · simp [GoMap.get, GoMap.get?_cons]
  · simp [GoMap.get, GoMap.get?_cons]

theorem channelRoundTrip_inv (raw m₂ : GoMap) (b r : String) (kp : Option String)
    (hparse : parseChannelStorage raw = .ok ⟨some ⟨some b, kp, some r⟩, none⟩)
    (h : ChannelRoundTrip raw m₂) :
    GoMap.Same ([("bucket", .str b), ("role_arn", .str r)] ++
      match kp with
      | some k => [("key_prefix", Value.str k)]
      | none => []) m₂ := by
  obtain ⟨s, out, hs, ho, o, m', hout, hcust, hsame, -⟩ := h
  rw [hparse] at hs
  cases hs
  rw [flattenChannelStorage_customerOnly b r kp] at ho
  cases ho
  cases hout
  simp [GoMap.get, GoMap.get?_cons] at hcust
  subst hcust
  exact hsame

theorem channel_roundTrip_amended (raw m : GoMap) (hm : IsCustomerManagedConfig m)
    (hraw : IsCustomerOnlyBlock raw m) :
    (m.get? "key_prefix" ≠ some (.str "") → ChannelRoundTrip raw m) ∧
    (m.get? "key_prefix" = some (.str "") → ChannelRoundTrip raw (m.erase "key_prefix")) := by
  obtain ⟨⟨b, hb⟩, ⟨r, hr⟩, hkp, hother⟩ := hm
  have hp := parseChannelStorage_customerOnly_eq raw m b r hb hr hraw
  have hsame := flattened_same m b r hb hr hother
  constructor
  · intro hne
    rcases hkp with hnone | ⟨k, hk⟩
    · exact channelRoundTrip_of_same raw m b r none (hp.1 hnone) (hsame.1 hnone)
    · by_cases hlen : k.length ≥ 1
      · have := hp.2 k hk
        rw [if_pos hlen] at this
        exact channelRoundTrip_of_same raw m b r (some k) this (hsame.2 k hk).1
      · exact absurd (string_eq_empty_of_length k hlen ▸ hk) hne
  · intro he
    have := hp.2 "" he
    exact channelRoundTrip_of_same raw _ b r none this (hsame.2 "" he).2

/-- The key prefix kept by the parse functions: a non-empty string entry. -/
theorem parseDatastoreStorage_customerOnly_eq (raw m : GoMap) (b r : String)
    (hb : m.get? "bucket" = some (.str b)) (hr : m.get? "role_arn" = some (.str r))
    (hraw : IsCustomerOnlyBlock raw m) :
    (m.get? "key_prefix" = none →
      parseDatastoreStorage raw = .ok ⟨some ⟨some b, none, some r⟩, none⟩) ∧
    (∀ k, m.get? "key_prefix" = some (.str k) →
      parseDatastoreStorage raw =
        .ok ⟨some ⟨some b, if k.length ≥ 1 then some k else none, some r⟩, none⟩) := by
  constructor
  · intro hk
    apply parseDatastoreStorage_customerOnly raw m _ hraw
    rw [parseDatastoreCustomerManagedS3_eq m b r hb hr, hk]
  · intro k hk
    apply parseDatastoreStorage_customerOnly raw m _ hraw
    rw [parseDatastoreCustomerManagedS3_eq m b r hb hr, hk]

theorem datastoreRoundTrip_of_same (raw m₂ : GoMap) (b r : String) (kp : Option String)
    (hparse : parseDatastoreStorage raw = .ok ⟨some ⟨some b, kp, some r⟩, none⟩)
    (hsame : GoMap.Same ([("bucket", .str b), ("role_arn", .str r)] ++
      match kp with
      | some k => [("key_prefix", Value.str k)]
      | none => []) m₂) :
    DatastoreRoundTrip raw m₂ := by
  refine ⟨_, _, hparse, flattenDatastoreStorage_customerOnly b r kp, _, _, rfl, ?_, hsame, ?_⟩
  · simp [GoMap.get, GoMap.get?_cons]
  · simp [GoMap.get, GoMap.get?_cons]

theorem datastoreRoundTrip_inv (raw m₂ : GoMap) (b r : String) (kp : Option String)
    (hparse : parseDatastoreStorage raw = .ok ⟨some ⟨some b, kp, some r⟩, none⟩)
    (h : DatastoreRoundTrip raw m₂) :
    GoMap.Same ([("bucket", .str b), ("role_arn", .str r)] ++
      match kp with
      | some k => [("key_prefix", Value.str k)]
      | none => []) m₂ := by
  obtain ⟨s, out, hs, ho, o, m', hout, hcust, hsame, -⟩ := h
  rw [hparse] at hs
  cases hs
  rw [flattenDatastoreStorage_customerOnly b r kp] at ho
  cases ho
  cases hout
  simp [GoMap.get, GoMap.get?_cons] at hcust
  subst hcust
  exact hsame

theorem datastore_roundTrip_amended (raw m : GoMap) (hm : IsCustomerManagedConfig m)
    (hraw : IsCustomerOnlyBlock raw m) :
    (m.get? "key_prefix" ≠ some (.str "") → DatastoreRoundTrip raw m) ∧
    (m.get? "key_prefix" = some (.str "") → DatastoreRoundTrip raw (m.erase "key_prefix")) := by
  obtain ⟨⟨b, hb⟩, ⟨r, hr⟩, hkp, hother⟩ := hm
  have hp := parseDatastoreStorage_customerOnly_eq raw m b r hb hr hraw
  have hsame := flattened_same m b r hb hr hother
  constructor
  · intro hne
    rcases hkp with hnone | ⟨k, hk⟩
    · exact datastoreRoundTrip_of_same raw m b r none (hp.1 hnone) (hsame.1 hnone)
    · by_cases hlen : k.length ≥ 1
      · have := hp.2 k hk
        rw [if_pos hlen] at this
        exact datastoreRoundTrip_of_same raw m b r (some k) this (hsame.2 k hk).1
      · exact absurd (string_eq_empty_of_length k hlen ▸ hk) hne
  · intro he
    have := hp.2 "" he
    exact datastoreRoundTrip_of_same raw _ b r none this (hsame.2 "" he).2

/-! ## Mirroring a customer-managed storage block -/

theorem emptyPrefixConfig_isConfig : IsCustomerManagedConfig emptyPrefixConfig := by
  refine ⟨⟨"b1", ?_⟩, ⟨"arn:aws:iam::1:role/r1", ?_⟩, Or.inr ⟨"", ?_⟩, ?_⟩
  · simp [emptyPrefixConfig, GoMap.get?_cons]
  · simp [emptyPrefixConfig, GoMap.get?_cons]
  · simp [emptyPrefixConfig, GoMap.get?_cons]
  · intro key h1 h2 h3
    simp [emptyPrefixConfig, GoMap.get?_cons, GoMap.get?_nil, h1, h2, h3]

theorem fullConfig_isConfig : IsCustomerManagedConfig fullConfig := by
  refine ⟨⟨"b1", ?_⟩, ⟨"arn:aws:iam::1:role/r1", ?_⟩, Or.inr ⟨"in/", ?_⟩, ?_⟩
  · simp [fullConfig, GoMap.get?_cons]
  · simp [fullConfig, GoMap.get?_cons]
  · simp [fullConfig, GoMap.get?_cons]
  · intro key h1 h2 h3
    simp [fullConfig, GoMap.get?_cons, GoMap.get?_nil, h1, h2, h3]

theorem customerOnlyBlock_isBlock (m : GoMap) : IsCustomerOnlyBlock (customerOnlyBlock m) m := by
  simp [IsCustomerOnlyBlock, customerOnlyBlock, GoMap.get, GoMap.get?_cons]

/-- C6, as stated, fails: for the customer-managed configuration with bucket
`b1`, a role ARN and the empty `key_prefix`, parsing the storage block that
contains only it and flattening the result does not give back an element that
is the same map, for the channel and for the datastore functions. -/
theorem round_trip_fails_on_empty_key_prefix :
    IsCustomerManagedConfig emptyPrefixConfig ∧
    IsCustomerOnlyBlock (customerOnlyBlock emptyPrefixConfig) emptyPrefixConfig ∧
    ¬ ChannelRoundTrip (customerOnlyBlock emptyPrefixConfig) emptyPrefixConfig ∧
    ¬ DatastoreRoundTrip (customerOnlyBlock emptyPrefixConfig) emptyPrefixConfig := by
  have hb : emptyPrefixConfig.get? "bucket" = some (.str "b1") := by
    simp [emptyPrefixConfig, GoMap.get?_cons]
  have hr : emptyPrefixConfig.get? "role_arn" = some (.str "arn:aws:iam::1:role/r1") := by
    simp [emptyPrefixConfig, GoMap.get?_cons]
  have hk : emptyPrefixConfig.get? "key_prefix" = some (.str "") := by
    simp [emptyPrefixConfig, GoMap.get?_cons]
  refine ⟨emptyPrefixConfig_isConfig, customerOnlyBlock_isBlock _, ?_, ?_⟩
  · intro h
    have hp := (parseChannelStorage_customerOnly_eq _ _ _ _ hb hr
      (customerOnlyBlock_isBlock emptyPrefixConfig)).2 "" hk
    have hs := channelRoundTrip_inv _ _ _ _ none hp h "key_prefix"
    rw [hk] at hs
    simp [GoMap.get?_cons, GoMap.get?_nil] at hs
  · intro h
    have hp := (parseDatastoreStorage_customerOnly_eq _ _ _ _ hb hr
      (customerOnlyBlock_isBlock emptyPrefixConfig)).2 "" hk
    have hs := datastoreRoundTrip_inv _ _ _ _ none hp h "key_prefix"
    rw [hk] at hs
    simp [GoMap.get?_cons, GoMap.get?_nil] at hs

/-- C6, amended: for every customer-managed configuration `m` (string bucket
and role ARN, optional string key prefix), parsing a storage block that
contains only `m` and flattening the result gives a storage map whose
`customer_managed_s3` list has exactly one element and whose
`service_managed_s3` list is empty; the element is the same map as `m` when
the key prefix of `m` is absent or non-empty, and it is `m` without its
`key_prefix` entry when the key prefix of `m` is the empty string. The same
holds for the datastore functions. -/
theorem round_trip_of_customer_managed_block (raw m : GoMap)
    (hm : IsCustomerManagedConfig m) (hraw : IsCustomerOnlyBlock raw m) :
    (m.get? "key_prefix" ≠ some (.str "") →
      ChannelRoundTrip raw m ∧ DatastoreRoundTrip raw m) ∧
    (m.get? "key_prefix" = some (.str "") →
      ChannelRoundTrip raw (m.erase "key_prefix") ∧
      DatastoreRoundTrip raw (m.erase "key_prefix")) :=
  ⟨fun h => ⟨(channel_roundTrip_amended raw m hm hraw).1 h,
      (datastore_roundTrip_amended raw m hm hraw).1 h⟩,
    fun h => ⟨(channel_roundTrip_amended raw m hm hraw).2 h,
      (datastore_roundTrip_amended raw m hm hraw).2 h⟩⟩

theorem round_trip_of_customer_managed_block_witness :
    IsCustomerManagedConfig fullConfig ∧
    IsCustomerOnlyBlock (customerOnlyBlock fullConfig) fullConfig ∧
    ChannelRoundTrip (customerOnlyBlock fullConfig) fullConfig ∧
    DatastoreRoundTrip (customerOnlyBlock fullConfig) fullConfig ∧
    ChannelRoundTrip (customerOnlyBlock emptyPrefixConfig) (emptyPrefixConfig.erase "key_prefix") :=
  ⟨fullConfig_isConfig, customerOnlyBlock_isBlock _,
    ((round_trip_of_customer_managed_block _ _ fullConfig_isConfig
      (customerOnlyBlock_isBlock _)).1 (by simp [fullConfig, GoMap.get?_cons])).1,
    ((round_trip_of_customer_managed_block _ _ fullConfig_isConfig
      (customerOnlyBlock_isBlock _)).1 (by simp [fullConfig, GoMap.get?_cons])).2,
    ((round_trip_of_customer_managed_block _ _ emptyPrefixConfig_isConfig
      (customerOnlyBlock_isBlock _)).2 (by simp [emptyPrefixConfig, GoMap.get?_cons])).1⟩

/-! ## Reading a resource that has no storage object -/

/-- C7: the create request of a resource with an empty storage set carries no
storage object, but on a remote resource that has no storage object the flatten
functions dereference the nil pointer, so read panics, and so does the create
that ends with this read. -/
theorem read_panics_without_remote_storage :
    channelCreateParams noRetention sampleData =
      .ok { ChannelName := some "c1", ChannelStorage := none, RetentionPeriod := none } ∧
    datastoreCreateParams noRetention sampleData =
      .ok { DatastoreName := some "c1", DatastoreStorage := none, RetentionPeriod := none } ∧
    flattenChannelStorage none = .error .nilDereference ∧
    flattenDatastoreStorage none = .error .nilDereference ∧
    (resourceAwsIotAnalyticsChannelRead noRetention sampleData noStorageWorld).1 =
      .panic .nilDereference ∧
    (resourceAwsIotAnalyticsDatastoreRead noRetention sampleData noStorageWorld).1 =
      .panic .nilDereference ∧
    (resourceAwsIotAnalyticsChannelCreate noRetention sampleData noStorageWorld).1 =
      .panic .nilDereference ∧
    (resourceAwsIotAnalyticsDatastoreCreate noRetention sampleData noStorageWorld).1 =
      .panic .nilDereference :=
  ⟨rfl, rfl, rfl, rfl, rfl, rfl, rfl, rfl⟩

/-! ## Flattening a storage object -/

theorem flattenChannelCustomerManagedS3_some (c : CustomerManagedChannelS3Storage) :
    ∃ m, flattenChannelCustomerManagedS3 (some c) = some m := by
  simp only [flattenChannelCustomerManagedS3]
  split
  · exact ⟨_, rfl⟩
  · exact ⟨_, rfl⟩

theorem flattenChannelStorage_spec (cs : ChannelStorage) :
    FlattenSpec (flattenChannelStorage (some cs)) cs.CustomerManagedS3.isSome
      cs.ServiceManagedS3.isSome := by
  obtain ⟨c, sv⟩ := cs
  cases c with
  | none =>
    cases sv with
    | none =>
      simp [FlattenSpec, flattenChannelStorage, flattenChannelCustomerManagedS3,
        flattenChannelServiceManagedS3]
    | some sv =>
      simp [FlattenSpec, flattenChannelStorage, flattenChannelCustomerManagedS3,
        flattenChannelServiceManagedS3, wrapMapInList, GoMap.set, GoMap.get?_cons]
  | some c =>
    obtain ⟨m, hm⟩ := flattenChannelCustomerManagedS3_some c
    cases sv with
    | none =>
      simp [FlattenSpec, flattenChannelStorage, hm, flattenChannelServiceManagedS3,
        wrapMapInList, GoMap.set, GoMap.get?_cons]
    | some sv =>
      simp [FlattenSpec, flattenChannelStorage, hm, flattenChannelServiceManagedS3,
        wrapMapInList, GoMap.set, GoMap.get?_cons]

/-- Read of a resource whose storage object has no variant. -/
theorem channelRead_unset_storage (hp : RetentionHelpers) (d : ResourceData) (w : World)
    (ch : Channel) (hdesc : w.describeChannelOutcomes 0 = .ok { Channel := some ch })
    (hst : ch.Storage = some { CustomerManagedS3 := none, ServiceManagedS3 := none }) :
    (resourceAwsIotAnalyticsChannelRead hp d w).2.1.storage = [] ∧
    (∀ e, (resourceAwsIotAnalyticsChannelRead hp d w).1 ≠ .err e) ∧
    (∀ rp, hp.flattenRetentionPeriod ch.RetentionPeriod = .ok rp →
      (resourceAwsIotAnalyticsChannelRead hp d w).1 = .nil) := by
  have hf : flattenChannelStorage ch.Storage = .ok none := by
    rw [hst]; rfl
  simp only [resourceAwsIotAnalyticsChannelRead, DescribeChannel, hdesc, hf, wrapMapInList]
  cases hr : hp.flattenRetentionPeriod ch.RetentionPeriod <;> simp [ResourceData.SetStorage]

theorem flattenDatastoreCustomerManagedS3_some (c : CustomerManagedDatastoreS3Storage) :
    ∃ m, flattenDatastoreCustomerManagedS3 (some c) = some m := by
  simp only [flattenDatastoreCustomerManagedS3]
  split
  · exact ⟨_, rfl⟩
  · exact ⟨_, rfl⟩

theorem flattenDatastoreStorage_spec (cs : DatastoreStorage) :
    FlattenSpec (flattenDatastoreStorage (some cs)) cs.CustomerManagedS3.isSome
      cs.ServiceManagedS3.isSome := by
  obtain ⟨c, sv⟩ := cs
  cases c with
  | none =>
    cases sv with
    | none =>
      simp [FlattenSpec, flattenDatastoreStorage, flattenDatastoreCustomerManagedS3,
        flattenDatastoreServiceManagedS3]
    | some sv =>
      simp [FlattenSpec, flattenDatastoreStorage, flattenDatastoreCustomerManagedS3,
        flattenDatastoreServiceManagedS3, wrapMapInList, GoMap.set, GoMap.get?_cons]
  | some c =>
    obtain ⟨m, hm⟩ := flattenDatastoreCustomerManagedS3_some c
    cases sv with
    | none =>
      simp [FlattenSpec, flattenDatastoreStorage, hm, flattenDatastoreServiceManagedS3,
        wrapMapInList, GoMap.set, GoMap.get?_cons]
    | some sv =>
      simp [FlattenSpec, flattenDatastoreStorage, hm, flattenDatastoreServiceManagedS3,
        wrapMapInList, GoMap.set, GoMap.get?_cons]

/-- Read of a resource whose storage object has no variant. -/
theorem datastoreRead_unset_storage (hp : RetentionHelpers) (d : ResourceData) (w : World)
    (ch : Datastore) (hdesc : w.describeDatastoreOutcomes 0 = .ok { Datastore := some ch })
    (hst : ch.Storage = some { CustomerManagedS3 := none, ServiceManagedS3 := none }) :
    (resourceAwsIotAnalyticsDatastoreRead hp d w).2.1.storage = [] ∧
    (∀ e, (resourceAwsIotAnalyticsDatastoreRead hp d w).1 ≠ .err e) ∧
    (∀ rp, hp.flattenRetentionPeriod ch.RetentionPeriod = .ok rp →
      (resourceAwsIotAnalyticsDatastoreRead hp d w).1 = .nil) := by
  have hf : flattenDatastoreStorage ch.Storage = .ok none := by
    rw [hst]; rfl
  simp only [resourceAwsIotAnalyticsDatastoreRead, DescribeDatastore, hdesc, hf, wrapMapInList]
  cases hr : hp.flattenRetentionPeriod ch.RetentionPeriod <;> simp [ResourceData.SetStorage]

/-- C8: for every storage object returned by the service, the flatten
functions return the nil map, which `wrapMapInList` turns into the empty list
and read stores as the empty storage list without returning an error, if and
only if neither variant is present; otherwise they return a map with both
keys `customer_managed_s3` and `service_managed_s3`, each list being non-empty
exactly when the corresponding variant is present. -/
theorem flatten_storage_unset_iff_no_variant (cs : ChannelStorage) (ds : DatastoreStorage)
    (hp : RetentionHelpers) (d : ResourceData) (w : World) (ch : Channel) (dst : Datastore) :
    FlattenSpec (flattenChannelStorage (some cs)) cs.CustomerManagedS3.isSome
      cs.ServiceManagedS3.isSome ∧
    FlattenSpec (flattenDatastoreStorage (some ds)) ds.CustomerManagedS3.isSome
      ds.ServiceManagedS3.isSome ∧
    wrapMapInList none = [] ∧
    (w.describeChannelOutcomes 0 = .ok { Channel := some ch } →
      ch.Storage = some { CustomerManagedS3 := none, ServiceManagedS3 := none } →
      (resourceAwsIotAnalyticsChannelRead hp d w).2.1.storage = [] ∧
      (∀ e, (resourceAwsIotAnalyticsChannelRead hp d w).1 ≠ .err e) ∧
      (∀ rp, hp.flattenRetentionPeriod ch.RetentionPeriod = .ok rp →
        (resourceAwsIotAnalyticsChannelRead hp d w).1 = .nil)) ∧
    (w.describeDatastoreOutcomes 0 = .ok { Datastore := some dst } →
      dst.Storage = some { CustomerManagedS3 := none, ServiceManagedS3 := none } →
      (resourceAwsIotAnalyticsDatastoreRead hp d w).2.1.storage = [] ∧
      (∀ e, (resourceAwsIotAnalyticsDatastoreRead hp d w).1 ≠ .err e) ∧
      (∀ rp, hp.flattenRetentionPeriod dst.RetentionPeriod = .ok rp →
        (resourceAwsIotAnalyticsDatastoreRead hp d w).1 = .nil)) :=
  ⟨flattenChannelStorage_spec cs, flattenDatastoreStorage_spec ds, rfl,
    channelRead_unset_storage hp d w ch, datastoreRead_unset_storage hp d w dst⟩

theorem flatten_storage_unset_iff_no_variant_witness :
    (resourceAwsIotAnalyticsChannelRead noRetention sampleData unsetStorageWorld).2.1.storage = [] ∧
    (resourceAwsIotAnalyticsChannelRead noRetention sampleData unsetStorageWorld).1 = .nil ∧
    (resourceAwsIotAnalyticsDatastoreRead noRetention sampleData unsetStorageWorld).1 = .nil := by
  have h := flatten_storage_unset_iff_no_variant ⟨none, none⟩ ⟨none, none⟩ noRetention sampleData
    unsetStorageWorld ⟨some "c1", some ⟨none, none⟩, none⟩ ⟨some "c1", some ⟨none, none⟩, none⟩
  exact ⟨(h.2.2.2.1 rfl rfl).1, (h.2.2.2.1 rfl rfl).2.2 none rfl, (h.2.2.2.2 rfl rfl).2.2 none rfl⟩

/-! ## The variants set by the parse functions -/

/-- C9: for every raw storage map that meets the `ConflictsWith` of the
storage schema and is accepted by `parseChannelStorage` (likewise
`parseDatastoreStorage`), the resulting storage object has at most one of
`CustomerManagedS3` and `ServiceManagedS3` set: the presence of one variant
implies the absence of the other; each variant is set exactly when its list
in the raw map has an element. -/
theorem parse_sets_at_most_one_variant (raw : GoMap) (hraw : MeetsConflictsWith raw) :
    (∀ s, parseChannelStorage raw = .ok s →
      (s.CustomerManagedS3.isSome = true → s.ServiceManagedS3 = none) ∧
      (s.ServiceManagedS3.isSome = true → s.CustomerManagedS3 = none) ∧
      ∃ lc ls, raw.get "customer_managed_s3" = .list lc ∧
        raw.get "service_managed_s3" = .list ls ∧
        (s.CustomerManagedS3.isSome = !lc.isEmpty) ∧
        (s.ServiceManagedS3.isSome = !ls.isEmpty)) ∧
    (∀ s, parseDatastoreStorage raw = .ok s →
      (s.CustomerManagedS3.isSome = true → s.ServiceManagedS3 = none) ∧
      (s.ServiceManagedS3.isSome = true → s.CustomerManagedS3 = none) ∧
      ∃ lc ls, raw.get "customer_managed_s3" = .list lc ∧
        raw.get "service_managed_s3" = .list ls ∧
        (s.CustomerManagedS3.isSome = !lc.isEmpty) ∧
        (s.ServiceManagedS3.isSome = !ls.isEmpty)) := by
  constructor
  · intro s h
    obtain ⟨lc, ls, h1, h2, h3, h4⟩ := parseChannelStorage_ok raw s h
    refine ⟨?_, ?_, lc, ls, h1, h2, h3, h4⟩
    · intro hc
      rcases lc with _ | ⟨x, xs⟩
      · rw [h3] at hc; simp at hc
      · rcases ls with _ | ⟨y, ys⟩
        · simpa using h4
        · exact absurd ⟨x, xs, y, ys, h1, h2⟩ hraw
    · intro hsv
      rcases ls with _ | ⟨y, ys⟩
      · rw [h4] at hsv; simp at hsv
      · rcases lc with _ | ⟨x, xs⟩
        · simpa using h3
        · exact absurd ⟨x, xs, y, ys, h1, h2⟩ hraw
  · intro s h
    obtain ⟨lc, ls, h1, h2, h3, h4⟩ := parseDatastoreStorage_ok raw s h
    refine ⟨?_, ?_, lc, ls, h1, h2, h3, h4⟩
    · intro hc
      rcases lc with _ | ⟨x, xs⟩
      · rw [h3] at hc; simp at hc
      · rcases ls with _ | ⟨y, ys⟩
        · simpa using h4
        · exact absurd ⟨x, xs, y, ys, h1, h2⟩ hraw
    · intro hsv
      rcases ls with _ | ⟨y, ys⟩
      · rw [h4] at hsv; simp at hsv
      · rcases lc with _ | ⟨x, xs⟩
        · simpa using h3
        · exact absurd ⟨x, xs, y, ys, h1, h2⟩ hraw

theorem parse_sets_at_most_one_variant_witness :
    MeetsConflictsWith (customerOnlyBlock fullConfig) ∧
    parseChannelStorage (customerOnlyBlock fullConfig) =
      .ok { CustomerManagedS3 := some { Bucket := some "b1", KeyPrefix := some "in/",
                                        RoleArn := some "arn:aws:iam::1:role/r1" },
            ServiceManagedS3 := none } ∧
    ((some { Bucket := some "b1", KeyPrefix := some "in/",
             RoleArn := some "arn:aws:iam::1:role/r1" } :
        Option CustomerManagedChannelS3Storage).isSome = true →
      (none : Option ServiceManagedChannelS3Storage) = none) := by
  have hm : MeetsConflictsWith (customerOnlyBlock fullConfig) := by
    rintro ⟨x, xs, y, ys, -, h2⟩
    simp [customerOnlyBlock, GoMap.get, GoMap.get?_cons] at h2
  exact ⟨hm, rfl, ((parse_sets_at_most_one_variant (customerOnlyBlock fullConfig) hm).1
    { CustomerManagedS3 := some { Bucket := some "b1", KeyPrefix := some "in/",
                                  RoleArn := some "arn:aws:iam::1:role/r1" },
      ServiceManagedS3 := none } rfl).1⟩

/-! ## Delete -/

/-- C10: channel delete and datastore delete issue the remote delete call
exactly once, with the resource identifier as the name, never sleep, make no
other call, and return the result of the call: nil when it succeeds and the
error of the call, unmodified, when it fails. -/
theorem delete_is_single_shot (d : ResourceData) (w : World) :
    (resourceAwsIotAnalyticsChannelDelete d w).2.2.trace =
      w.trace ++ [.DeleteChannel { ChannelName := some d.id }] ∧
    (resourceAwsIotAnalyticsChannelDelete d w).1 =
      (match w.deleteOutcomes 0 with
        | none => Ret.nil
        | some e => Ret.err e) ∧
    (resourceAwsIotAnalyticsChannelDelete d w).2.1 = d ∧
    deleteCalls (resourceAwsIotAnalyticsChannelDelete d w).2.2.trace = deleteCalls w.trace + 1 ∧
    sleeps (resourceAwsIotAnalyticsChannelDelete d w).2.2.trace = sleeps w.trace ∧
    (resourceAwsIotAnalyticsDatastoreDelete d w).2.2.trace =
      w.trace ++ [.DeleteDatastore { DatastoreName := some d.id }] ∧
    (resourceAwsIotAnalyticsDatastoreDelete d w).1 =
      (match w.deleteOutcomes 0 with
        | none => Ret.nil
        | some e => Ret.err e) ∧
    (resourceAwsIotAnalyticsDatastoreDelete d w).2.1 = d ∧
    deleteCalls (resourceAwsIotAnalyticsDatastoreDelete d w).2.2.trace = deleteCalls w.trace + 1 ∧
    sleeps (resourceAwsIotAnalyticsDatastoreDelete d w).2.2.trace = sleeps w.trace := by
  refine ⟨rfl, ?_, rfl, ?_, ?_, rfl, ?_, rfl, ?_, ?_⟩
  · simp only [resourceAwsIotAnalyticsChannelDelete, DeleteChannel, World.delete]
    cases w.deleteOutcomes 0 <;> rfl
  · simp [resourceAwsIotAnalyticsChannelDelete, DeleteChannel, World.delete, deleteCalls,
      Event.isDelete]
  · simp [resourceAwsIotAnalyticsChannelDelete, DeleteChannel, World.delete, sleeps]
  · simp only [resourceAwsIotAnalyticsDatastoreDelete, DeleteDatastore, World.delete]
    cases w.deleteOutcomes 0 <;> rfl
  · simp [resourceAwsIotAnalyticsDatastoreDelete, DeleteDatastore, World.delete, deleteCalls,
      Event.isDelete]
  · simp [resourceAwsIotAnalyticsDatastoreDelete, DeleteDatastore, World.delete, sleeps]

/-! ## Read -/

theorem channelRead_describe_error (hp : RetentionHelpers) (d : ResourceData) (w : World)
    (e : AwsError) (h : w.describeChannelOutcomes 0 = .error e) :
    (resourceAwsIotAnalyticsChannelRead hp d w).1 = .err e ∧
    (resourceAwsIotAnalyticsChannelRead hp d w).2.1 = d := by
  simp [resourceAwsIotAnalyticsChannelRead, DescribeChannel, h]

theorem channelRead_describe_ok (hp : RetentionHelpers) (d : ResourceData) (w : World)
    (out : DescribeChannelOutput) (h : w.describeChannelOutcomes 0 = .ok out) :
    (∀ e, (resourceAwsIotAnalyticsChannelRead hp d w).1 ≠ .err e) ∧
    (∀ ch cs rp, out.Channel = some ch → ch.Storage = some cs →
      hp.flattenRetentionPeriod ch.RetentionPeriod = .ok rp →
      (resourceAwsIotAnalyticsChannelRead hp d w).1 = .nil) := by
  constructor
  · intro e
    simp only [resourceAwsIotAnalyticsChannelRead, DescribeChannel, h]
    split
    · simp
    · split
      · simp
      · split <;> simp
  · intro ch cs rp hch hcs hrp
    obtain ⟨r, hr, -⟩ := flattenChannelStorage_spec cs
    simp [resourceAwsIotAnalyticsChannelRead, DescribeChannel, h, hch, hcs, hr, hrp]

theorem datastoreRead_describe_error (hp : RetentionHelpers) (d : ResourceData) (w : World)
    (e : AwsError) (h : w.describeDatastoreOutcomes 0 = .error e) :
    (resourceAwsIotAnalyticsDatastoreRead hp d w).1 = .err e ∧
    (resourceAwsIotAnalyticsDatastoreRead hp d w).2.1 = d := by
  simp [resourceAwsIotAnalyticsDatastoreRead, DescribeDatastore, h]

theorem datastoreRead_describe_ok (hp : RetentionHelpers) (d : ResourceData) (w : World)
    (out : DescribeDatastoreOutput) (h : w.describeDatastoreOutcomes 0 = .ok out) :
    (∀ e, (resourceAwsIotAnalyticsDatastoreRead hp d w).1 ≠ .err e) ∧
    (∀ ch cs rp, out.Datastore = some ch → ch.Storage = some cs →
      hp.flattenRetentionPeriod ch.RetentionPeriod = .ok rp →
      (resourceAwsIotAnalyticsDatastoreRead hp d w).1 = .nil) := by
  constructor
  · intro e
    simp only [resourceAwsIotAnalyticsDatastoreRead, DescribeDatastore, h]
    split
    · simp
    · split
      · simp
      · split <;> simp
  · intro ch cs rp hch hcs hrp
    obtain ⟨r, hr, -⟩ := flattenDatastoreStorage_spec cs
    simp [resourceAwsIotAnalyticsDatastoreRead, DescribeDatastore, h, hch, hcs, hr, hrp]

/-- C11: channel read and datastore read call the remote describe operation
exactly once and do nothing else to the outside (no retry, no sleep); if the
call fails, read returns that error unmodified and leaves the resource data,
so `name`, `storage` and `retention_period`, as it was; if the call succeeds,
read never returns an error, and it returns nil whenever the response carries
the resource with a storage object and the retention helper does not fault. -/
theorem read_describes_once_and_surfaces_error (hp : RetentionHelpers) (d : ResourceData)
    (w : World) :
    ((resourceAwsIotAnalyticsChannelRead hp d w).2.2.trace =
        w.trace ++ [.DescribeChannel { ChannelName := some d.id }] ∧
      describeCalls (resourceAwsIotAnalyticsChannelRead hp d w).2.2.trace =
        describeCalls w.trace + 1 ∧
      sleeps (resourceAwsIotAnalyticsChannelRead hp d w).2.2.trace = sleeps w.trace ∧
      (∀ e, w.describeChannelOutcomes 0 = .error e →
        (resourceAwsIotAnalyticsChannelRead hp d w).1 = .err e ∧
        (resourceAwsIotAnalyticsChannelRead hp d w).2.1 = d) ∧
      (∀ out, w.describeChannelOutcomes 0 = .ok out →
        (∀ e, (resourceAwsIotAnalyticsChannelRead hp d w).1 ≠ .err e) ∧
        (∀ ch cs rp, out.Channel = some ch → ch.Storage = some cs →
          hp.flattenRetentionPeriod ch.RetentionPeriod = .ok rp →
          (resourceAwsIotAnalyticsChannelRead hp d w).1 = .nil))) ∧
    ((resourceAwsIotAnalyticsDatastoreRead hp d w).2.2.trace =
        w.trace ++ [.DescribeDatastore { DatastoreName := some d.id }] ∧
      describeCalls (resourceAwsIotAnalyticsDatastoreRead hp d w).2.2.trace =
        describeCalls w.trace + 1 ∧
      sleeps (resourceAwsIotAnalyticsDatastoreRead hp d w).2.2.trace = sleeps w.trace ∧
      (∀ e, w.describeDatastoreOutcomes 0 = .error e →
        (resourceAwsIotAnalyticsDatastoreRead hp d w).1 = .err e ∧
        (resourceAwsIotAnalyticsDatastoreRead hp d w).2.1 = d) ∧
      (∀ out, w.describeDatastoreOutcomes 0 = .ok out →
        (∀ e, (resourceAwsIotAnalyticsDatastoreRead hp d w).1 ≠ .err e) ∧
        (∀ ch cs rp, out.Datastore = some ch → ch.Storage = some cs →
          hp.flattenRetentionPeriod ch.RetentionPeriod = .ok rp →
          (resourceAwsIotAnalyticsDatastoreRead hp d w).1 = .nil))) := by
  refine ⟨⟨channelRead_trace hp d w, ?_, ?_, channelRead_describe_error hp d w,
      channelRead_describe_ok hp d w⟩,
    ⟨datastoreRead_trace hp d w, ?_, ?_, datastoreRead_describe_error hp d w,
      datastoreRead_describe_ok hp d w⟩⟩
  · rw [channelRead_trace, describeCalls_append, describeCalls_describe _ (by rfl)]
  · rw [channelRead_trace, sleeps_append, sleeps_describe _ (by rfl), List.append_nil]
  · rw [datastoreRead_trace, describeCalls_append, describeCalls_describe _ (by rfl)]
  · rw [datastoreRead_trace, sleeps_append, sleeps_describe _ (by rfl), List.append_nil]

theorem read_describes_once_and_surfaces_error_witness :
    (resourceAwsIotAnalyticsChannelRead noRetention sampleData describeFailsWorld).1 =
      .err (sampleError 7) ∧
    (resourceAwsIotAnalyticsChannelRead noRetention sampleData describeFailsWorld).2.1 =
      sampleData ∧
    (resourceAwsIotAnalyticsDatastoreRead noRetention sampleData (sampleWorld 0)).1 = .nil := by
  have h1 := (read_describes_once_and_surfaces_error noRetention sampleData
    describeFailsWorld).1.2.2.2.1 (sampleError 7) rfl
  have h2 := ((read_describes_once_and_surfaces_error noRetention sampleData
    (sampleWorld 0)).2.2.2.2.2 _ rfl).2 _ _ none rfl rfl rfl
  exact ⟨h1.1, h1.2, h2⟩

/-! ## The destroy check -/

theorem checkDefinitions_found (rs : ResourceState) (primary : InstanceState)
    (hp : rs.Primary = some primary) :
    ∀ l : List DefinitionInformation, (∀ definition, definition ∈ l → definition.Id ≠ none) →
      (∃ definition, definition ∈ l ∧ definition.Id = some primary.ID) →
      checkDefinitions rs l = .ok (some (.errorf
        ("Expected Greengrass Resource Definition to be destroyed, " ++ primary.ID ++ " found")))
  | [], _, h => by
    obtain ⟨definition, hmem, -⟩ := h
    simp at hmem
  | definition :: rest, hid, h => by
    obtain ⟨id, hdef⟩ := Option.ne_none_iff_exists'.mp (hid definition (by simp))
    by_cases heq : id = primary.ID
    · simp [checkDefinitions, hdef, hp, heq]
    · have hrest : ∃ definition, definition ∈ rest ∧ definition.Id = some primary.ID := by
        obtain ⟨x, hx, hxid⟩ := h
        rcases List.mem_cons.mp hx with rfl | hx
        · rw [hdef] at hxid
          exact absurd (Option.some.inj hxid) heq
        · exact ⟨x, hx, hxid⟩
      have ih := checkDefinitions_found rs primary hp rest
        (fun x hx => hid x (List.mem_cons_of_mem _ hx)) hrest
      simp [checkDefinitions, hdef, hp, heq, ih]

theorem checkDefinitions_not_found (rs : ResourceState) (primary : InstanceState)
    (hp : rs.Primary = some primary) :
    ∀ l : List DefinitionInformation, (∀ definition, definition ∈ l → definition.Id ≠ none) →
      (¬ ∃ definition, definition ∈ l ∧ definition.Id = some primary.ID) →
      checkDefinitions rs l = .ok none
  | [], _, _ => rfl
  | definition :: rest, hid, h => by
    obtain ⟨id, hdef⟩ := Option.ne_none_iff_exists'.mp (hid definition (by simp))
    have heq : id ≠ primary.ID := fun he => h ⟨definition, by simp, by rw [hdef, he]⟩
    have ih := checkDefinitions_not_found rs primary hp rest
      (fun x hx => hid x (List.mem_cons_of_mem _ hx))
      (fun ⟨x, hx, hxid⟩ => h ⟨x, List.mem_cons_of_mem _ hx, hxid⟩)
    simp [checkDefinitions, hdef, hp, heq, ih]

theorem destroy_ignores_other_types :
    ∀ (s : State) (conn : GreengrassConn),
      testAccCheckAWSGreengrassResourceDefinitionDestroy s conn =
        testAccCheckAWSGreengrassResourceDefinitionDestroy (definitionResources s) conn
  | [], _ => rfl
  | (name, rs) :: rest, conn => by
    by_cases ht : rs.Type_ = "aws_greengrass_resource_definition"
    · have hf : definitionResources ((name, rs) :: rest) = (name, rs) :: definitionResources rest := by
        simp [definitionResources, List.filter_cons, ht]
      rw [hf]
      simp only [testAccCheckAWSGreengrassResourceDefinitionDestroy, ht, ne_eq, not_true_eq_false,
        if_false]
      split
      · rfl
      · split
        · rfl
        · rfl
        · exact destroy_ignores_other_types rest _
    · have hf : definitionResources ((name, rs) :: rest) = definitionResources rest := by
        simp [definitionResources, List.filter_cons, ht]
      rw [hf]
      simp only [testAccCheckAWSGreengrassResourceDefinitionDestroy, ht, ne_eq, not_false_eq_true,
        if_true]
      exact destroy_ignores_other_types rest conn

theorem hasListedDefinition_cons_of_ne (name : String) (rs : ResourceState) (rest : State)
    (out : ListResourceDefinitionsOutput)
    (h : ¬ ∃ primary definition, rs.Type_ = "aws_greengrass_resource_definition" ∧
      rs.Primary = some primary ∧ definition ∈ out.Definitions ∧
      definition.Id = some primary.ID) :
    HasListedDefinition ((name, rs) :: rest) out ↔ HasListedDefinition rest out := by
  constructor
  · rintro ⟨n, r, p, df, hmem, ht, hp, hdf, hid⟩
    rcases List.mem_cons.mp hmem with heq | hmem
    · cases heq
      exact absurd ⟨p, df, ht, hp, hdf, hid⟩ h
    · exact ⟨n, r, p, df, hmem, ht, hp, hdf, hid⟩
  · rintro ⟨n, r, p, df, hmem, ht, hp, hdf, hid⟩
    exact ⟨n, r, p, df, List.mem_cons_of_mem _ hmem, ht, hp, hdf, hid⟩

theorem noNilPointers_tail (e : String × ResourceState) (rest : State)
    (out : ListResourceDefinitionsOutput) (h : NoNilPointers (e :: rest) out) :
    NoNilPointers rest out :=
  ⟨fun n r hm ht => h.1 n r (List.mem_cons_of_mem _ hm) ht, h.2⟩

/-- The destroy check when every list call gives the listing `out`. -/
theorem destroy_constant_listing (out : ListResourceDefinitionsOutput) :
    ∀ (s : State) (conn : GreengrassConn), (∀ n, conn.listOutcomes n = .ok out) →
      NoNilPointers s out →
      (HasListedDefinition s out →
        ∃ msg, (testAccCheckAWSGreengrassResourceDefinitionDestroy s conn).1 =
          .err (.errorf msg)) ∧
      (¬ HasListedDefinition s out →
        (testAccCheckAWSGreengrassResourceDefinitionDestroy s conn).1 = .nil)
  | [], conn, _, _ => by
    constructor
    · rintro ⟨n, r, p, df, hmem, -⟩
      simp at hmem
    · intro _; rfl
  | (name, rs) :: rest, conn, hconst, hnil => by
    by_cases ht : rs.Type_ = "aws_greengrass_resource_definition"
    · obtain ⟨primary, hprim⟩ := Option.ne_none_iff_exists'.mp (hnil.1 name rs (by simp) ht)
      have hconst' : ∀ n, (ListResourceDefinitions { MaxResults := some "20" } conn).2.listOutcomes n
          = .ok out := fun n => hconst (n + 1)
      by_cases hfound : ∃ definition, definition ∈ out.Definitions ∧
          definition.Id = some primary.ID
      · have hc := checkDefinitions_found rs primary hprim out.Definitions hnil.2 hfound
        have hres : (testAccCheckAWSGreengrassResourceDefinitionDestroy ((name, rs) :: rest)
            conn).1 = .err (.errorf ("Expected Greengrass Resource Definition to be destroyed, "
              ++ primary.ID ++ " found")) := by
          simp [testAccCheckAWSGreengrassResourceDefinitionDestroy, ht, ListResourceDefinitions,
            hconst 0, hc]
        constructor
        · intro _; exact ⟨_, hres⟩
        · intro hno
          obtain ⟨df, hdf, hid⟩ := hfound
          exact absurd ⟨name, rs, primary, df, by simp, ht, hprim, hdf, hid⟩ hno
      · have hc := checkDefinitions_not_found rs primary hprim out.Definitions hnil.2 hfound
        have hres : testAccCheckAWSGreengrassResourceDefinitionDestroy ((name, rs) :: rest) conn
            = testAccCheckAWSGreengrassResourceDefinitionDestroy rest
                (ListResourceDefinitions { MaxResults := some "20" } conn).2 := by
          simp [testAccCheckAWSGreengrassResourceDefinitionDestroy, ht, ListResourceDefinitions,
            hconst 0, hc]
        have hiff := hasListedDefinition_cons_of_ne name rs rest out (by
          rintro ⟨p, df, -, hp, hdf, hid⟩
          rw [hprim] at hp
          cases hp
          exact hfound ⟨df, hdf, hid⟩)
        have ih := destroy_constant_listing out rest _ hconst' (noNilPointers_tail _ _ _ hnil)
        rw [hres, hiff]
        exact ih
    · have hres : testAccCheckAWSGreengrassResourceDefinitionDestroy ((name, rs) :: rest) conn
          = testAccCheckAWSGreengrassResourceDefinitionDestroy rest conn := by
        simp [testAccCheckAWSGreengrassResourceDefinitionDestroy, ht]
      have hiff := hasListedDefinition_cons_of_ne name rs rest out (by
        rintro ⟨p, df, ht', -⟩
        exact ht ht')
      have ih := destroy_constant_listing out rest conn hconst (noNilPointers_tail _ _ _ hnil)
      rw [hres, hiff]
      exact ih

theorem checkDefinitions_errorf (rs : ResourceState) :
    ∀ (l : List DefinitionInformation) (e : TestError), checkDefinitions rs l = .ok (some e) →
      ∃ msg, e = .errorf msg
  | [], e, h => by simp [checkDefinitions] at h
  | definition :: rest, e, h => by
    simp only [checkDefinitions] at h
    split at h
    · simp at h
    · split at h
      · simp at h
      · split at h
        · simp at h
          exact ⟨_, h.symm⟩
        · exact checkDefinitions_errorf rs rest e h

/-- An SDK error returned by the destroy check is the error of one of its list calls. -/
theorem destroy_sdk_error_origin :
    ∀ (s : State) (conn : GreengrassConn) (e : AwsError),
      (testAccCheckAWSGreengrassResourceDefinitionDestroy s conn).1 = .err (.sdk e) →
      ∃ n, conn.listOutcomes n = .error e
  | [], conn, e, h => by
    simp [testAccCheckAWSGreengrassResourceDefinitionDestroy] at h
  | (name, rs) :: rest, conn, e, h => by
    by_cases ht : rs.Type_ = "aws_greengrass_resource_definition"
    · simp only [testAccCheckAWSGreengrassResourceDefinitionDestroy, ht, ne_eq,
        not_true_eq_false, if_false, ListResourceDefinitions] at h
      cases h0 : conn.listOutcomes 0 with
      | error e0 =>
        simp [h0] at h
        exact ⟨0, by rw [h0, h]⟩
      | ok out =>
        simp only [h0] at h
        cases hc : checkDefinitions rs out.Definitions with
        | error f => simp [hc] at h
        | ok r =>
          cases r with
          | some e1 =>
            simp [hc] at h
            obtain ⟨msg, hmsg⟩ := checkDefinitions_errorf rs _ e1 hc
            rw [hmsg] at h
            cases h
          | none =>
            simp only [hc] at h
            obtain ⟨n, hn⟩ := destroy_sdk_error_origin rest _ e h
            exact ⟨n + 1, hn⟩
    · simp only [testAccCheckAWSGreengrassResourceDefinitionDestroy, ht, ne_eq,
        not_false_eq_true, if_true] at h
      exact destroy_sdk_error_origin rest conn e h

theorem afterListCalls_succ (conn : GreengrassConn) (n : Nat) :
    afterListCalls (ListResourceDefinitions { MaxResults := some "20" } conn).2 n =
      afterListCalls conn (n + 1) := by
  simp only [afterListCalls, ListResourceDefinitions, GreengrassConn.mk.injEq]
  constructor
  · funext k
    rw [Nat.add_assoc, Nat.add_comm n 1]
  · rw [List.append_assoc]
    rfl

theorem passesBefore_tail (x : String × ResourceState) (rest : State) (conn : GreengrassConn)
    (i : Nat) (h : PassesBefore (x :: rest) conn (i + 1)) :
    PassesBefore rest (ListResourceDefinitions { MaxResults := some "20" } conn).2 i := by
  intro j hj
  obtain ⟨name, rs, out, h1, h2, h3⟩ := h (j + 1) (by omega)
  exact ⟨name, rs, out, by simpa using h1, h2, h3⟩

theorem destroy_step_pass (name : String) (rs : ResourceState) (rest : State)
    (conn : GreengrassConn) (out : ListResourceDefinitionsOutput)
    (ht : rs.Type_ = "aws_greengrass_resource_definition")
    (h0 : conn.listOutcomes 0 = .ok out) (hc : checkDefinitions rs out.Definitions = .ok none) :
    testAccCheckAWSGreengrassResourceDefinitionDestroy ((name, rs) :: rest) conn =
      testAccCheckAWSGreengrassResourceDefinitionDestroy rest
        (ListResourceDefinitions { MaxResults := some "20" } conn).2 := by
  simp [testAccCheckAWSGreengrassResourceDefinitionDestroy, ht, ListResourceDefinitions, h0, hc]

/-- On a state of resource definitions whose first `i` resources pass, the
destroy check stops at resource `i` when its list call fails or its inner loop
returns an error, and returns nil after `i` list calls when `i` is the number
of resources. -/
theorem destroy_stops_at :
    ∀ (t : State) (conn : GreengrassConn) (i : Nat),
      (∀ x, x ∈ t → x.2.Type_ = "aws_greengrass_resource_definition") →
      PassesBefore t conn i →
      (i = t.length →
        testAccCheckAWSGreengrassResourceDefinitionDestroy t conn =
          (.nil, afterListCalls conn i)) ∧
      (∀ name rs, t[i]? = some (name, rs) →
        (∀ e, conn.listOutcomes i = .error e →
          testAccCheckAWSGreengrassResourceDefinitionDestroy t conn =
            (.err (.sdk e), afterListCalls conn (i + 1))) ∧
        (∀ out e, conn.listOutcomes i = .ok out →
          checkDefinitions rs out.Definitions = .ok (some e) →
          testAccCheckAWSGreengrassResourceDefinitionDestroy t conn =
            (.err e, afterListCalls conn (i + 1))))
  | [], conn, i, _, hpass => by
    have hi : i = 0 := by
      by_contra hne
      obtain ⟨name, rs, out, h1, -⟩ := hpass 0 (Nat.pos_of_ne_zero hne)
      simp at h1
    subst hi
    constructor
    · intro _
      simp [testAccCheckAWSGreengrassResourceDefinitionDestroy, afterListCalls]
    · intro name rs h
      simp at h
  | (n0, r0) :: rest, conn, 0, htyped, _ => by
    have ht : r0.Type_ = "aws_greengrass_resource_definition" := htyped (n0, r0) (by simp)
    constructor
    · intro h
      simp at h
    · intro name rs h
      simp at h
      obtain ⟨-, rfl⟩ := h
      constructor
      · intro e he
        simp [testAccCheckAWSGreengrassResourceDefinitionDestroy, ht, ListResourceDefinitions,
          he, afterListCalls]
      · intro out e ho hc
        simp [testAccCheckAWSGreengrassResourceDefinitionDestroy, ht, ListResourceDefinitions,
          ho, hc, afterListCalls]
  | (n0, r0) :: rest, conn, i + 1, htyped, hpass => by
    have ht : r0.Type_ = "aws_greengrass_resource_definition" := htyped (n0, r0) (by simp)
    obtain ⟨name0, rs0, out0, h1, h2, h3⟩ := hpass 0 (Nat.succ_pos i)
    simp at h1
    obtain ⟨-, rfl⟩ := h1
    have hstep := destroy_step_pass n0 r0 rest conn out0 ht h2 h3
    have ih := destroy_stops_at rest (ListResourceDefinitions { MaxResults := some "20" } conn).2
      i (fun x hx => htyped x (List.mem_cons_of_mem _ hx)) (passesBefore_tail _ rest conn i hpass)
    rw [hstep, afterListCalls_succ, afterListCalls_succ] at *
    constructor
    · intro hlen
      exact ih.1 (by simpa using hlen)
    · intro name rs h
      exact ih.2 name rs (by simpa using h)

theorem destroy_first_list_fails (s : State) (conn : GreengrassConn) (e : AwsError)
    (h0 : conn.listOutcomes 0 = .error e) (hs : definitionResources s ≠ []) :
    (testAccCheckAWSGreengrassResourceDefinitionDestroy s conn).1 = .err (.sdk e) := by
  rw [destroy_ignores_other_types]
  cases hds : definitionResources s with
  | nil => exact absurd hds hs
  | cons r rest =>
    obtain ⟨name, rs⟩ := r
    have hmem : (name, rs) ∈ definitionResources s := by rw [hds]; simp
    have ht : rs.Type_ = "aws_greengrass_resource_definition" := by
      have := (List.mem_filter.mp hmem).2
      simpa using this
    simp [testAccCheckAWSGreengrassResourceDefinitionDestroy, ht, ListResourceDefinitions, h0]

theorem sampleState_noNilPointers : NoNilPointers sampleState sampleListing := by
  constructor
  · intro name rs hmem _
    simp only [sampleState, List.mem_cons, Prod.mk.injEq, List.mem_singleton] at hmem
    rcases hmem with ⟨-, rfl⟩ | ⟨-, rfl⟩ | ⟨-, rfl⟩ | hmem
    · simp
    · simp
    · simp
    · simp at hmem
  · intro definition hmem
    simp only [sampleListing, List.mem_cons, List.mem_singleton] at hmem
    rcases hmem with rfl | rfl | hmem
    · simp
    · simp
    · simp at hmem

theorem sampleState_hasListedDefinition : HasListedDefinition sampleState sampleListing :=
  ⟨"aws_greengrass_resource_definition.b",
    { Type_ := "aws_greengrass_resource_definition",
      Primary := some { ID := "d3", Attributes := [] } },
    { ID := "d3", Attributes := [] }, { Id := some "d3" },
    by simp [sampleState], rfl, rfl, by simp [sampleListing], rfl⟩

theorem definitionResources_typed (s : State) (x : String × ResourceState)
    (hx : x ∈ definitionResources s) : x.2.Type_ = "aws_greengrass_resource_definition" := by
  have := (List.mem_filter.mp hx).2
  simpa using this

/-- C12: the destroy check of the Greengrass resource definition tests ignores
the state resources of any other type (it gives the same result, with the same
list calls, on the resources of type `aws_greengrass_resource_definition`
alone); when its list calls succeed with a listing, and the pointers it
dereferences are set, it returns an error if and only if some state resource
of that type has a primary ID equal to the Id of a listed definition, and nil
otherwise; and the error of a failing list call is returned as it is: when the
resources of the type before the `i`-th pass (their list calls succeed and no
listed Id is their primary ID), a failure of the list call of the `i`-th is
returned unmodified after `i + 1` list calls, an error of its inner loop is
returned likewise, and past the last resource the check returns nil. -/
theorem destroy_check_errors_iff_definition_listed (s : State) (conn : GreengrassConn)
    (out : ListResourceDefinitionsOutput) :
    testAccCheckAWSGreengrassResourceDefinitionDestroy s conn =
      testAccCheckAWSGreengrassResourceDefinitionDestroy (definitionResources s) conn ∧
    ((∀ n, conn.listOutcomes n = .ok out) → NoNilPointers s out →
      ((∃ e, (testAccCheckAWSGreengrassResourceDefinitionDestroy s conn).1 = .err e) ↔
        HasListedDefinition s out) ∧
      (¬ HasListedDefinition s out →
        (testAccCheckAWSGreengrassResourceDefinitionDestroy s conn).1 = .nil)) ∧
    (∀ e, conn.listOutcomes 0 = .error e → definitionResources s ≠ [] →
      (testAccCheckAWSGreengrassResourceDefinitionDestroy s conn).1 = .err (.sdk e)) ∧
    (∀ e, (testAccCheckAWSGreengrassResourceDefinitionDestroy s conn).1 = .err (.sdk e) →
      ∃ n, conn.listOutcomes n = .error e) ∧
    (∀ i, PassesBefore (definitionResources s) conn i →
      (i = (definitionResources s).length →
        testAccCheckAWSGreengrassResourceDefinitionDestroy s conn =
          (.nil, afterListCalls conn i)) ∧
      (∀ name rs, (definitionResources s)[i]? = some (name, rs) →
        (∀ e, conn.listOutcomes i = .error e →
          testAccCheckAWSGreengrassResourceDefinitionDestroy s conn =
            (.err (.sdk e), afterListCalls conn (i + 1))) ∧
        (∀ lst e, conn.listOutcomes i = .ok lst →
          checkDefinitions rs lst.Definitions = .ok (some e) →
          testAccCheckAWSGreengrassResourceDefinitionDestroy s conn =
            (.err e, afterListCalls conn (i + 1))))) := by
  refine ⟨destroy_ignores_other_types s conn, ?_, destroy_first_list_fails s conn,
    destroy_sdk_error_origin s conn, ?_⟩
  · intro hconst hnil
    have h := destroy_constant_listing out s conn hconst hnil
    refine ⟨⟨?_, fun hl => ?_⟩, h.2⟩
    · rintro ⟨e, he⟩
      by_contra hno
      rw [h.2 hno] at he
      cases he
    · obtain ⟨msg, hmsg⟩ := h.1 hl
      exact ⟨_, hmsg⟩
  · intro i hpass
    rw [destroy_ignores_other_types]
    exact destroy_stops_at (definitionResources s) conn i (definitionResources_typed s) hpass

theorem destroy_check_errors_iff_definition_listed_witness :
    (∃ e, (testAccCheckAWSGreengrassResourceDefinitionDestroy sampleState
      (constantConn sampleListing)).1 = .err e) ∧
    (testAccCheckAWSGreengrassResourceDefinitionDestroy sampleState
      (failingConn (sampleError 3))).1 = .err (.sdk (sampleError 3)) ∧
    testAccCheckAWSGreengrassResourceDefinitionDestroy sampleState
        (laterFailingConn { Definitions := [{ Id := some "d2" }] } (sampleError 4)) =
      (.err (.sdk (sampleError 4)),
        afterListCalls (laterFailingConn { Definitions := [{ Id := some "d2" }] }
          (sampleError 4)) 2) := by
  refine ⟨?_, ?_, ?_⟩
  · exact ((destroy_check_errors_iff_definition_listed sampleState (constantConn sampleListing)
      sampleListing).2.1 (fun _ => rfl) sampleState_noNilPointers).1.mpr
      sampleState_hasListedDefinition
  · exact (destroy_check_errors_iff_definition_listed sampleState (failingConn (sampleError 3))
      sampleListing).2.2.1 (sampleError 3) rfl (by simp [definitionResources, sampleState])
  · have hres : definitionResources sampleState =
        [("aws_greengrass_resource_definition.a",
          { Type_ := "aws_greengrass_resource_definition",
            Primary := some { ID := "d1", Attributes := [] } }),
         ("aws_greengrass_resource_definition.b",
          { Type_ := "aws_greengrass_resource_definition",
            Primary := some { ID := "d3", Attributes := [] } })] := by
      simp [definitionResources, sampleState]
    have hpass : PassesBefore (definitionResources sampleState)
        (laterFailingConn { Definitions := [{ Id := some "d2" }] } (sampleError 4)) 1 := by
      intro j hj
      have hj0 : j = 0 := by omega
      subst hj0
      rw [hres]
      exact ⟨_, _, { Definitions := [{ Id := some "d2" }] }, rfl, rfl, by
        simp [checkDefinitions]⟩
    exact (((destroy_check_errors_iff_definition_listed sampleState
      (laterFailingConn { Definitions := [{ Id := some "d2" }] } (sampleError 4))
      sampleListing).2.2.2.2 1 hpass).2 "aws_greengrass_resource_definition.b"
      { Type_ := "aws_greengrass_resource_definition",
        Primary := some { ID := "d3", Attributes := [] } } (by rw [hres]; rfl)).1
      (sampleError 4) rfl

/-! ## The version identifier across applies -/

theorem applySpec_mirror (spec : DefinitionSpec) (dep : Deployment) :
    (applySpec spec dep).mirror = some spec := by
  simp only [applySpec]
  split
  · rfl
  · rename_i m hm
    split
    · rename_i h; rw [hm, h]
    · rfl

theorem applySpec_idem (spec : DefinitionSpec) (dep : Deployment) :
    applySpec spec (applySpec spec dep) = applySpec spec dep := by
  have h := applySpec_mirror spec dep
  generalize applySpec spec dep = dep₁ at h ⊢
  simp [applySpec, h]

theorem applySpec_changed (spec spec' : DefinitionSpec) (dep : Deployment) (h : spec ≠ spec') :
    (applySpec spec' (applySpec spec dep)).versions = (applySpec spec dep).versions + 1 := by
  have hm := applySpec_mirror spec dep
  generalize applySpec spec dep = dep₁ at hm ⊢
  simp [applySpec, hm, h]

theorem latest_of_mirror (versionArn : Nat → String) (dep : Deployment) (m : DefinitionSpec)
    (h : dep.mirror = some m) :
    latestDefinitionVersionArn versionArn dep = some (versionArn dep.versions) := by
  simp [latestDefinitionVersionArn, stateOf, h, List.lookup]

theorem checkAndGet_of_mirror (versionArn : Nat → String) (dep : Deployment) (m : DefinitionSpec)
    (h : dep.mirror = some m) (old : String) :
    testAccAWSGreengrassResourceDefinitionCheckAndGetResourceVersion
      "aws_greengrass_resource_definition.test" old (stateOf versionArn dep) =
      (.nil, versionArn dep.versions) := by
  simp [testAccAWSGreengrassResourceDefinitionCheckAndGetResourceVersion, stateOf, h, List.lookup]

theorem variant_ne_imp_ne (spec spec' : DefinitionSpec) (h : spec.variant ≠ spec'.variant) :
    spec ≠ spec' :=
  fun he => h (he ▸ rfl)

theorem sampleVersionArn_injective : Function.Injective sampleVersionArn := by
  intro a b h
  have := congrArg String.length h
  simpa [sampleVersionArn, String.length] using this

/-- C13: on the modelled apply of a Greengrass resource definition, applying a
specification and then the identical specification again leaves
`latest_definition_version_arn` unchanged, and applying then a specification
whose data container variant differs gives a different
`latest_definition_version_arn`, provided distinct versions have distinct
identifiers; so the checks of the first two steps of the tests `versionNoop`
and `versionDiff` (local device replaced by local volume) return nil. -/
theorem reapply_keeps_and_variant_change_renews_version_arn (versionArn : Nat → String)
    (hinj : Function.Injective versionArn) (dep : Deployment) (spec spec' : DefinitionSpec) :
    (∃ arn, latestDefinitionVersionArn versionArn (applySpec spec dep) = some arn) ∧
    latestDefinitionVersionArn versionArn (applySpec spec (applySpec spec dep)) =
      latestDefinitionVersionArn versionArn (applySpec spec dep) ∧
    (spec.variant ≠ spec'.variant →
      latestDefinitionVersionArn versionArn (applySpec spec' (applySpec spec dep)) ≠
        latestDefinitionVersionArn versionArn (applySpec spec dep)) ∧
    (∀ rString, TestAccAWSGreengrassResourceDefinition_versionNoop versionArn rString = .nil ∧
      TestAccAWSGreengrassResourceDefinition_versionDiff versionArn rString = .nil) := by
  refine ⟨⟨_, latest_of_mirror versionArn _ spec (applySpec_mirror spec dep)⟩, ?_, ?_, ?_⟩
  · rw [applySpec_idem]
  · intro hv
    rw [latest_of_mirror versionArn _ spec' (applySpec_mirror spec' _),
      latest_of_mirror versionArn _ spec (applySpec_mirror spec dep),
      applySpec_changed spec spec' dep (variant_ne_imp_ne spec spec' hv)]
    intro h
    have := hinj (Option.some.inj h)
    omega
  · intro rString
    constructor
    · unfold TestAccAWSGreengrassResourceDefinition_versionNoop
      conv_lhs => zeta
      rw [checkAndGet_of_mirror versionArn _ _ (applySpec_mirror _ _),
        checkAndGet_of_mirror versionArn _ _ (applySpec_mirror _ _), applySpec_idem]
      simp
    · unfold TestAccAWSGreengrassResourceDefinition_versionDiff
      conv_lhs => zeta
      rw [checkAndGet_of_mirror versionArn _ _ (applySpec_mirror _ _),
        checkAndGet_of_mirror versionArn _ _ (applySpec_mirror _ _)]
      have hne : testAccAWSGreengrassResourceDefinitionConfig_LocalDevice rString ≠
          testAccAWSGreengrassResourceDefinitionConfig_LocalVolume rString := by
        apply variant_ne_imp_ne
        simp [DefinitionSpec.variant, testAccAWSGreengrassResourceDefinitionConfig_LocalDevice,
          testAccAWSGreengrassResourceDefinitionConfig_LocalVolume, DataContainer.variant]
      rw [applySpec_changed _ _ _ hne]
      have : versionArn (applySpec
          (testAccAWSGreengrassResourceDefinitionConfig_LocalDevice rString)
          emptyDeployment).versions ≠ versionArn ((applySpec
          (testAccAWSGreengrassResourceDefinitionConfig_LocalDevice rString)
          emptyDeployment).versions + 1) := fun h => by
        have := hinj h
        omega
      simp [this]

theorem reapply_keeps_and_variant_change_renews_version_arn_witness :
    latestDefinitionVersionArn sampleVersionArn
        (applySpec (testAccAWSGreengrassResourceDefinitionConfig_LocalVolume "x")
          (applySpec (testAccAWSGreengrassResourceDefinitionConfig_LocalDevice "x")
            emptyDeployment)) ≠
      latestDefinitionVersionArn sampleVersionArn
        (applySpec (testAccAWSGreengrassResourceDefinitionConfig_LocalDevice "x")
          emptyDeployment) ∧
    TestAccAWSGreengrassResourceDefinition_versionDiff sampleVersionArn "x" = .nil := by
  have h := reapply_keeps_and_variant_change_renews_version_arn sampleVersionArn
    sampleVersionArn_injective emptyDeployment
    (testAccAWSGreengrassResourceDefinitionConfig_LocalDevice "x")
    (testAccAWSGreengrassResourceDefinitionConfig_LocalVolume "x")
  refine ⟨h.2.2.1 ?_, (h.2.2.2 "x").2⟩
  simp [DefinitionSpec.variant, testAccAWSGreengrassResourceDefinitionConfig_LocalDevice,
    testAccAWSGreengrassResourceDefinitionConfig_LocalVolume, DataContainer.variant]

/-! ## Re-sending the mirror of a storage object -/

theorem parseChannel_flattened_customer (b r : String) (kp : Option String)
    (hkp : kp = none ∨ ∃ k, kp = some k ∧ k.length ≥ 1) :
    parseChannelCustomerManagedS3 ([("bucket", .str b), ("role_arn", .str r)] ++
        match kp with
        | some k => [("key_prefix", Value.str k)]
        | none => []) =
      .ok { Bucket := some b, KeyPrefix := kp, RoleArn := some r } := by
  rcases hkp with rfl | ⟨k, rfl, hk⟩
  · rw [parseChannelCustomerManagedS3_eq _ b r (by simp [GoMap.get?_cons])
      (by simp [GoMap.get?_cons])]
    simp [GoMap.get?_cons, GoMap.get?_nil]
  · rw [parseChannelCustomerManagedS3_eq _ b r (by simp [GoMap.get?_cons])
      (by simp [GoMap.get?_cons])]
    simp [GoMap.get?_cons, hk]

theorem parseChannel_flattenChannel (s : ChannelStorage) (hs : s.Resendable) :
    ∃ out, flattenChannelStorage (some s) = .ok (some out) ∧ parseChannelStorage out = .ok s := by
  obtain ⟨c, sv⟩ := s
  obtain ⟨hany, hc⟩ := hs
  cases c with
  | none =>
    cases sv with
    | none => simp at hany
    | some sv =>
      refine ⟨_, rfl, ?_⟩
      simp [parseChannelStorage, GoMap.set, GoMap.get, GoMap.get?_cons, wrapMapInList,
        flattenChannelCustomerManagedS3, flattenChannelServiceManagedS3, Value.asList, index0,
        Value.asMap, parseChannelServiceManagedS3, bind, Except.bind, pure, Except.pure]
  | some c =>
    obtain ⟨bk, kp, ra⟩ := c
    obtain ⟨hb, hr, hkp⟩ := hc _ rfl
    obtain ⟨b, rfl⟩ := Option.isSome_iff_exists.mp hb
    obtain ⟨r, rfl⟩ := Option.isSome_iff_exists.mp hr
    have hp := parseChannel_flattened_customer b r kp hkp
    simp only [List.cons_append, List.nil_append] at hp
    cases sv with
    | none =>
      refine ⟨_, flattenChannelStorage_customerOnly b r kp, ?_⟩
      simp [parseChannelStorage, GoMap.get, GoMap.get?_cons, Value.asList, index0, Value.asMap,
        hp, bind, Except.bind, pure, Except.pure]
    | some sv =>
      refine ⟨[("customer_managed_s3", .list [.map ([("bucket", .str b), ("role_arn", .str r)] ++
          match kp with
          | some k => [("key_prefix", Value.str k)]
          | none => [])]), ("service_managed_s3", .list [.map []])], ?_, ?_⟩
      · simp [flattenChannelStorage, flattenChannelCustomerManagedS3_eq,
          flattenChannelServiceManagedS3, wrapMapInList, GoMap.set]
      · simp [parseChannelStorage, GoMap.get, GoMap.get?_cons, Value.asList, index0, Value.asMap,
          hp, parseChannelServiceManagedS3, bind, Except.bind, pure, Except.pure]

theorem parseDatastore_flattened_customer (b r : String) (kp : Option String)
    (hkp : kp = none ∨ ∃ k, kp = some k ∧ k.length ≥ 1) :
    parseDatastoreCustomerManagedS3 ([("bucket", .str b), ("role_arn", .str r)] ++
        match kp with
        | some k => [("key_prefix", Value.str k)]
        | none => []) =
      .ok { Bucket := some b, KeyPrefix := kp, RoleArn := some r } := by
  rcases hkp with rfl | ⟨k, rfl, hk⟩
  · rw [parseDatastoreCustomerManagedS3_eq _ b r (by simp [GoMap.get?_cons])
      (by simp [GoMap.get?_cons])]
    simp [GoMap.get?_cons, GoMap.get?_nil]
  · rw [parseDatastoreCustomerManagedS3_eq _ b r (by simp [GoMap.get?_cons])
      (by simp [GoMap.get?_cons])]
    simp [GoMap.get?_cons, hk]

theorem parseDatastore_flattenDatastore (s : DatastoreStorage) (hs : s.Resendable) :
    ∃ out, flattenDatastoreStorage (some s) = .ok (some out) ∧ parseDatastoreStorage out = .ok s := by
  obtain ⟨c, sv⟩ := s
  obtain ⟨hany, hc⟩ := hs
  cases c with
  | none =>
    cases sv with
    | none => simp at hany
    | some sv =>
      refine ⟨_, rfl, ?_⟩
      simp [parseDatastoreStorage, GoMap.set, GoMap.get, GoMap.get?_cons, wrapMapInList,
        flattenDatastoreCustomerManagedS3, flattenDatastoreServiceManagedS3, Value.asList, index0,
        Value.asMap, parseDatastoreServiceManagedS3, bind, Except.bind, pure, Except.pure]
  | some c =>
    obtain ⟨bk, kp, ra⟩ := c
    obtain ⟨hb, hr, hkp⟩ := hc _ rfl
    obtain ⟨b, rfl⟩ := Option.isSome_iff_exists.mp hb
    obtain ⟨r, rfl⟩ := Option.isSome_iff_exists.mp hr
    have hp := parseDatastore_flattened_customer b r kp hkp
    simp only [List.cons_append, List.nil_append] at hp
    cases sv with
    | none =>
      refine ⟨_, flattenDatastoreStorage_customerOnly b r kp, ?_⟩
      simp [parseDatastoreStorage, GoMap.get, GoMap.get?_cons, Value.asList, index0, Value.asMap,
        hp, bind, Except.bind, pure, Except.pure]
    | some sv =>
      refine ⟨[("customer_managed_s3", .list [.map ([("bucket", .str b), ("role_arn", .str r)] ++
          match kp with
          | some k => [("key_prefix", Value.str k)]
          | none => [])]), ("service_managed_s3", .list [.map []])], ?_, ?_⟩
      · simp [flattenDatastoreStorage, flattenDatastoreCustomerManagedS3_eq,
          flattenDatastoreServiceManagedS3, wrapMapInList, GoMap.set]
      · simp [parseDatastoreStorage, GoMap.get, GoMap.get?_cons, Value.asList, index0, Value.asMap,
          hp, parseDatastoreServiceManagedS3, bind, Except.bind, pure, Except.pure]

/-- Parse after flatten, on the map that flatten returns: for every storage
object with at least one variant present, whose customer-managed variant (when
present) has a bucket and a role ARN set and a key prefix that is absent or
non-empty, flattening gives a map, and parsing that very map gives back the
storage object, field for field; for the channel and for the datastore
functions. -/
theorem parse_of_flatten_reproduces_storage (cs : ChannelStorage) (ds : DatastoreStorage) :
    (cs.Resendable →
      ∃ out, flattenChannelStorage (some cs) = .ok (some out) ∧
        parseChannelStorage out = .ok cs) ∧
    (ds.Resendable →
      ∃ out, flattenDatastoreStorage (some ds) = .ok (some out) ∧
        parseDatastoreStorage out = .ok ds) :=
  ⟨parseChannel_flattenChannel cs, parseDatastore_flattenDatastore ds⟩

theorem parse_of_flatten_reproduces_storage_witness :
    bothVariantsStorage.Resendable ∧
    ∃ out, flattenChannelStorage (some bothVariantsStorage) = .ok (some out) ∧
      parseChannelStorage out = .ok bothVariantsStorage := by
  have hr : bothVariantsStorage.Resendable := by
    refine ⟨Or.inl rfl, ?_⟩
    intro c hc
    simp only [bothVariantsStorage, Option.some.injEq] at hc
    subst hc
    exact ⟨rfl, rfl, Or.inr ⟨"in/", rfl, by decide⟩⟩
  exact ⟨hr, (parse_of_flatten_reproduces_storage bothVariantsStorage ⟨none, none⟩).1 hr⟩

/-! ## The datastore functions are the channel functions renamed -/

theorem parseDatastoreCustomerManagedS3_rename (m : GoMap) :
    parseDatastoreCustomerManagedS3 m =
      (parseChannelCustomerManagedS3 m).map CustomerManagedChannelS3Storage.toDatastore := by
  simp only [parseDatastoreCustomerManagedS3, parseChannelCustomerManagedS3, bind, Except.bind,
    pure, Except.pure]
  cases (m.get "bucket").asString with
  | error f => rfl
  | ok b =>
    cases (m.get "role_arn").asString with
    | error f => rfl
    | ok r =>
      cases m.get? "key_prefix" with
      | none => rfl
      | some v =>
        cases v <;> simp [Value.asString, Except.map, CustomerManagedChannelS3Storage.toDatastore]
        split <;> rfl

theorem parseDatastoreStorage_rename (raw : GoMap) :
    parseDatastoreStorage raw = (parseChannelStorage raw).map ChannelStorage.toDatastore := by
  simp only [parseDatastoreStorage, parseChannelStorage, bind, Except.bind, pure, Except.pure,
    parseDatastoreCustomerManagedS3_rename]
  cases (raw.get "customer_managed_s3").asList with
  | error f => rfl
  | ok lc =>
    rcases lc with _ | ⟨x, xs⟩
    · cases (raw.get "service_managed_s3").asList with
      | error f => rfl
      | ok ls =>
        rcases ls with _ | ⟨y, ys⟩
        · rfl
        · cases hy : y.asMap <;> simp [index0, hy, Except.map, ChannelStorage.toDatastore,
            ServiceManagedChannelS3Storage.toDatastore, parseDatastoreServiceManagedS3]
    · cases hx : x.asMap with
      | error f => simp [index0, hx, Except.map]
      | ok mx =>
        cases hp : parseChannelCustomerManagedS3 mx with
        | error f => simp [index0, hx, hp, Except.map]
        | ok c =>
          cases (raw.get "service_managed_s3").asList with
          | error f => simp [index0, hx, hp, Except.map]
          | ok ls =>
            rcases ls with _ | ⟨y, ys⟩
            · simp [index0, hx, hp, Except.map, ChannelStorage.toDatastore]
            · cases hy : y.asMap <;> simp [index0, hx, hp, hy, Except.map,
                ChannelStorage.toDatastore, ServiceManagedChannelS3Storage.toDatastore,
                parseDatastoreServiceManagedS3]

theorem flattenDatastoreStorage_rename (s : Option ChannelStorage) :
    flattenDatastoreStorage (s.map ChannelStorage.toDatastore) = flattenChannelStorage s := by
  cases s with
  | none => rfl
  | some s =>
    obtain ⟨c, sv⟩ := s
    cases c <;> cases sv <;> rfl

theorem datastoreCreateParams_rename (hp : RetentionHelpers) (d : ResourceData) :
    datastoreCreateParams hp d =
      (channelCreateParams hp d).map CreateChannelInput.toDatastore := by
  obtain ⟨id, name, storage, retention⟩ := d
  simp only [datastoreCreateParams, channelCreateParams, bind, Except.bind, pure, Except.pure,
    parseDatastoreStorage_rename]
  rcases storage with _ | ⟨x, xs⟩
  · rcases retention with _ | ⟨y, ys⟩
    · rfl
    · cases hy : y.asMap with
      | error f => simp [index0, hy, Except.map]
      | ok my =>
        cases hr : hp.parseRetentionPeriod my <;>
          simp [index0, hy, hr, Except.map, CreateChannelInput.toDatastore]
  · cases hx : x.asMap with
    | error f => simp [index0, hx, Except.map]
    | ok mx =>
      cases hs : parseChannelStorage mx with
      | error f => simp [index0, hx, hs, Except.map]
      | ok st =>
        rcases retention with _ | ⟨y, ys⟩
        · simp [index0, hx, hs, Except.map, CreateChannelInput.toDatastore]
        · cases hy : y.asMap with
          | error f => simp [index0, hx, hs, hy, Except.map]
          | ok my =>
            cases hr : hp.parseRetentionPeriod my <;>
              simp [index0, hx, hs, hy, hr, Except.map, CreateChannelInput.toDatastore]

theorem datastoreUpdateParams_rename (hp : RetentionHelpers) (d : ResourceData) :
    datastoreUpdateParams hp d =
      (channelUpdateParams hp d).map UpdateChannelInput.toDatastore := by
  obtain ⟨id, name, storage, retention⟩ := d
  simp only [datastoreUpdateParams, channelUpdateParams, bind, Except.bind, pure, Except.pure,
    parseDatastoreStorage_rename]
  rcases storage with _ | ⟨x, xs⟩
  · rcases retention with _ | ⟨y, ys⟩
    · rfl
    · cases hy : y.asMap with
      | error f => simp [index0, hy, Except.map]
      | ok my =>
        cases hr : hp.parseRetentionPeriod my <;>
          simp [index0, hy, hr, Except.map, UpdateChannelInput.toDatastore]
  · cases hx : x.asMap with
    | error f => simp [index0, hx, Except.map]
    | ok mx =>
      cases hs : parseChannelStorage mx with
      | error f => simp [index0, hx, hs, Except.map]
      | ok st =>
        rcases retention with _ | ⟨y, ys⟩
        · simp [index0, hx, hs, Except.map, UpdateChannelInput.toDatastore]
        · cases hy : y.asMap with
          | error f => simp [index0, hx, hs, hy, Except.map]
          | ok my =>
            cases hr : hp.parseRetentionPeriod my <;>
              simp [index0, hx, hs, hy, hr, Except.map, UpdateChannelInput.toDatastore]

theorem retryLoop_same (ev ev' : Event) (hev : ev.isMutating = true)
    (hev' : ev'.isMutating = true) (w : World) :
    (retryLoop (World.mutate ev') retrySecondsList none w).1 =
      (retryLoop (World.mutate ev) retrySecondsList none w).1 ∧
    mutatingCalls (retryLoop (World.mutate ev') retrySecondsList none w).2.trace =
      mutatingCalls (retryLoop (World.mutate ev) retrySecondsList none w).2.trace ∧
    sleeps (retryLoop (World.mutate ev') retrySecondsList none w).2.trace =
      sleeps (retryLoop (World.mutate ev) retrySecondsList none w).2.trace ∧
    (retryLoop (World.mutate ev') retrySecondsList none w).2.mutateOutcomes =
      (retryLoop (World.mutate ev) retrySecondsList none w).2.mutateOutcomes := by
  rcases first_success_or_all_fail w.mutateOutcomes 6 with ⟨k, hk, hok, hfail⟩ | hall
  · rw [retryLoop_success ev k w hk hfail hok, retryLoop_success ev' k w hk hfail hok]
    refine ⟨rfl, ?_, ?_, rfl⟩
    · simp only [afterSuccess, mutatingCalls_append, mutatingCalls_failTrace ev hev,
        mutatingCalls_failTrace ev' hev', mutatingCalls_single ev hev,
        mutatingCalls_single ev' hev']
    · simp only [afterSuccess, sleeps_append, sleeps_failTrace ev hev, sleeps_failTrace ev' hev',
        sleeps_single ev hev, sleeps_single ev' hev']
  · rw [retryLoop_exhausted ev w hall, retryLoop_exhausted ev' w hall]
    refine ⟨rfl, ?_, ?_, rfl⟩
    · simp only [afterExhaustion, mutatingCalls_append, mutatingCalls_failTrace ev hev,
        mutatingCalls_failTrace ev' hev']
    · simp only [afterExhaustion, sleeps_append, sleeps_failTrace ev hev,
        sleeps_failTrace ev' hev']

theorem viaRetry_sameRetry (ev ev' : Event) (hev : ev.isMutating = true)
    (hev' : ev'.isMutating = true) (read read' : World → Ret × ResourceData × World)
    (hread : ReadLike read) (hread' : ReadLike read')
    (hm : ∀ w, (read w).2.2.mutateOutcomes = w.mutateOutcomes)
    (hm' : ∀ w, (read' w).2.2.mutateOutcomes = w.mutateOutcomes)
    (d : ResourceData) (w : World) :
    SameRetry w (viaRetry ev read d w) (viaRetry ev' read' d w) := by
  rcases first_success_or_all_fail w.mutateOutcomes 6 with ⟨k, hk, hok, hfail⟩ | hall
  · have h := viaRetry_success_trace ev hev read hread d w k hk hfail hok
    have h' := viaRetry_success_trace ev' hev' read' hread' d w k hk hfail hok
    refine ⟨by rw [h.1, h'.1], by rw [h.2.1, h'.2.1], ?_, ?_⟩
    · rw [viaRetry_success ev read d w k hk hfail hok,
        viaRetry_success ev' read' d w k hk hfail hok, hm, hm']
      rfl
    · intro hall
      exact absurd hok (hall k hk)
  · have h := viaRetry_exhausted_trace ev hev read d w hall
    have h' := viaRetry_exhausted_trace ev' hev' read' d w hall
    obtain ⟨e, he⟩ := exists_sixth_error w hall
    refine ⟨by rw [h.1, h'.1], by rw [h.2.1, h'.2.1], ?_, ?_⟩
    · rw [viaRetry_exhausted ev read d w e hall he, viaRetry_exhausted ev' read' d w e hall he]
      rfl
    · intro _
      rw [viaRetry_exhausted ev read d w e hall he, viaRetry_exhausted ev' read' d w e hall he]

theorem channelRead_mutateOutcomes (hp : RetentionHelpers) (d : ResourceData) (w : World) :
    (resourceAwsIotAnalyticsChannelRead hp d w).2.2.mutateOutcomes = w.mutateOutcomes := by
  simp only [resourceAwsIotAnalyticsChannelRead, DescribeChannel]
  split
  · rename_i h; simp only [Prod.mk.injEq] at h; rw [← h.2]
  · rename_i h; simp only [Prod.mk.injEq] at h
    split
    · rw [← h.2]
    · split
      · rw [← h.2]
      · split <;> rw [← h.2]

theorem datastoreRead_mutateOutcomes (hp : RetentionHelpers) (d : ResourceData) (w : World) :
    (resourceAwsIotAnalyticsDatastoreRead hp d w).2.2.mutateOutcomes = w.mutateOutcomes := by
  simp only [resourceAwsIotAnalyticsDatastoreRead, DescribeDatastore]
  split
  · rename_i h; simp only [Prod.mk.injEq] at h; rw [← h.2]
  · rename_i h; simp only [Prod.mk.injEq] at h
    split
    · rw [← h.2]
    · split
      · rw [← h.2]
      · split <;> rw [← h.2]

theorem create_sameRetry (hp : RetentionHelpers) (d : ResourceData) (w : World)
    (p : CreateChannelInput) (h : channelCreateParams hp d = .ok p) :
    datastoreCreateParams hp d = .ok p.toDatastore ∧
    SameRetry w (resourceAwsIotAnalyticsChannelCreate hp d w)
      (resourceAwsIotAnalyticsDatastoreCreate hp d w) := by
  have h' : datastoreCreateParams hp d = .ok p.toDatastore := by
    rw [datastoreCreateParams_rename, h]; rfl
  refine ⟨h', ?_⟩
  rw [channelCreate_viaRetry hp d w p h, datastoreCreate_viaRetry hp d w _ h']
  exact viaRetry_sameRetry _ _ (by rfl) (by rfl) _ _ (channelRead_readLike hp _)
    (datastoreRead_readLike hp _) (channelRead_mutateOutcomes hp _)
    (datastoreRead_mutateOutcomes hp _) d w

theorem update_sameRetry (hp : RetentionHelpers) (d : ResourceData) (w : World)
    (p : UpdateChannelInput) (h : channelUpdateParams hp d = .ok p) :
    datastoreUpdateParams hp d = .ok p.toDatastore ∧
    SameRetry w (resourceAwsIotAnalyticsChannelUpdate hp d w)
      (resourceAwsIotAnalyticsDatastoreUpdate hp d w) := by
  have h' : datastoreUpdateParams hp d = .ok p.toDatastore := by
    rw [datastoreUpdateParams_rename, h]; rfl
  refine ⟨h', ?_⟩
  rw [channelUpdate_viaRetry hp d w p h, datastoreUpdate_viaRetry hp d w _ h']
  exact viaRetry_sameRetry _ _ (by rfl) (by rfl) _ _ (channelRead_readLike hp _)
    (datastoreRead_readLike hp _) (channelRead_mutateOutcomes hp _)
    (datastoreRead_mutateOutcomes hp _) d w

/-- C15: the datastore functions are the channel functions up to the renaming
of the SDK types: on every raw map `parseDatastoreStorage` gives the renamed
result of `parseChannelStorage` (same fault, or same variant presence, bucket,
role ARN and key prefix); on every storage object `flattenDatastoreStorage`
gives the map that `flattenChannelStorage` gives; and on every outcome
sequence the retry loops of datastore create and update give the same error,
the same number of calls and the same sleeps as the channel ones, in the loops
themselves and in the handlers, whose requests are the renamed ones. -/
theorem datastore_functions_are_channel_functions_renamed (raw : GoMap)
    (s : Option ChannelStorage) (hp : RetentionHelpers) (d : ResourceData) (w : World)
    (pc : CreateChannelInput) (pd : CreateDatastoreInput)
    (uc : UpdateChannelInput) (ud : UpdateDatastoreInput) :
    parseDatastoreStorage raw = (parseChannelStorage raw).map ChannelStorage.toDatastore ∧
    flattenDatastoreStorage (s.map ChannelStorage.toDatastore) = flattenChannelStorage s ∧
    ((retryLoop (CreateDatastore pd) retrySecondsList none w).1 =
        (retryLoop (CreateChannel pc) retrySecondsList none w).1 ∧
      mutatingCalls (retryLoop (CreateDatastore pd) retrySecondsList none w).2.trace =
        mutatingCalls (retryLoop (CreateChannel pc) retrySecondsList none w).2.trace ∧
      sleeps (retryLoop (CreateDatastore pd) retrySecondsList none w).2.trace =
        sleeps (retryLoop (CreateChannel pc) retrySecondsList none w).2.trace) ∧
    ((retryLoop (UpdateDatastore ud) retrySecondsList none w).1 =
        (retryLoop (UpdateChannel uc) retrySecondsList none w).1 ∧
      mutatingCalls (retryLoop (UpdateDatastore ud) retrySecondsList none w).2.trace =
        mutatingCalls (retryLoop (UpdateChannel uc) retrySecondsList none w).2.trace ∧
      sleeps (retryLoop (UpdateDatastore ud) retrySecondsList none w).2.trace =
        sleeps (retryLoop (UpdateChannel uc) retrySecondsList none w).2.trace) ∧
    (∀ p, channelCreateParams hp d = .ok p →
      datastoreCreateParams hp d = .ok p.toDatastore ∧
      SameRetry w (resourceAwsIotAnalyticsChannelCreate hp d w)
        (resourceAwsIotAnalyticsDatastoreCreate hp d w)) ∧
    (∀ p, channelUpdateParams hp d = .ok p →
      datastoreUpdateParams hp d = .ok p.toDatastore ∧
      SameRetry w (resourceAwsIotAnalyticsChannelUpdate hp d w)
        (resourceAwsIotAnalyticsDatastoreUpdate hp d w)) := by
  have hc := retryLoop_same (.CreateChannel pc) (.CreateDatastore pd) (by rfl) (by rfl) w
  have hu := retryLoop_same (.UpdateChannel uc) (.UpdateDatastore ud) (by rfl) (by rfl) w
  exact ⟨parseDatastoreStorage_rename raw, flattenDatastoreStorage_rename s,
    ⟨hc.1, hc.2.1, hc.2.2.1⟩, ⟨hu.1, hu.2.1, hu.2.2.1⟩,
    create_sameRetry hp d w, update_sameRetry hp d w⟩

theorem datastore_functions_are_channel_functions_renamed_witness :
    (resourceAwsIotAnalyticsDatastoreCreate noRetention sampleData (sampleWorld 6)).1 =
      (resourceAwsIotAnalyticsChannelCreate noRetention sampleData (sampleWorld 6)).1 ∧
    sleeps (resourceAwsIotAnalyticsDatastoreUpdate noRetention sampleData (sampleWorld 2)).2.2.trace
      = sleeps
        (resourceAwsIotAnalyticsChannelUpdate noRetention sampleData (sampleWorld 2)).2.2.trace := by
  have h6 := (datastore_functions_are_channel_functions_renamed [] none noRetention sampleData
    (sampleWorld 6) ⟨none, none, none⟩ ⟨none, none, none⟩ ⟨none, none, none⟩
    ⟨none, none, none⟩).2.2.2.2.1 _ rfl
  have h2 := (datastore_functions_are_channel_functions_renamed [] none noRetention sampleData
    (sampleWorld 2) ⟨none, none, none⟩ ⟨none, none, none⟩ ⟨none, none, none⟩
    ⟨none, none, none⟩).2.2.2.2.2 _ rfl
  exact ⟨h6.2.2.2.2 (by intro i hi; simp [sampleWorld, hi]), h2.2.2.1⟩

/-! ## The key prefix through parse and flatten -/

theorem parseChannelCustomerManagedS3_ok (m : GoMap) (c : CustomerManagedChannelS3Storage)
    (h : parseChannelCustomerManagedS3 m = .ok c) :
    ∃ b r, m.get "bucket" = .str b ∧ m.get "role_arn" = .str r ∧
      c.Bucket = some b ∧ c.RoleArn = some r ∧
      ∀ k, c.KeyPrefix = some k ↔ (m.get? "key_prefix" = some (.str k) ∧ k.length ≥ 1) := by
  simp only [parseChannelCustomerManagedS3, bind, Except.bind, pure, Except.pure] at h
  cases hb : m.get "bucket" <;> simp [hb, Value.asString] at h
  rename_i b
  cases hr : m.get "role_arn" <;> simp [hr, Value.asString] at h
  rename_i r
  refine ⟨b, r, rfl, rfl, ?_⟩
  cases hk : m.get? "key_prefix" with
  | none =>
    simp [hk] at h
    subst h
    simp
  | some v =>
    cases v <;> simp [hk, Value.asString] at h
    rename_i k
    by_cases hlen : 1 ≤ k.length
    · simp [hlen] at h
      subst h
      refine ⟨rfl, rfl, ?_⟩
      intro k'
      constructor
      · intro he
        simp at he
        subst he
        exact ⟨rfl, hlen⟩
      · rintro ⟨he, -⟩
        simp at he
        simp [he]
    · simp [hlen] at h
      subst h
      refine ⟨rfl, rfl, ?_⟩
      intro k'
      constructor
      · intro he
        simp at he
      · rintro ⟨he, hl⟩
        simp at he
        subst he
        exact absurd hl hlen

theorem flattenChannelCustomerManagedS3_keys (c : CustomerManagedChannelS3Storage) :
    ∃ out, flattenChannelCustomerManagedS3 (some c) = some out ∧
      ((out.get? "key_prefix").isSome = c.KeyPrefix.isSome) ∧
      (∀ k, c.KeyPrefix = some k → out.get? "key_prefix" = some (.str k)) := by
  obtain ⟨bk, kp, ra⟩ := c
  cases kp with
  | none =>
    refine ⟨_, rfl, ?_, ?_⟩
    · simp [GoMap.set, GoMap.get?_cons, GoMap.get?_nil]
    · intro k hk; simp at hk
  | some k =>
    refine ⟨_, rfl, ?_, ?_⟩
    · simp [GoMap.set, GoMap.get?_cons, GoMap.get?_nil]
    · intro k' hk
      simp at hk
      subst hk
      simp [GoMap.set, GoMap.get?_cons, StringValue]

theorem channel_flatten_parse_no_empty_key (m : GoMap) (c : CustomerManagedChannelS3Storage)
    (out : GoMap) (h : parseChannelCustomerManagedS3 m = .ok c)
    (ho : flattenChannelCustomerManagedS3 (some c) = some out) :
    out.get? "key_prefix" ≠ some (.str "") := by
  obtain ⟨b, r, -, -, -, -, hkp⟩ := parseChannelCustomerManagedS3_ok m c h
  obtain ⟨out', ho', hsome, hval⟩ := flattenChannelCustomerManagedS3_keys c
  rw [ho] at ho'
  cases ho'
  intro he
  cases hc : c.KeyPrefix with
  | none =>
    rw [he, hc] at hsome
    simp at hsome
  | some k =>
    have := hval k hc
    rw [he] at this
    simp at this
    subst this
    have := ((hkp "").mp hc).2
    simp at this

theorem channel_flatten_parse_config (m : GoMap) (hm : IsCustomerManagedConfig m) :
    ∃ c out, parseChannelCustomerManagedS3 m = .ok c ∧
      flattenChannelCustomerManagedS3 (some c) = some out ∧
      (m.get? "key_prefix" ≠ some (.str "") → GoMap.Same out m) ∧
      (m.get? "key_prefix" = some (.str "") → GoMap.Same out (m.erase "key_prefix")) := by
  obtain ⟨⟨b, hb⟩, ⟨r, hr⟩, hkp, hother⟩ := hm
  have hsame := flattened_same m b r hb hr hother
  have hp := parseChannelCustomerManagedS3_eq m b r hb hr
  rcases hkp with hnone | ⟨k, hk⟩
  · rw [hnone] at hp
    refine ⟨_, _, hp, flattenChannelCustomerManagedS3_eq b r none, ?_, ?_⟩
    · intro _; exact hsame.1 hnone
    · intro he; rw [hnone] at he; cases he
  · rw [hk] at hp
    by_cases hlen : k.length ≥ 1
    · simp only [hlen, if_true] at hp
      refine ⟨_, _, hp, flattenChannelCustomerManagedS3_eq b r (some k), ?_, ?_⟩
      · intro _; exact (hsame.2 k hk).1
      · intro he
        rw [hk] at he
        simp at he
        subst he
        simp at hlen
    · simp only [hlen, if_false] at hp
      refine ⟨_, _, hp, flattenChannelCustomerManagedS3_eq b r none, ?_, ?_⟩
      · intro hne
        exact absurd (string_eq_empty_of_length k hlen ▸ hk) hne
      · intro _; exact (hsame.2 k hk).2

theorem parseDatastoreCustomerManagedS3_ok (m : GoMap) (c : CustomerManagedDatastoreS3Storage)
    (h : parseDatastoreCustomerManagedS3 m = .ok c) :
    ∃ b r, m.get "bucket" = .str b ∧ m.get "role_arn" = .str r ∧
      c.Bucket = some b ∧ c.RoleArn = some r ∧
      ∀ k, c.KeyPrefix = some k ↔ (m.get? "key_prefix" = some (.str k) ∧ k.length ≥ 1) := by
  simp only [parseDatastoreCustomerManagedS3, bind, Except.bind, pure, Except.pure] at h
  cases hb : m.get "bucket" <;> simp [hb, Value.asString] at h
  rename_i b
  cases hr : m.get "role_arn" <;> simp [hr, Value.asString] at h
  rename_i r
  refine ⟨b, r, rfl, rfl, ?_⟩
  cases hk : m.get? "key_prefix" with
  | none =>
    simp [hk] at h
    subst h
    simp
  | some v =>
    cases v <;> simp [hk, Value.asString] at h
    rename_i k
    by_cases hlen : 1 ≤ k.length
    · simp [hlen] at h
      subst h
      refine ⟨rfl, rfl, ?_⟩
      intro k'
      constructor
      · intro he
        simp at he
        subst he
        exact ⟨rfl, hlen⟩
      · rintro ⟨he, -⟩
        simp at he
        simp [he]
    · simp [hlen] at h
      subst h
      refine ⟨rfl, rfl, ?_⟩
      intro k'
      constructor
      · intro he
        simp at he
      · rintro ⟨he, hl⟩
        simp at he
        subst he
        exact absurd hl hlen

theorem flattenDatastoreCustomerManagedS3_keys (c : CustomerManagedDatastoreS3Storage) :
    ∃ out, flattenDatastoreCustomerManagedS3 (some c) = some out ∧
      ((out.get? "key_prefix").isSome = c.KeyPrefix.isSome) ∧
      (∀ k, c.KeyPrefix = some k → out.get? "key_prefix" = some (.str k)) := by
  obtain ⟨bk, kp, ra⟩ := c
  cases kp with
  | none =>
    refine ⟨_, rfl, ?_, ?_⟩
    · simp [GoMap.set, GoMap.get?_cons, GoMap.get?_nil]
    · intro k hk; simp at hk
  | some k =>
    refine ⟨_, rfl, ?_, ?_⟩
    · simp [GoMap.set, GoMap.get?_cons, GoMap.get?_nil]
    · intro k' hk
      simp at hk
      subst hk
      simp [GoMap.set, GoMap.get?_cons, StringValue]

theorem datastore_flatten_parse_no_empty_key (m : GoMap) (c : CustomerManagedDatastoreS3Storage)
    (out : GoMap) (h : parseDatastoreCustomerManagedS3 m = .ok c)
    (ho : flattenDatastoreCustomerManagedS3 (some c) = some out) :
    out.get? "key_prefix" ≠ some (.str "") := by
  obtain ⟨b, r, -, -, -, -, hkp⟩ := parseDatastoreCustomerManagedS3_ok m c h
  obtain ⟨out', ho', hsome, hval⟩ := flattenDatastoreCustomerManagedS3_keys c
  rw [ho] at ho'
  cases ho'
  intro he
  cases hc : c.KeyPrefix with
  | none =>
    rw [he, hc] at hsome
    simp at hsome
  | some k =>
    have := hval k hc
    rw [he] at this
    simp at this
    subst this
    have := ((hkp "").mp hc).2
    simp at this

theorem datastore_flatten_parse_config (m : GoMap) (hm : IsCustomerManagedConfig m) :
    ∃ c out, parseDatastoreCustomerManagedS3 m = .ok c ∧
      flattenDatastoreCustomerManagedS3 (some c) = some out ∧
      (m.get? "key_prefix" ≠ some (.str "") → GoMap.Same out m) ∧
      (m.get? "key_prefix" = some (.str "") → GoMap.Same out (m.erase "key_prefix")) := by
  obtain ⟨⟨b, hb⟩, ⟨r, hr⟩, hkp, hother⟩ := hm
  have hsame := flattened_same m b r hb hr hother
  have hp := parseDatastoreCustomerManagedS3_eq m b r hb hr
  rcases hkp with hnone | ⟨k, hk⟩
  · rw [hnone] at hp
    refine ⟨_, _, hp, flattenDatastoreCustomerManagedS3_eq b r none, ?_, ?_⟩
    · intro _; exact hsame.1 hnone
    · intro he; rw [hnone] at he; cases he
  · rw [hk] at hp
    by_cases hlen : k.length ≥ 1
    · simp only [hlen, if_true] at hp
      refine ⟨_, _, hp, flattenDatastoreCustomerManagedS3_eq b r (some k), ?_, ?_⟩
      · intro _; exact (hsame.2 k hk).1
      · intro he
        rw [hk] at he
        simp at he
        subst he
        simp at hlen
    · simp only [hlen, if_false] at hp
      refine ⟨_, _, hp, flattenDatastoreCustomerManagedS3_eq b r none, ?_, ?_⟩
      · intro hne
        exact absurd (string_eq_empty_of_length k hlen ▸ hk) hne
      · intro _; exact (hsame.2 k hk).2

/-- C16: whenever `parseChannelCustomerManagedS3` accepts a raw map it sets
`Bucket` and `RoleArn` to the `bucket` and `role_arn` strings of the map, and
it sets `KeyPrefix` to `k` if and only if the map has the `key_prefix` entry
`k` of length at least 1; `flattenChannelCustomerManagedS3` emits a
`key_prefix` entry if and only if `KeyPrefix` is present; hence flattening the
parsed map never gives an empty `key_prefix`, and for a customer-managed
configuration (string bucket and role ARN, optional string key prefix, no
other key) it gives the map itself, with an empty `key_prefix` entry removed.
Likewise for the datastore functions. -/
theorem key_prefix_kept_iff_nonempty (m : GoMap) :
    ((∀ c, parseChannelCustomerManagedS3 m = .ok c →
        (∃ b r, m.get "bucket" = .str b ∧ m.get "role_arn" = .str r ∧
          c.Bucket = some b ∧ c.RoleArn = some r ∧
          ∀ k, c.KeyPrefix = some k ↔ (m.get? "key_prefix" = some (.str k) ∧ k.length ≥ 1)) ∧
        ∀ out, flattenChannelCustomerManagedS3 (some c) = some out →
          out.get? "key_prefix" ≠ some (.str "")) ∧
      (∀ c : CustomerManagedChannelS3Storage,
        ∃ out, flattenChannelCustomerManagedS3 (some c) = some out ∧
          ((out.get? "key_prefix").isSome = c.KeyPrefix.isSome) ∧
          (∀ k, c.KeyPrefix = some k → out.get? "key_prefix" = some (.str k))) ∧
      (IsCustomerManagedConfig m →
        ∃ c out, parseChannelCustomerManagedS3 m = .ok c ∧
          flattenChannelCustomerManagedS3 (some c) = some out ∧
          (m.get? "key_prefix" ≠ some (.str "") → GoMap.Same out m) ∧
          (m.get? "key_prefix" = some (.str "") → GoMap.Same out (m.erase "key_prefix")))) ∧
    ((∀ c, parseDatastoreCustomerManagedS3 m = .ok c →
        (∃ b r, m.get "bucket" = .str b ∧ m.get "role_arn" = .str r ∧
          c.Bucket = some b ∧ c.RoleArn = some r ∧
          ∀ k, c.KeyPrefix = some k ↔ (m.get? "key_prefix" = some (.str k) ∧ k.length ≥ 1)) ∧
        ∀ out, flattenDatastoreCustomerManagedS3 (some c) = some out →
          out.get? "key_prefix" ≠ some (.str "")) ∧
      (∀ c : CustomerManagedDatastoreS3Storage,
        ∃ out, flattenDatastoreCustomerManagedS3 (some c) = some out ∧
          ((out.get? "key_prefix").isSome = c.KeyPrefix.isSome) ∧
          (∀ k, c.KeyPrefix = some k → out.get? "key_prefix" = some (.str k))) ∧
      (IsCustomerManagedConfig m →
        ∃ c out, parseDatastoreCustomerManagedS3 m = .ok c ∧
          flattenDatastoreCustomerManagedS3 (some c) = some out ∧
          (m.get? "key_prefix" ≠ some (.str "") → GoMap.Same out m) ∧
          (m.get? "key_prefix" = some (.str "") → GoMap.Same out (m.erase "key_prefix")))) :=
  ⟨⟨fun c h => ⟨parseChannelCustomerManagedS3_ok m c h,
        fun out ho => channel_flatten_parse_no_empty_key m c out h ho⟩,
      flattenChannelCustomerManagedS3_keys, channel_flatten_parse_config m⟩,
    ⟨fun c h => ⟨parseDatastoreCustomerManagedS3_ok m c h,
        fun out ho => datastore_flatten_parse_no_empty_key m c out h ho⟩,
      flattenDatastoreCustomerManagedS3_keys, datastore_flatten_parse_config m⟩⟩

theorem key_prefix_kept_iff_nonempty_witness :
    (∃ c out, parseChannelCustomerManagedS3 emptyPrefixConfig = .ok c ∧
      flattenChannelCustomerManagedS3 (some c) = some out ∧
      GoMap.Same out (emptyPrefixConfig.erase "key_prefix")) ∧
    (∃ c out, parseDatastoreCustomerManagedS3 fullConfig = .ok c ∧
      flattenDatastoreCustomerManagedS3 (some c) = some out ∧ GoMap.Same out fullConfig) := by
  obtain ⟨c, out, h1, h2, -, h4⟩ :=
    (key_prefix_kept_iff_nonempty emptyPrefixConfig).1.2.2 emptyPrefixConfig_isConfig
  obtain ⟨c', out', h1', h2', h3', -⟩ :=
    (key_prefix_kept_iff_nonempty fullConfig).2.2.2 fullConfig_isConfig
  exact ⟨⟨c, out, h1, h2, h4 (by simp [emptyPrefixConfig, GoMap.get?_cons])⟩,
    ⟨c', out', h1', h2', h3' (by simp [fullConfig, GoMap.get?_cons])⟩⟩

/-! ## Re-sending the mirror that read stored -/

theorem readBackString_str (v : Option Value) : ∃ x, readBackString v = .str x := by
  unfold readBackString
  split
  · exact ⟨_, rfl⟩
  · exact ⟨_, rfl⟩

theorem parseChannel_readBack_customer (m : GoMap) :
    ∃ m' c, readBackCustomerManagedS3 (.map m) = .map m' ∧
      parseChannelCustomerManagedS3 m' = .ok c := by
  obtain ⟨b, hb⟩ := readBackString_str (GoMap.get? m "bucket")
  obtain ⟨k, hk⟩ := readBackString_str (GoMap.get? m "key_prefix")
  obtain ⟨r, hr⟩ := readBackString_str (GoMap.get? m "role_arn")
  refine ⟨[("bucket", .str b), ("key_prefix", .str k), ("role_arn", .str r)],
    ⟨some b, if k.length ≥ 1 then some k else none, some r⟩, ?_, ?_⟩
  · simp only [readBackCustomerManagedS3, hb, hk, hr]
  · rw [parseChannelCustomerManagedS3_eq _ b r (by simp [GoMap.get?_cons])
      (by simp [GoMap.get?_cons])]
    simp [GoMap.get?_cons]

/-- The mirror of a storage object with the service-managed variant, as read
back through the schema, makes `parseChannelStorage` panic. -/
theorem parseChannel_readBack_serviceManaged (s : ChannelStorage)
    (sv : ServiceManagedChannelS3Storage) (hsv : s.ServiceManagedS3 = some sv) :
    ∃ out raw, flattenChannelStorage (some s) = .ok (some out) ∧
      readBackStorage (.map out) = .map raw ∧
      parseChannelStorage raw = .error .typeAssertion := by
  obtain ⟨c, sv'⟩ := s
  simp only at hsv
  subst hsv
  cases c with
  | none =>
    refine ⟨_, _, rfl, rfl, ?_⟩
    simp [parseChannelStorage, GoMap.set, GoMap.get, GoMap.get?_cons, wrapMapInList,
      flattenChannelCustomerManagedS3, flattenChannelServiceManagedS3, readBackList,
      readBackServiceManagedS3, Value.asList, index0, Value.asMap, bind, Except.bind, pure,
      Except.pure]
  | some c =>
    obtain ⟨m, hm⟩ := flattenChannelCustomerManagedS3_some c
    obtain ⟨m', c', hm', hc'⟩ := parseChannel_readBack_customer m
    refine ⟨[("customer_managed_s3", .list [.map m]), ("service_managed_s3", .list [.map []])],
      [("customer_managed_s3", .list [.map m']), ("service_managed_s3", .list [.nil])], ?_, ?_, ?_⟩
    · simp [flattenChannelStorage, hm, flattenChannelServiceManagedS3, wrapMapInList, GoMap.set]
    · simp [readBackStorage, readBackList, GoMap.get, GoMap.get?_cons, hm',
        readBackServiceManagedS3]
    · simp [parseChannelStorage, GoMap.get, GoMap.get?_cons, Value.asList, index0, Value.asMap,
        hc', bind, Except.bind, pure, Except.pure]

/-- The mirror of a storage object with the customer-managed variant alone, as
read back through the schema, is parsed into the storage object itself. -/
theorem parseChannel_readBack_customerOnly (b r : String) (kp : Option String)
    (hkp : kp = none ∨ ∃ k, kp = some k ∧ k.length ≥ 1) :
    ∃ out raw, flattenChannelStorage (some ⟨some ⟨some b, kp, some r⟩, none⟩) = .ok (some out) ∧
      readBackStorage (.map out) = .map raw ∧
      parseChannelStorage raw = .ok ⟨some ⟨some b, kp, some r⟩, none⟩ := by
  refine ⟨_, [("customer_managed_s3", .list [.map [("bucket", .str b),
      ("key_prefix", .str (kp.getD "")), ("role_arn", .str r)]]),
      ("service_managed_s3", .list [])], flattenChannelStorage_customerOnly b r kp, ?_, ?_⟩
  · rcases hkp with rfl | ⟨k, rfl, -⟩ <;>
      simp [readBackStorage, readBackList, readBackCustomerManagedS3, readBackString, GoMap.get,
        GoMap.get?_cons, GoMap.get?_nil]
  · have hc : parseChannelCustomerManagedS3 [("bucket", .str b),
        ("key_prefix", .str (kp.getD "")), ("role_arn", .str r)] =
        .ok ⟨some b, kp, some r⟩ := by
      rw [parseChannelCustomerManagedS3_eq _ b r (by simp [GoMap.get?_cons])
        (by simp [GoMap.get?_cons])]
      rcases hkp with rfl | ⟨k, rfl, hk⟩
      · simp [GoMap.get?_cons]
      · simp [GoMap.get?_cons, hk]
    simp [parseChannelStorage, GoMap.get, GoMap.get?_cons, Value.asList, index0, Value.asMap,
      hc, bind, Except.bind, pure, Except.pure]

theorem parseDatastore_readBack_customer (m : GoMap) :
    ∃ m' c, readBackCustomerManagedS3 (.map m) = .map m' ∧
      parseDatastoreCustomerManagedS3 m' = .ok c := by
  obtain ⟨b, hb⟩ := readBackString_str (GoMap.get? m "bucket")
  obtain ⟨k, hk⟩ := readBackString_str (GoMap.get? m "key_prefix")
  obtain ⟨r, hr⟩ := readBackString_str (GoMap.get? m "role_arn")
  refine ⟨[("bucket", .str b), ("key_prefix", .str k), ("role_arn", .str r)],
    ⟨some b, if k.length ≥ 1 then some k else none, some r⟩, ?_, ?_⟩
  · simp only [readBackCustomerManagedS3, hb, hk, hr]
  · rw [parseDatastoreCustomerManagedS3_eq _ b r (by simp [GoMap.get?_cons])
      (by simp [GoMap.get?_cons])]
    simp [GoMap.get?_cons]

/-- The mirror of a storage object with the service-managed variant, as read
back through the schema, makes `parseDatastoreStorage` panic. -/
theorem parseDatastore_readBack_serviceManaged (s : DatastoreStorage)
    (sv : ServiceManagedDatastoreS3Storage) (hsv : s.ServiceManagedS3 = some sv) :
    ∃ out raw, flattenDatastoreStorage (some s) = .ok (some out) ∧
      readBackStorage (.map out) = .map raw ∧
      parseDatastoreStorage raw = .error .typeAssertion := by
  obtain ⟨c, sv'⟩ := s
  simp only at hsv
  subst hsv
  cases c with
  | none =>
    refine ⟨_, _, rfl, rfl, ?_⟩
    simp [parseDatastoreStorage, GoMap.set, GoMap.get, GoMap.get?_cons, wrapMapInList,
      flattenDatastoreCustomerManagedS3, flattenDatastoreServiceManagedS3, readBackList,
      readBackServiceManagedS3, Value.asList, index0, Value.asMap, bind, Except.bind, pure,
      Except.pure]
  | some c =>
    obtain ⟨m, hm⟩ := flattenDatastoreCustomerManagedS3_some c
    obtain ⟨m', c', hm', hc'⟩ := parseDatastore_readBack_customer m
    refine ⟨[("customer_managed_s3", .list [.map m]), ("service_managed_s3", .list [.map []])],
      [("customer_managed_s3", .list [.map m']), ("service_managed_s3", .list [.nil])], ?_, ?_, ?_⟩
    · simp [flattenDatastoreStorage, hm, flattenDatastoreServiceManagedS3, wrapMapInList, GoMap.set]
    · simp [readBackStorage, readBackList, GoMap.get, GoMap.get?_cons, hm',
        readBackServiceManagedS3]
    · simp [parseDatastoreStorage, GoMap.get, GoMap.get?_cons, Value.asList, index0, Value.asMap,
        hc', bind, Except.bind, pure, Except.pure]

/-- The mirror of a storage object with the customer-managed variant alone, as
read back through the schema, is parsed into the storage object itself. -/
theorem parseDatastore_readBack_customerOnly (b r : String) (kp : Option String)
    (hkp : kp = none ∨ ∃ k, kp = some k ∧ k.length ≥ 1) :
    ∃ out raw, flattenDatastoreStorage (some ⟨some ⟨some b, kp, some r⟩, none⟩) = .ok (some out) ∧
      readBackStorage (.map out) = .map raw ∧
      parseDatastoreStorage raw = .ok ⟨some ⟨some b, kp, some r⟩, none⟩ := by
  refine ⟨_, [("customer_managed_s3", .list [.map [("bucket", .str b),
      ("key_prefix", .str (kp.getD "")), ("role_arn", .str r)]]),
      ("service_managed_s3", .list [])], flattenDatastoreStorage_customerOnly b r kp, ?_, ?_⟩
  · rcases hkp with rfl | ⟨k, rfl, -⟩ <;>
      simp [readBackStorage, readBackList, readBackCustomerManagedS3, readBackString, GoMap.get,
        GoMap.get?_cons, GoMap.get?_nil]
  · have hc : parseDatastoreCustomerManagedS3 [("bucket", .str b),
        ("key_prefix", .str (kp.getD "")), ("role_arn", .str r)] =
        .ok ⟨some b, kp, some r⟩ := by
      rw [parseDatastoreCustomerManagedS3_eq _ b r (by simp [GoMap.get?_cons])
        (by simp [GoMap.get?_cons])]
      rcases hkp with rfl | ⟨k, rfl, hk⟩
      · simp [GoMap.get?_cons]
      · simp [GoMap.get?_cons, hk]
    simp [parseDatastoreStorage, GoMap.get, GoMap.get?_cons, Value.asList, index0, Value.asMap,
      hc, bind, Except.bind, pure, Except.pure]

/-- Read of a resource whose storage object has the service-managed variant
returns nil, and the update that re-sends the mirror read stored panics in
`parseChannelStorage` before any remote call. -/
theorem channelUpdate_after_read_serviceManaged (hp : RetentionHelpers) (d : ResourceData)
    (w : World) (ch : Channel) (s : ChannelStorage) (sv : ServiceManagedChannelS3Storage)
    (rp : Option GoMap)
    (hdesc : w.describeChannelOutcomes 0 = .ok { Channel := some ch })
    (hst : ch.Storage = some s) (hsv : s.ServiceManagedS3 = some sv)
    (hrp : hp.flattenRetentionPeriod ch.RetentionPeriod = .ok rp) :
    (resourceAwsIotAnalyticsChannelRead hp d w).1 = .nil ∧
    resourceAwsIotAnalyticsChannelUpdate hp (resourceAwsIotAnalyticsChannelRead hp d w).2.1
        (resourceAwsIotAnalyticsChannelRead hp d w).2.2 =
      (.panic .typeAssertion, (resourceAwsIotAnalyticsChannelRead hp d w).2.1,
        (resourceAwsIotAnalyticsChannelRead hp d w).2.2) := by
  obtain ⟨out, raw, hf, hrb, hparse⟩ := parseChannel_readBack_serviceManaged s sv hsv
  have hread : resourceAwsIotAnalyticsChannelRead hp d w =
      (.nil, { (d.SetName ch.Name).SetStorage (wrapMapInList (some out)) with
                retention_period := wrapMapInList rp },
        (DescribeChannel { ChannelName := some d.id } w).2) := by
    simp [resourceAwsIotAnalyticsChannelRead, DescribeChannel, hdesc, hst, hf, hrp]
  rw [hread]
  refine ⟨rfl, ?_⟩
  simp [resourceAwsIotAnalyticsChannelUpdate, channelUpdateParams, ResourceData.SetStorage,
    wrapMapInList, hrb, index0, Value.asMap, hparse, bind, Except.bind, pure, Except.pure]

/-- Read of a resource whose storage object has the customer-managed variant
alone stores a mirror from which the update builds a request that carries the
storage object itself. -/
theorem channelUpdate_after_read_customerOnly (hp : RetentionHelpers) (d : ResourceData)
    (w : World) (ch : Channel) (b r : String) (kp : Option String) (rp : Option GoMap)
    (hkp : kp = none ∨ ∃ k, kp = some k ∧ k.length ≥ 1)
    (hdesc : w.describeChannelOutcomes 0 = .ok { Channel := some ch })
    (hst : ch.Storage = some ⟨some ⟨some b, kp, some r⟩, none⟩)
    (hrp : hp.flattenRetentionPeriod ch.RetentionPeriod = .ok rp) :
    (resourceAwsIotAnalyticsChannelRead hp d w).1 = .nil ∧
    ∀ p, channelUpdateParams hp (resourceAwsIotAnalyticsChannelRead hp d w).2.1 = .ok p →
      p.ChannelStorage = some ⟨some ⟨some b, kp, some r⟩, none⟩ := by
  obtain ⟨out, raw, hf, hrb, hparse⟩ := parseChannel_readBack_customerOnly b r kp hkp
  have hread : resourceAwsIotAnalyticsChannelRead hp d w =
      (.nil, { (d.SetName ch.Name).SetStorage (wrapMapInList (some out)) with
                retention_period := wrapMapInList rp },
        (DescribeChannel { ChannelName := some d.id } w).2) := by
    simp [resourceAwsIotAnalyticsChannelRead, DescribeChannel, hdesc, hst, hf, hrp]
  rw [hread]
  refine ⟨rfl, ?_⟩
  intro p hp'
  cases rp with
  | none =>
    simp [channelUpdateParams, ResourceData.SetStorage, wrapMapInList, hrb, index0, Value.asMap,
      hparse, bind, Except.bind, pure, Except.pure] at hp'
    rw [← hp']
  | some m =>
    cases hpr : hp.parseRetentionPeriod m with
    | error f =>
      simp [channelUpdateParams, ResourceData.SetStorage, wrapMapInList, hrb, index0, Value.asMap,
        hparse, hpr, bind, Except.bind, pure, Except.pure] at hp'
    | ok rv =>
      simp [channelUpdateParams, ResourceData.SetStorage, wrapMapInList, hrb, index0, Value.asMap,
        hparse, hpr, bind, Except.bind, pure, Except.pure] at hp'
      rw [← hp']

/-- Read of a resource whose storage object has the service-managed variant
returns nil, and the update that re-sends the mirror read stored panics in
`parseDatastoreStorage` before any remote call. -/
theorem datastoreUpdate_after_read_serviceManaged (hp : RetentionHelpers) (d : ResourceData)
    (w : World) (ch : Datastore) (s : DatastoreStorage) (sv : ServiceManagedDatastoreS3Storage)
    (rp : Option GoMap)
    (hdesc : w.describeDatastoreOutcomes 0 = .ok { Datastore := some ch })
    (hst : ch.Storage = some s) (hsv : s.ServiceManagedS3 = some sv)
    (hrp : hp.flattenRetentionPeriod ch.RetentionPeriod = .ok rp) :
    (resourceAwsIotAnalyticsDatastoreRead hp d w).1 = .nil ∧
    resourceAwsIotAnalyticsDatastoreUpdate hp (resourceAwsIotAnalyticsDatastoreRead hp d w).2.1
        (resourceAwsIotAnalyticsDatastoreRead hp d w).2.2 =
      (.panic .typeAssertion, (resourceAwsIotAnalyticsDatastoreRead hp d w).2.1,
        (resourceAwsIotAnalyticsDatastoreRead hp d w).2.2) := by
  obtain ⟨out, raw, hf, hrb, hparse⟩ := parseDatastore_readBack_serviceManaged s sv hsv
  have hread : resourceAwsIotAnalyticsDatastoreRead hp d w =
      (.nil, { (d.SetName ch.Name).SetStorage (wrapMapInList (some out)) with
                retention_period := wrapMapInList rp },
        (DescribeDatastore { DatastoreName := some d.id } w).2) := by
    simp [resourceAwsIotAnalyticsDatastoreRead, DescribeDatastore, hdesc, hst, hf, hrp]
  rw [hread]
  refine ⟨rfl, ?_⟩
  simp [resourceAwsIotAnalyticsDatastoreUpdate, datastoreUpdateParams, ResourceData.SetStorage,
    wrapMapInList, hrb, index0, Value.asMap, hparse, bind, Except.bind, pure, Except.pure]

/-- Read of a resource whose storage object has the customer-managed variant
alone stores a mirror from which the update builds a request that carries the
storage object itself. -/
theorem datastoreUpdate_after_read_customerOnly (hp : RetentionHelpers) (d : ResourceData)
    (w : World) (ch : Datastore) (b r : String) (kp : Option String) (rp : Option GoMap)
    (hkp : kp = none ∨ ∃ k, kp = some k ∧ k.length ≥ 1)
    (hdesc : w.describeDatastoreOutcomes 0 = .ok { Datastore := some ch })
    (hst : ch.Storage = some ⟨some ⟨some b, kp, some r⟩, none⟩)
    (hrp : hp.flattenRetentionPeriod ch.RetentionPeriod = .ok rp) :
    (resourceAwsIotAnalyticsDatastoreRead hp d w).1 = .nil ∧
    ∀ p, datastoreUpdateParams hp (resourceAwsIotAnalyticsDatastoreRead hp d w).2.1 = .ok p →
      p.DatastoreStorage = some ⟨some ⟨some b, kp, some r⟩, none⟩ := by
  obtain ⟨out, raw, hf, hrb, hparse⟩ := parseDatastore_readBack_customerOnly b r kp hkp
  have hread : resourceAwsIotAnalyticsDatastoreRead hp d w =
      (.nil, { (d.SetName ch.Name).SetStorage (wrapMapInList (some out)) with
                retention_period := wrapMapInList rp },
        (DescribeDatastore { DatastoreName := some d.id } w).2) := by
    simp [resourceAwsIotAnalyticsDatastoreRead, DescribeDatastore, hdesc, hst, hf, hrp]
  rw [hread]
  refine ⟨rfl, ?_⟩
  intro p hp'
  cases rp with
  | none =>
    simp [datastoreUpdateParams, ResourceData.SetStorage, wrapMapInList, hrb, index0, Value.asMap,
      hparse, bind, Except.bind, pure, Except.pure] at hp'
    rw [← hp']
  | some m =>
    cases hpr : hp.parseRetentionPeriod m with
    | error f =>
      simp [datastoreUpdateParams, ResourceData.SetStorage, wrapMapInList, hrb, index0, Value.asMap,
        hparse, hpr, bind, Except.bind, pure, Except.pure] at hp'
    | ok rv =>
      simp [datastoreUpdateParams, ResourceData.SetStorage, wrapMapInList, hrb, index0, Value.asMap,
        hparse, hpr, bind, Except.bind, pure, Except.pure] at hp'
      rw [← hp']

/-- C14: parse after flatten gives back the storage object on the map that
flatten returns, but re-sending the mirror obtained by read does not reproduce
a storage configuration with the service-managed variant: read of such a
resource returns nil and stores the mirror, which reads back through the
schema with the nil element in `service_managed_s3`; the update that follows
panics in the type assertion of `parseChannelStorage` (`parseDatastoreStorage`)
and makes no remote call. With the customer-managed variant alone the update
does send the storage object that describe gave. -/
theorem resend_of_service_managed_mirror_panics :
    parseChannelStorage
        [("customer_managed_s3", .list []), ("service_managed_s3", .list [.map []])] =
      .ok { CustomerManagedS3 := none, ServiceManagedS3 := some {} } ∧
    (resourceAwsIotAnalyticsChannelRead noRetention sampleData (sampleWorld 0)).1 = .nil ∧
    (resourceAwsIotAnalyticsChannelRead noRetention sampleData (sampleWorld 0)).2.1.storage =
      [.map [("customer_managed_s3", .list []), ("service_managed_s3", .list [.nil])]] ∧
    (resourceAwsIotAnalyticsChannelUpdate noRetention
        (resourceAwsIotAnalyticsChannelRead noRetention sampleData (sampleWorld 0)).2.1
        (resourceAwsIotAnalyticsChannelRead noRetention sampleData (sampleWorld 0)).2.2).1 =
      .panic .typeAssertion ∧
    mutatingCalls (resourceAwsIotAnalyticsChannelUpdate noRetention
        (resourceAwsIotAnalyticsChannelRead noRetention sampleData (sampleWorld 0)).2.1
        (resourceAwsIotAnalyticsChannelRead noRetention sampleData (sampleWorld 0)).2.2).2.2.trace
      = 0 ∧
    (resourceAwsIotAnalyticsDatastoreUpdate noRetention
        (resourceAwsIotAnalyticsDatastoreRead noRetention sampleData (sampleWorld 0)).2.1
        (resourceAwsIotAnalyticsDatastoreRead noRetention sampleData (sampleWorld 0)).2.2).1 =
      .panic .typeAssertion ∧
    mutatingCalls (resourceAwsIotAnalyticsDatastoreUpdate noRetention
        (resourceAwsIotAnalyticsDatastoreRead noRetention sampleData (sampleWorld 0)).2.1
        (resourceAwsIotAnalyticsDatastoreRead noRetention sampleData (sampleWorld 0)).2.2).2.2.trace
      = 0 ∧
    (resourceAwsIotAnalyticsChannelUpdate noRetention
        (resourceAwsIotAnalyticsChannelRead noRetention sampleData customerManagedWorld).2.1
        (resourceAwsIotAnalyticsChannelRead noRetention sampleData customerManagedWorld).2.2
      ).2.2.trace =
      [.DescribeChannel { ChannelName := some "" },
       .UpdateChannel
         { ChannelName := some "c1",
           ChannelStorage := some
             { CustomerManagedS3 := some { Bucket := some "b1", KeyPrefix := none,
                                           RoleArn := some "arn:aws:iam::1:role/r1" },
               ServiceManagedS3 := none },
           RetentionPeriod := none },
       .DescribeChannel { ChannelName := some "" }] :=
  ⟨rfl, rfl, rfl, rfl, rfl, rfl, rfl, rfl⟩

end IotAnalytics
